import Mathlib

/-!
# MethodDatasetsPluginScan: a shallow embedding

Verification development for `core/src/MethodDatasetsPluginScan.cpp`
(gammacombo): the toy aggregator `readScan1dTrees` and the fit ladders of
`scan1d`.

Conventions of the embedding.

* C++ `float`/`double` values are `FVal`: an exact rational, `+inf`, `-inf`
  or `NaN`. Comparisons and arithmetic follow IEEE-754 on the special values
  (every comparison with `NaN` is false, `x/0` is an infinity or `NaN`);
  on finite values arithmetic is exact, i.e. rounding is not modelled.
* ROOT histogram contents filled with `Fill` are natural-number counts.
* Functions of ROOT, libm and of gammacombo classes whose source is not part
  of this file (`TMath::ChisquareQuantile`, `sqrt`, `Utils::Quantile`,
  `PDF_Datasets::fit`, ...) are parameters.
-/

namespace MethodDatasetsPluginScan

/-! ## Floating point values -/

/-- A C++ floating point value: a finite (exact) rational or an IEEE special value. -/
inductive FVal where
  | fin (q : ℚ)
  | pinf
  | ninf
  | nan
  deriving DecidableEq

namespace FVal

/-- The value of an integer (int to float conversion). -/
def ofInt (n : Int) : FVal := fin (n : ℚ)

/-- The value of a count (size_t or histogram content to float conversion). -/
def ofNat (n : Nat) : FVal := fin (n : ℚ)

/-- C++ `a < b`. -/
def lt : FVal → FVal → Bool
  | fin a, fin b => decide (a < b)
  | fin _, pinf => true
  | ninf, fin _ => true
  | ninf, pinf => true
  | _, _ => false

/-- C++ `a <= b`. -/
def le : FVal → FVal → Bool
  | fin a, fin b => decide (a ≤ b)
  | fin _, pinf => true
  | ninf, fin _ => true
  | ninf, pinf => true
  | pinf, pinf => true
  | ninf, ninf => true
  | _, _ => false

/-- C++ `a > b`. -/
def gt (a b : FVal) : Bool := lt b a

/-- C++ `a >= b`. -/
def ge (a b : FVal) : Bool := le b a

/-- C++ `a == b` (false when either side is NaN). -/
def feq : FVal → FVal → Bool
  | fin a, fin b => decide (a = b)
  | pinf, pinf => true
  | ninf, ninf => true
  | _, _ => false

/-- C++ `a != b` (true when either side is NaN). -/
def fne (a b : FVal) : Bool := !(feq a b)

/-- Unary minus. -/
def neg : FVal → FVal
  | fin a => fin (-a)
  | pinf => ninf
  | ninf => pinf
  | nan => nan

/-- C++ `a + b`. -/
def add : FVal → FVal → FVal
  | fin a, fin b => fin (a + b)
  | nan, _ => nan
  | _, nan => nan
  | pinf, ninf => nan
  | ninf, pinf => nan
  | pinf, _ => pinf
  | ninf, _ => ninf
  | fin _, pinf => pinf
  | fin _, ninf => ninf

/-- C++ `a - b`. -/
def sub (a b : FVal) : FVal := add a (neg b)

/-- The product of an infinity (positive or negative) with the finite `q`: an infinity
with the product of the signs, `NaN` for `q = 0`. -/
def infTimes (positive : Bool) (q : ℚ) : FVal :=
  if q = 0 then nan else if (decide (0 < q)) = positive then pinf else ninf

/-- C++ `a * b`. -/
def mul : FVal → FVal → FVal
  | fin a, fin b => fin (a * b)
  | nan, _ => nan
  | _, nan => nan
  | pinf, fin b => infTimes true b
  | ninf, fin b => infTimes false b
  | fin a, pinf => infTimes true a
  | fin a, ninf => infTimes false a
  | pinf, pinf => pinf
  | ninf, ninf => pinf
  | pinf, ninf => ninf
  | ninf, pinf => ninf

/-- C++ `a / b`; the zero of the model is the positive zero. -/
def div : FVal → FVal → FVal
  | fin a, fin b => if b = 0 then infTimes true a else fin (a / b)
  | nan, _ => nan
  | _, nan => nan
  | fin _, pinf => fin 0
  | fin _, ninf => fin 0
  | pinf, fin b => if 0 ≤ b then pinf else ninf
  | ninf, fin b => if 0 ≤ b then ninf else pinf
  | pinf, pinf => nan
  | pinf, ninf => nan
  | ninf, pinf => nan
  | ninf, ninf => nan

/-- The function `std::abs` on floating point values. -/
def abs : FVal → FVal
  | fin a => fin |a|
  | pinf => pinf
  | ninf => pinf
  | nan => nan

/-- The function `std::isfinite`. -/
def isfinite : FVal → Bool
  | fin _ => true
  | _ => false

/-- The function `std::isinf`. -/
def isinf : FVal → Bool
  | pinf => true
  | ninf => true
  | _ => false

/-- The function `std::isnan`. -/
def isnan : FVal → Bool
  | nan => true
  | _ => false

end FVal

/-! ## ROOT histogram axis (`TAxis` with fixed bin width) -/

/-- The x axis of a `TH1F` created with `(nbins, xmin, xmax)`. -/
structure Axis where
  nbins : Nat
  xmin : ℚ
  xmax : ℚ

namespace Axis

/-- ROOT `TAxis::FindBin`: `0` is the underflow bin, `nbins + 1` the overflow bin,
which also receives NaN (`!(x < xmax)`). -/
def findBin (ax : Axis) (x : FVal) : Nat :=
  if FVal.lt x (FVal.fin ax.xmin) then 0
  else if !(FVal.lt x (FVal.fin ax.xmax)) then ax.nbins + 1
  else
    match x with
    | FVal.fin q => 1 + (Int.toNat ⌊(ax.nbins : ℚ) * (q - ax.xmin) / (ax.xmax - ax.xmin)⌋)
    | _ => ax.nbins + 1

/-- ROOT `TAxis::GetBinCenter` for fixed bin width. -/
def binCenter (ax : Axis) (i : Nat) : ℚ :=
  ax.xmin + ((i : ℚ) - 1 / 2) * ((ax.xmax - ax.xmin) / (ax.nbins : ℚ))

end Axis

/-! ## The toy record (`ToyTree` branches) -/

/-- One entry of the toy tree, as written by `scan1d` and read by `readScan1dTrees`.
All branches are floating point numbers. -/
structure ToyRecord where
  nrun : FVal
  npoint : FVal
  ntoy : FVal
  scanpoint : FVal
  chi2min : FVal
  chi2minGlobal : FVal
  chi2minBkg : FVal
  statusScanData : FVal
  covQualScanData : FVal
  genericProbPValue : FVal
  chi2minToy : FVal
  chi2minToyPDF : FVal
  covQualScan : FVal
  statusScan : FVal
  statusScanPDF : FVal
  chi2minBkgToy : FVal
  chi2minBkgToyPDF : FVal
  chi2minGlobalToy : FVal
  chi2minGlobalToyPDF : FVal
  statusFreePDF : FVal
  statusFree : FVal
  covQualFree : FVal
  scanbest : FVal
  chi2minGlobalBkgToy : FVal
  scanbestBkg : FVal
  deriving DecidableEq

/-- A record with every branch at zero. -/
def ToyRecord.zero : ToyRecord :=
  ⟨.fin 0, .fin 0, .fin 0, .fin 0, .fin 0, .fin 0, .fin 0, .fin 0, .fin 0, .fin 0,
   .fin 0, .fin 0, .fin 0, .fin 0, .fin 0, .fin 0, .fin 0, .fin 0, .fin 0, .fin 0,
   .fin 0, .fin 0, .fin 0, .fin 0, .fin 0⟩

/-! ## `readScan1dTrees`: the record loop -/

/-- The members of the scanner read by the aggregator. -/
structure ScanConfig where
  chi2minGlobal : FVal
  chi2minBkg : FVal

/-- `TH1::Fill(x)` on a histogram of counts: bin `b = FindBin(x)` is incremented. -/
def fill (h : Nat → Nat) (b : Nat) : Nat → Nat :=
  fun i => if i = b then h i + 1 else h i

/-- The call `v[b].push_back(x)` on a `std::map<int, std::vector<double>>`. -/
def pushBack (m : Nat → List FVal) (b : Nat) (x : FVal) : Nat → List FVal :=
  fun i => if i = b then m i ++ [x] else m i

/-- The accumulators of the record loop of `readScan1dTrees`. -/
structure Acc where
  h_better : Nat → Nat
  h_better_cls : Nat → Nat
  h_all : Nat → Nat
  h_failed : Nat → Nat
  h_background : Nat → Nat
  h_gof : Nat → Nat
  h_tot : Nat → Nat
  sampledBValues : Nat → List FVal
  sampledSBValues : Nat → List FVal
  nfailed : Nat

/-- The accumulators before the first record: empty histograms and maps. -/
def Acc.init : Acc :=
  ⟨fun _ => 0, fun _ => 0, fun _ => 0, fun _ => 0, fun _ => 0, fun _ => 0, fun _ => 0,
   fun _ => [], fun _ => [], 0⟩

/-- The flag `convergedFits` of the record loop. -/
def convergedFits (t : ToyRecord) : Bool :=
  FVal.feq t.statusFree (.fin 0) && FVal.feq t.statusScan (.fin 0)

/-- The flag `tooHighLikelihood` of the record loop. -/
def tooHighLikelihood (t : ToyRecord) : Bool :=
  !(FVal.lt (FVal.abs t.chi2minToy) (.fin (10 ^ 27))
    && FVal.lt (FVal.abs t.chi2minGlobalToy) (.fin (10 ^ 27)))

/-- The flag `valid` after the cuts of the record loop. -/
def valid (t : ToyRecord) : Bool :=
  if tooHighLikelihood t || !(convergedFits t) then false else true

/-- The flag `inPhysicalRegion` of the record loop. -/
def inPhysicalRegion (t : ToyRecord) : Bool :=
  FVal.ge (FVal.sub t.chi2minToy t.chi2minGlobalToy) (.fin 0)

/-- The condition under which `h_better` is filled. -/
def isBetter (cfg : ScanConfig) (t : ToyRecord) : Bool :=
  valid t && FVal.ge (FVal.sub t.chi2minToy t.chi2minGlobalToy)
    (FVal.sub t.chi2min cfg.chi2minGlobal)

/-- The condition under which `h_better_cls` is filled. -/
def isBetterCls (cfg : ScanConfig) (t : ToyRecord) : Bool :=
  valid t && FVal.ge (FVal.sub t.chi2minToy t.chi2minGlobalToy)
    (FVal.sub t.chi2min cfg.chi2minBkg)

/-- The condition under which `h_gof` is filled. -/
def isGof (cfg : ScanConfig) (t : ToyRecord) : Bool :=
  inPhysicalRegion t && FVal.gt t.chi2minGlobalToy cfg.chi2minGlobal

/-- The value pushed to `sampledBValues` for a record. -/
def bkgTestStatVal (t : ToyRecord) : FVal :=
  if FVal.le t.scanbestBkg t.scanpoint then FVal.sub t.chi2minBkgToy t.chi2minGlobalBkgToy
  else .fin 0

/-- The value pushed to `sampledSBValues` for a record. -/
def sbTestStatVal (t : ToyRecord) : FVal :=
  if FVal.le t.scanbest t.scanpoint then FVal.sub t.chi2minToy t.chi2minGlobalToy
  else .fin 0

/-- One iteration of the record loop of `readScan1dTrees` (the status bar and the
diagnostic counters `n0tot`, `n0better`, `n0all`, `h_pVals`, `h_probPValues`, which no
result depends on, are left out). -/
def recordStep (cfg : ScanConfig) (ax : Axis) (a : Acc) (t : ToyRecord) : Acc :=
  let b := ax.findBin t.scanpoint
  let a := { a with h_tot := fill a.h_tot b }
  let a := if tooHighLikelihood t || !(convergedFits t)
    then { a with h_failed := fill a.h_failed b, nfailed := a.nfailed + 1 } else a
  let a := if isBetter cfg t then { a with h_better := fill a.h_better b } else a
  let a := if isBetterCls cfg t then { a with h_better_cls := fill a.h_better_cls b } else a
  let a := if isGof cfg t then { a with h_gof := fill a.h_gof b } else a
  let a := if valid t then { a with h_all := fill a.h_all b } else a
  let a := { a with
    sampledBValues := pushBack a.sampledBValues b (bkgTestStatVal t),
    sampledSBValues := pushBack a.sampledSBValues b (sbTestStatVal t) }
  if valid t && !(inPhysicalRegion t)
    then { a with h_background := fill a.h_background b } else a

/-- The record loop of `readScan1dTrees` over the chained toy records. -/
def recordLoop (cfg : ScanConfig) (ax : Axis) (ts : List ToyRecord) : Acc :=
  ts.foldl (recordStep cfg ax) Acc.init

/-! ## `readScan1dTrees`: the loop over the bins -/

/-- Library functions called by the bin loop whose source is outside this file. -/
structure Ext where
  /-- The function `sqrt` of libm. -/
  sqrt : FVal → FVal
  /-- ROOT `TMath::Prob(x, 1)`. -/
  prob : FVal → FVal
  /-- ROOT `TMath::ChisquareQuantile(x, 1)`. -/
  chisquareQuantile : FVal → FVal
  /-- One entry of `Utils::Quantile<double>(data, probs)`: the quantile of `data`
  for one of the requested probabilities. -/
  quantile : List FVal → FVal → FVal
  /-- The function `Utils::getVectorFracAboveValue`. -/
  getVectorFracAboveValue : List FVal → FVal → FVal

/-- Contents and errors, at one bin, of the histograms written by the bin loop
(they share one axis). -/
structure BinRow where
  hCL : FVal
  hCLErr : FVal
  hCLs : FVal
  hCLsErr : FVal
  hCLsFreq : FVal
  hCLsFreqErr : FVal
  hCLsExp : FVal
  hCLsErr1Up : FVal
  hCLsErr1Dn : FVal
  hCLsErr2Up : FVal
  hCLsErr2Dn : FVal
  h_background : FVal
  h_fracGoodToys : FVal
  deriving DecidableEq

/-- The bin of freshly created histograms (`h_background` is a count histogram of
the record loop, whose content is passed separately). -/
def BinRow.init (nbackground : Nat) : BinRow :=
  ⟨.fin 0, .fin 0, .fin 0, .fin 0, .fin 0, .fin 0, .fin 0, .fin 0, .fin 0, .fin 0, .fin 0,
   FVal.ofNat nbackground, .fin 0⟩

/-- ROOT `TMath::Min(a, b)`. -/
def tmathMin (a b : FVal) : FVal := if FVal.le a b then a else b

/-- The function `Utils::sq`. -/
def sq (x : FVal) : FVal := FVal.mul x x

/-- ROOT `TH1::GetMaximumBin` on a histogram of counts: the first bin among
`1..nbins` holding the maximum (`0` when there is no bin). -/
def getMaximumBin (nbins : Nat) (h : Nat → Nat) : Nat :=
  ((List.range nbins).foldl
    (fun (s : Nat × Option Nat) k =>
      match s.2 with
      | none => (k + 1, some (h (k + 1)))
      | some m => if h (k + 1) > m then (k + 1, some (h (k + 1))) else s)
    (0, none)).1

/-- The number `nDataAboveBkgExp`: entries of `sampledBValues[i]` at or above
`dataTestStat`. -/
def nDataAboveBkgExp (vals : List FVal) (dataTestStat : FVal) : Nat :=
  (vals.filter (fun v => FVal.ge v dataTestStat)).length

/-- The variable `dataTestStat` of the bin loop. -/
def dataTestStat (ext : Ext) (p : FVal) : FVal :=
  if FVal.gt p (.fin 0) then ext.chisquareQuantile (FVal.sub (.fin 1) p) else .fin (10 ^ 10)

/-- The variable `dataCLb` of the bin loop. -/
def dataCLb (ext : Ext) (vals : List FVal) (p : FVal) : FVal :=
  FVal.div (FVal.ofNat (nDataAboveBkgExp vals (dataTestStat ext p))) (FVal.ofNat vals.length)

/-- Binomial error `sqrt(p * (1 - p) / n)` as written in the bin loop. -/
def binomErr (ext : Ext) (p n : FVal) : FVal :=
  ext.sqrt (FVal.div (FVal.mul p (FVal.sub (.fin 1) p)) n)

/-- Writes row `r` at bin `i` (`SetBinContent`/`SetBinError` at bin `i`). -/
def setRow (out : Nat → BinRow) (i : Nat) (r : BinRow) : Nat → BinRow :=
  fun j => if j = i then r else out j

/-- One iteration of the loop over the bins of `readScan1dTrees`. -/
def binStep (ext : Ext) (ax : Axis) (a : Acc) (out : Nat → BinRow) (i : Nat) :
    Nat → BinRow :=
  let nbetter := FVal.ofNat (a.h_better i)
  let nbetter_cls := FVal.ofNat (a.h_better_cls i)
  let nall := FVal.ofNat (a.h_all i)
  let nbackground := (out i).h_background
  let ntot := FVal.ofNat (a.h_tot i)
  if FVal.feq nall (.fin 0) then out
  else
    let row := out i
    let row := { row with h_background := FVal.div nbackground nall }
    let row := { row with h_fracGoodToys := FVal.div nall ntot }
    let p := FVal.div nbetter nall
    let p_cls := FVal.div nbetter_cls nall
    let row := { row with hCL := p, hCLErr := binomErr ext p nall }
    let row := { row with hCLs := p_cls, hCLsErr := binomErr ext p_cls nall }
    let prob4 := ext.prob (.fin 4)
    let prob1 := ext.prob (.fin 1)
    let probs := [prob4, prob1, .fin (1 / 2), FVal.sub (.fin 1) prob1, FVal.sub (.fin 1) prob4]
    let clb0 := FVal.sub (.fin 1) prob4
    let clb1 := FVal.sub (.fin 1) prob1
    let clb2 := FVal.fin (1 / 2)
    let clb3 := prob1
    let clb4 := prob4
    let clsb := fun (k : Nat) =>
      ext.getVectorFracAboveValue (a.sampledSBValues i)
        (ext.quantile (a.sampledBValues i) (probs.getD k .nan))
    let row := { row with
      hCLsExp := tmathMin (FVal.div (clsb 2) clb2) (.fin 1),
      hCLsErr1Up := tmathMin (FVal.div (clsb 1) clb1) (.fin 1),
      hCLsErr1Dn := tmathMin (FVal.div (clsb 3) clb3) (.fin 1),
      hCLsErr2Up := tmathMin (FVal.div (clsb 0) clb0) (.fin 1),
      hCLsErr2Dn := tmathMin (FVal.div (clsb 4) clb4) (.fin 1) }
    let dts := dataTestStat ext p
    let dCLb := dataCLb ext (a.sampledBValues i) p
    let dCLbErr := binomErr ext dCLb (FVal.ofNat (a.sampledBValues i).length)
    let row :=
      if FVal.ge (FVal.div p dCLb) (.fin 1) then
        { row with hCLsFreq := .fin 1, hCLsFreqErr := .fin 0 }
      else if FVal.feq dts (.fin (10 ^ 10)) then
        { row with hCLsFreq := row.hCL, hCLsFreqErr := row.hCLErr }
      else if decide (ax.binCenter i ≤ ax.binCenter (getMaximumBin ax.nbins a.h_better)) then
        { row with hCLsFreq := .fin 1, hCLsFreqErr := .fin 0 }
      else
        { row with
          hCLsFreq := FVal.div p dCLb,
          hCLsFreqErr := FVal.mul (FVal.div p dCLb)
            (ext.sqrt (FVal.add (sq (FVal.div row.hCLErr row.hCL)) (sq (FVal.div dCLbErr dCLb)))) }
    setRow out i row

/-- The axis of the histograms created by `readScan1dTrees` from the number of scan
points and the smallest and largest scan point of the tree (for `scanpointN = 0` the
histograms have no bin and the limits of the axis play no role). -/
def treeAxis (scanpointN : Nat) (scanpointMin scanpointMax : ℚ) : Axis :=
  let halfBinWidth := (scanpointMax - scanpointMin) / (scanpointN : ℚ) / 2
  ⟨scanpointN, scanpointMin - halfBinWidth, scanpointMax + halfBinWidth⟩

/-- The loop `for (int i = 1; i <= h_better->GetNbinsX(); i++)` of `readScan1dTrees`. -/
def binLoop (ext : Ext) (ax : Axis) (a : Acc) : Nat → BinRow :=
  (List.range ax.nbins).foldl (fun out k => binStep ext ax a out (k + 1))
    (fun j => BinRow.init (a.h_background j))

/-- The aggregator `readScan1dTrees`: record loop, then bin loop. `scanpointN`,
`scanpointMin`, `scanpointMax` are what the opened `ToyTree` reports. -/
def readScan1dTrees (cfg : ScanConfig) (ext : Ext) (scanpointN : Nat)
    (scanpointMin scanpointMax : ℚ) (ts : List ToyRecord) : Acc × (Nat → BinRow) :=
  let ax := treeAxis scanpointN scanpointMin scanpointMax
  let a := recordLoop cfg ax ts
  (a, binLoop ext ax a)

/-! ## `getPValueTTestStatistic` -/

/-- The function `getPValueTTestStatistic`; `prob` is ROOT `TMath::Prob(x, 1)`. The
warning printed under the verbose flag has no effect on the result. -/
def getPValueTTestStatistic (prob : FVal → FVal) (test_statistic_value : FVal) : FVal :=
  if FVal.gt test_statistic_value (.fin 0) then prob test_statistic_value else .fin 1

/-! ## `scan1d`: state, optimizer and fit helpers -/

/-- A dataset held by the pdf: none, the toy generated for toy `ntoy` of scan point
`npoint`, or the `j`-th background-only toy generated before the scan. -/
inductive DataId where
  | none
  | toy (npoint ntoy : Nat)
  | bkgToy (j : Nat)
  deriving DecidableEq

/-- The range in force for the parameter of interest: one of the named ranges loaded
by `setLimit`, or no range after `removeRange()`. -/
inductive RangeName where
  | free
  | phys
  | scan
  | removed
  deriving DecidableEq

/-- What one call of `PDF_Datasets::fit` yields: the returned `RooFitResult`
(`minNll()`, `status()`, `covQual()`, final value of the parameter of interest) and
the members `minNll` and `fitStatus` the pdf holds after the call. -/
structure FitOutcome where
  minNll : FVal
  status : Int
  covQual : Int
  poiFinal : FVal
  pdfMinNll : FVal
  pdfStatus : Int
  deriving DecidableEq

/-- An optimizer call as logged by the model: the strategy, the dataset and the
constancy of the parameter of interest at the time of the call. -/
structure FitCall where
  strategy : Int
  data : DataId
  poiConstant : Bool
  deriving DecidableEq

/-- An entry of the prob-scan tree, read by `setParevolPointByIndex` and
`getParValAtIndex` (only the parameter of interest is tracked among the parameters). -/
structure ProbScanEntry where
  poi : FVal
  statusScanData : FVal
  chi2min : FVal
  covQualScanData : FVal

/-- Everything `scan1d` takes from outside: options, members set by the constructor
and `initScan`, the prob-scan tree and the optimizer. `fit n` is the outcome of the
`n`-th call of `PDF_Datasets::fit` in the run (counted from 0); the optimizer always
returns a result (a null result is a failed assertion, which is not modelled). -/
structure Env where
  fit : Nat → FitOutcome
  hasBkgPdf : Bool
  nToys : Nat
  nPoints1d : Nat
  nRun : Int
  parameterToScan_min : ℚ
  parameterToScan_max : ℚ
  enforcePhysRange : Bool
  importance : Bool
  /-- The integer `nToys*importance(plhPvalue)` as a function of `plhPvalue`. -/
  importanceToys : FVal → Nat
  prob : FVal → FVal
  probResFileFound : Bool
  chi2minGlobalFound : Bool
  chi2minGlobal : FVal
  chi2minBkg : FVal
  probScan : Nat → ProbScanEntry
  /-- Lower limit of each named range of the parameter of interest. -/
  rangeMin : RangeName → FVal
  /-- Upper limit of each named range of the parameter of interest. -/
  rangeMax : RangeName → FVal
  /-- The entry of the toy tree after `ToyTree::init`. -/
  toyTreeInit : ToyRecord

/-- Ways `scan1d` stops other than by returning: `exit(code)`, a failed `assert`,
an access past the end of a `std::vector`. -/
inductive Abort where
  | exit (code : Nat)
  | assertFailed
  | outOfBounds
  deriving DecidableEq

/-- The mutable state `scan1d` works on. -/
structure ScanState where
  /-- Member `fitStrategy` of the pdf. -/
  fitStrategy : Int
  /-- Member `fitStatus` of the pdf. -/
  fitStatus : Int
  /-- Member `minNll` of the pdf. -/
  minNll : FVal
  /-- Member `minNllScan` of the pdf. -/
  minNllScan : FVal
  /-- Member `minNllFree` of the pdf. -/
  minNllFree : FVal
  /-- The toy dataset of the pdf (`getToyObservables()`). -/
  toyData : DataId
  /-- Value of the parameter of interest in the workspace. -/
  poiVal : FVal
  /-- Constancy flag of the parameter of interest. -/
  poiConstant : Bool
  /-- Range in force for the parameter of interest. -/
  poiRange : RangeName
  /-- Optimizer calls made so far, oldest first. -/
  fits : List FitCall
  /-- The entry of the toy tree being prepared. -/
  toyTree : ToyRecord
  /-- Entries written by `toyTree.fill()`, oldest first. -/
  filled : List ToyRecord
  cls_bkgOnlyToys : List DataId
  chi2minGlobalBkgToysStore : List FVal
  scanbestBkgToysStore : List FVal
  /-- The fit result held by the local pointer of the ladder in progress (`r`, `rb` or
  `r1` of the toy loop, `rb` of the loop over the background-only toys). -/
  cur : FitOutcome

/-- The function `loadAndFit`: one call of `PDF_Datasets::fit` on the current toy
dataset. The pdf members `fitStatus` and `minNll` are those of the outcome, a floating
parameter of interest is left at its fitted value, and the call is logged. -/
def loadAndFit (env : Env) (s : ScanState) : ScanState × FitOutcome :=
  let o := env.fit s.fits.length
  ({ s with
      fitStatus := o.pdfStatus,
      minNll := o.pdfMinNll,
      poiVal := if s.poiConstant then s.poiVal else o.poiFinal,
      fits := s.fits ++ [⟨s.fitStrategy, s.toyData, s.poiConstant⟩] }, o)

/-- The function `setParevolPointByIndex`: parameters take the values of the
constrained fit to data at scan point `index`. -/
def setParevolPointByIndex (env : Env) (index : Nat) (s : ScanState) : ScanState :=
  { s with poiVal := (env.probScan index).poi }

/-- The function `setAndPrintFitStatusFreeToys` (printing left out). -/
def setAndPrintFitStatusFreeToys (s : ScanState) : ScanState :=
  if !(FVal.isfinite s.minNllScan) then { s with fitStatus := -99 } else s

/-- The function `setAndPrintFitStatusConstrainedToys` (printing left out). -/
def setAndPrintFitStatusConstrainedToys (s : ScanState) : ScanState :=
  if FVal.fne s.minNllScan (.fin 0) && FVal.gt s.minNllFree s.minNllScan then
    { s with fitStatus :=
        if s.fitStatus = 0 then -13
        else if s.fitStatus = 1 then -12
        else if s.fitStatus = -1 then -33
        else if s.fitStatus = -99 then -66
        else -100 }
  else s

/-- The statement `if (std::isinf(pdf->minNll) || std::isnan(pdf->minNll))
pdf->setFitStatus(-99);` that closes the ladders with a fixed parameter of interest. -/
def flagInfNan (s : ScanState) : ScanState :=
  if FVal.isinf s.minNll || FVal.isnan s.minNll then { s with fitStatus := -99 } else s

/-- The statement `pdf->setMinNllScan(pdf->minNll)`. -/
def setMinNllScan (s : ScanState) : ScanState := { s with minNllScan := s.minNll }

/-- The statement `pdf->setMinNllFree(pdf->minNll)`. -/
def setMinNllFree (s : ScanState) : ScanState := { s with minNllFree := s.minNll }

/-- The statement `pdf->setFitStrategy(k)`. -/
def setFitStrategy (k : Int) (s : ScanState) : ScanState := { s with fitStrategy := k }

/-- The statement `parameterToScan->setConstant(b)`. -/
def setConstant (b : Bool) (s : ScanState) : ScanState := { s with poiConstant := b }

/-- The statement `pdf->setToyData(d)` (also the effect of generating or deleting the
toys on the dataset the pdf fits). -/
def setToyData (d : DataId) (s : ScanState) : ScanState := { s with toyData := d }

/-- The statement `parameterToScan->setVal(x)`. -/
def setVal (x : FVal) (s : ScanState) : ScanState := { s with poiVal := x }

/-- The range in force for the parameter of interest becomes `r` (`setLimit(w, par, r)`,
or `removeRange()` for `RangeName.removed`). -/
def setLimit (r : RangeName) (s : ScanState) : ScanState := { s with poiRange := r }

/-- Twice a minimum: `2 * r->minNll()`. -/
def twice (x : FVal) : FVal := FVal.mul (.fin 2) x

/-! ## `scan1d`: the fit ladders -/

/-- The statement `r = loadAndFit(pdf)` for the local pointer of the ladder in progress. -/
def fitAssign (env : Env) (s : ScanState) : ScanState :=
  { (loadAndFit env s).1 with cur := (loadAndFit env s).2 }

/-- One attempt of a ladder with the parameter of interest fixed, up to the decision
whether to escalate: `r = loadAndFit(pdf)`, `setMinNllScan(pdf->minNll)`,
`setAndPrintFitStatusFreeToys`. -/
def scanFitAttempt (env : Env) (s : ScanState) : ScanState :=
  setAndPrintFitStatusFreeToys (setMinNllScan (fitAssign env s))

/-- The ladder of the constrained fit (step 2) and of the fit to the background-only
toy (step 2.5), which are the same statements: from the first `loadAndFit` (the
strategy was set to 0 just before) to the closing `setMinNllScan`. -/
def scanFitLadder (env : Env) (s : ScanState) : ScanState :=
  let s := scanFitAttempt env s
  let s :=
    if s.fitStatus ≠ 0 then
      let s := scanFitAttempt env (setFitStrategy 1 s)
      if s.fitStatus ≠ 0 then fitAssign env (setFitStrategy 2 s) else s
    else s
  setMinNllScan (flagInfNan s)

/-- Step 2 of the toy loop: the fit with the parameter of interest fixed to the scan
point, and the entry fields it determines (`r` is the field `cur`). -/
def constrainedFit (env : Env) (i : Nat) (s : ScanState) : ScanState :=
  let s := setParevolPointByIndex env i s
  let s := setConstant true s
  let s := setFitStrategy 0 s
  let s := scanFitLadder env s
  { s with toyTree := { s.toyTree with
      chi2minToy := twice s.cur.minNll,
      chi2minToyPDF := twice s.minNllScan,
      covQualScan := FVal.ofInt s.cur.covQual,
      statusScan := FVal.ofInt s.cur.status,
      statusScanPDF := FVal.ofInt s.fitStatus } }

/-- The statement `toyTree.chi2minGlobalToy = 2 * r1->minNll()`. -/
def storeChi2minGlobalToy (s : ScanState) : ScanState :=
  { s with toyTree := { s.toyTree with chi2minGlobalToy := twice s.cur.minNll } }

/-- The nan/inf flag of the free fit:
`if (!std::isfinite(pdf->getMinNllFree())) pdf->setFitStatus(-99);`. -/
def flagNotFiniteFree (s : ScanState) : ScanState :=
  if !(FVal.isfinite s.minNllFree) then { s with fitStatus := -99 } else s

/-- One attempt of the free-fit ladder before `setAndPrintFitStatusConstrainedToys`:
`r1 = loadAndFit(pdf)`, `setMinNllFree(pdf->minNll)`,
`toyTree.chi2minGlobalToy = 2*r1->minNll()` and the nan/inf flag. -/
def freeFitAttempt (env : Env) (s : ScanState) : ScanState :=
  flagNotFiniteFree (storeChi2minGlobalToy (setMinNllFree (fitAssign env s)))

/-- The test `toyTree.chi2minToy - toyTree.chi2minGlobalToy < 0`. -/
def negTestStat (s : ScanState) : Bool :=
  FVal.lt (FVal.sub s.toyTree.chi2minToy s.toyTree.chi2minGlobalToy) (.fin 0)

/-- The acceptance test of the extra free fit:
`r_tmp->status() == 0 && r_tmp->minNll() < r1->minNll() && r_tmp->minNll() > -1e27`. -/
def improvementFound (r_tmp r1 : FitOutcome) : Bool :=
  decide (r_tmp.status = 0) && FVal.lt r_tmp.minNll r1.minNll
    && FVal.gt r_tmp.minNll (.fin (-(10 ^ 27)))

/-- The extra free fit made when the test statistic is still negative after strategy
2. `parsAfterScanFit` is the value the parameter of interest had after the constrained
fit; `r1` is the field `cur`. -/
def recoveryFit (env : Env) (parsAfterScanFit : FVal) (s : ScanState) : ScanState :=
  let s := setVal parsAfterScanFit s
  let s := if FVal.lt s.poiVal (.fin (1 / 10 ^ 13)) then setVal (.fin (67 / 10 ^ 14)) s else s
  let s := setConstant false s
  let r1 := s.cur
  let r_tmp := (loadAndFit env s).2
  let s := (loadAndFit env s).1
  if improvementFound r_tmp r1 then { setMinNllFree s with cur := r_tmp }
  else setVal r1.poiFinal s

/-- The ladder of the free fit (step 3), from `pdf->setFitStrategy(0)` to the end of
the outer `if` (`r1` is the field `cur`). -/
def freeFitLadder (env : Env) (parsAfterScanFit : FVal) (s : ScanState) : ScanState :=
  let s := setFitStrategy 0 s
  let s := freeFitAttempt env s
  let neg := negTestStat s
  let s := setAndPrintFitStatusConstrainedToys s
  if s.fitStatus ≠ 0 || neg then
    let s := setFitStrategy 1 s
    let s := freeFitAttempt env s
    let neg := negTestStat s
    let s := setAndPrintFitStatusConstrainedToys s
    if s.fitStatus ≠ 0 || neg then
      let s := setFitStrategy 2 s
      let s := freeFitAttempt env s
      let s := setAndPrintFitStatusConstrainedToys s
      if negTestStat s then recoveryFit env parsAfterScanFit s else s
    else s
  else s

/-- The body of the loop that generates and fits the background-only toys before the
scan (toy index `j`; `rb` is the field `cur`). -/
def bkgOnlyToyFit (env : Env) (j : Nat) (s : ScanState) : ScanState :=
  if env.hasBkgPdf then
    let s := { s with cls_bkgOnlyToys := s.cls_bkgOnlyToys ++ [DataId.bkgToy j] }
    let s := setToyData (DataId.bkgToy j) s
    let s := setConstant false s
    let s := setMinNllScan (fitAssign env s)
    let s :=
      if s.fitStatus ≠ 0 then
        let s := setMinNllScan (fitAssign env (setFitStrategy 1 s))
        if s.fitStatus ≠ 0 then fitAssign env (setFitStrategy 2 s) else s
      else s
    let s := setMinNllScan (flagInfNan s)
    let s := { s with
      chi2minGlobalBkgToysStore := s.chi2minGlobalBkgToysStore ++ [twice s.cur.minNll],
      scanbestBkgToysStore := s.scanbestBkgToysStore ++ [s.poiVal] }
    setToyData DataId.none s
  else s

/-! ## `scan1d`: the toy loop, the scan loop -/

/-- Steps 1, 2 and 2.5 up to the access to `cls_bkgOnlyToys[j]`: the state in which the
background-only toy is about to be set as data, with the local variables
`parsAfterScanFit` and `tempData`. -/
def toyBodyScan (env : Env) (i j : Nat) (s : ScanState) : ScanState :=
  let s := { s with minNllFree := .fin 0, minNllScan := .fin 0 }
  let s := { s with toyTree := { s.toyTree with ntoy := FVal.ofNat j } }
  -- 1. generate the toy
  let s := setParevolPointByIndex env i s
  let s := setToyData (DataId.toy i j) s
  -- 2. fit with the parameter of interest fixed to the scan point
  constrainedFit env i s

/-- Step 2.5 of the toy loop once the background-only toy `bkgToy` has been read from
`cls_bkgOnlyToys[j]`: the fit to it with the parameter of interest fixed (`rb` is the
field `cur`). -/
def bkgHypFit (env : Env) (i : Nat) (bkgToy : DataId) (s : ScanState) : ScanState :=
  let s := setParevolPointByIndex env i s
  let s := setConstant true s
  let s := setFitStrategy 0 s
  let s := setToyData bkgToy s
  let s := scanFitLadder env s
  { s with toyTree := { s.toyTree with
      chi2minBkgToy := twice s.cur.minNll,
      chi2minBkgToyPDF := twice s.minNllScan } }

/-- Step 3 of the toy loop: the fit with the parameter of interest free, on the toy
`tempData`, and the entry fields it determines (`r1` is the field `cur`). -/
def freeFit (env : Env) (i : Nat) (parsAfterScanFit : FVal) (tempData : DataId)
    (s : ScanState) : ScanState :=
  let s := setParevolPointByIndex env i s
  let s := setConstant false s
  let s := setLimit RangeName.removed s
  let s := setToyData tempData s
  let s := freeFitLadder env parsAfterScanFit s
  let s := setLimit RangeName.scan s
  { s with toyTree := { s.toyTree with
      chi2minGlobalToy := twice s.cur.minNll,
      chi2minGlobalToyPDF := twice s.minNllFree,
      statusFreePDF := FVal.ofInt s.fitStatus,
      statusFree := FVal.ofInt s.cur.status,
      covQualFree := FVal.ofInt s.cur.covQual,
      scanbest := s.poiVal } }

/-- The body of the toy loop of `scan1d` for toy `j` of scan point `i`. -/
def toyBody (env : Env) (i j : Nat) (s : ScanState) : Except Abort ScanState :=
  -- 1. generate the toy, 2. fit with the parameter of interest fixed
  let s := toyBodyScan env i j s
  let parsAfterScanFit := s.poiVal
  -- 2.5 fit to the background-only toy with the parameter of interest fixed
  let tempData := s.toyData
  match s.cls_bkgOnlyToys[j]? with
  | none => .error Abort.outOfBounds
  | some bkgToy =>
    let s := bkgHypFit env i bkgToy s
    -- 3. fit with the parameter of interest free
    let s := freeFit env i parsAfterScanFit tempData s
    if s.chi2minGlobalBkgToysStore.length ≠ env.nToys then .error Abort.assertFailed
    else if s.scanbestBkgToysStore.length ≠ env.nToys then .error Abort.assertFailed
    else
      match s.chi2minGlobalBkgToysStore[j]?, s.scanbestBkgToysStore[j]? with
      | some c, some b =>
        let s := { s with toyTree := { s.toyTree with
          chi2minGlobalBkgToy := c, scanbestBkg := b } }
        -- 4. store
        let s := { s with filled := s.filled ++ [s.toyTree] }
        .ok (setToyData DataId.none s)
      | _, _ => .error Abort.outOfBounds

/-- The number `nActualToys`. -/
def nActualToys (env : Env) (s : ScanState) : Nat :=
  if env.importance then
    env.importanceToys (env.prob (FVal.sub s.toyTree.chi2min s.toyTree.chi2minGlobal))
  else env.nToys

/-- The scan point of step `i`:
`min + (max - min) * (double)i / ((double)nPoints1d - 1)`. -/
def scanpointAt (env : Env) (i : Nat) : FVal :=
  FVal.add (.fin env.parameterToScan_min)
    (FVal.div
      (FVal.mul (FVal.sub (.fin env.parameterToScan_max) (.fin env.parameterToScan_min))
        (FVal.ofNat i))
      (FVal.sub (FVal.ofNat env.nPoints1d) (.fin 1)))

/-- The toy loop of one scan point. -/
def toysLoop (env : Env) (i n : Nat) (s : ScanState) : Except Abort ScanState :=
  (List.range n).foldlM (fun s j => toyBody env i j s) s

/-- The body of the loop over the scan points of `scan1d` for point `i`;
`parsFunctionCall` is the value of the parameter of interest when `scan1d` was called. -/
def pointBody (env : Env) (parsFunctionCall : FVal) (s : ScanState) (i : Nat) :
    Except Abort ScanState :=
  let s := { s with toyTree := { s.toyTree with npoint := FVal.ofNat i } }
  let scanpoint := scanpointAt env i
  let s := { s with toyTree := { s.toyTree with scanpoint := scanpoint } }
  if i = 0 && FVal.fne scanpoint (.fin 0) then .error (Abort.exit 1)
  else if FVal.lt scanpoint (env.rangeMin s.poiRange)
      || FVal.gt scanpoint (FVal.add (env.rangeMax s.poiRange) (.fin (2 / 10 ^ 13))) then
    .ok s
  else
    let s := setParevolPointByIndex env i s
    let s := { s with toyTree := { s.toyTree with
      statusScanData := (env.probScan i).statusScanData,
      chi2min := (env.probScan i).chi2min,
      covQualScanData := (env.probScan i).covQualScanData } }
    if !env.chi2minGlobalFound then .error (Abort.exit 1)
    else
      let s := { s with toyTree := { s.toyTree with chi2minGlobal := env.chi2minGlobal } }
      let s := { s with toyTree := { s.toyTree with chi2minBkg := env.chi2minBkg } }
      let s := { s with toyTree := { s.toyTree with
        genericProbPValue := getPValueTTestStatistic env.prob
          (FVal.sub s.toyTree.chi2min s.toyTree.chi2minGlobal) } }
      match toysLoop env i (nActualToys env s) s with
      | .error e => .error e
      | .ok s => .ok { s with poiVal := parsFunctionCall }

/-- The function `loadParameterLimits`, for the parameter of interest. -/
def loadParameterLimits (env : Env) (s : ScanState) : ScanState :=
  { s with poiRange := if env.enforcePhysRange then RangeName.phys else RangeName.free }

/-- The function `scan1d`, from the state at the call. On normal return the field
`filled` of the state holds the entries written to the output file. -/
def scan1d (env : Env) (s : ScanState) : Except Abort ScanState :=
  let s := loadParameterLimits env s
  if !env.probResFileFound then .error (Abort.exit 1)
  else
    let s := { s with toyTree := { env.toyTreeInit with nrun := FVal.ofInt env.nRun } }
    let s := { s with filled := [] }
    let parsFunctionCall := s.poiVal
    let s := { s with
      cls_bkgOnlyToys := [], chi2minGlobalBkgToysStore := [], scanbestBkgToysStore := [] }
    let s := (List.range (nActualToys env s)).foldl (fun s j => bkgOnlyToyFit env j s) s
    (List.range env.nPoints1d).foldlM (pointBody env parsFunctionCall) s

/-! ## `readScan1dTrees`: goodness of fit at the best-fit bin -/

/-- The constant `FLT_MAX`. -/
def fltMax : ℚ := (2 - 1 / 2 ^ 23) * 2 ^ 127

/-- ROOT `TH1::GetMaximumBin` on a histogram of floating point contents: the bins
`1..nbins` are visited in order starting from `maximum = -FLT_MAX`, and a bin is taken
when `value > maximum`; the result is `0` when no bin is taken. -/
def getMaximumBinF (nbins : Nat) (h : Nat → FVal) : Nat :=
  ((List.range nbins).foldl
    (fun (s : Nat × FVal) k =>
      if FVal.gt (h (k + 1)) s.2 then (k + 1, h (k + 1)) else s)
    (0, FVal.fin (-fltMax))).1

/-- The variable `fitprobabilityVal` computed at the end of `readScan1dTrees` from the
histograms `hCL` (the rows `out`), `h_gof` and `h_all`. -/
def fitprobabilityVal (ax : Axis) (a : Acc) (out : Nat → BinRow) : FVal :=
  let iBinBestFit := getMaximumBinF ax.nbins (fun i => (out i).hCL)
  let nGofBetter := FVal.ofNat (a.h_gof iBinBestFit)
  let nall := FVal.ofNat (a.h_all iBinBestFit)
  FVal.div nGofBetter nall

/-- The variable `fitprobabilityErr` computed at the end of `readScan1dTrees`. -/
def fitprobabilityErr (ext : Ext) (ax : Axis) (a : Acc) (out : Nat → BinRow) : FVal :=
  let iBinBestFit := getMaximumBinF ax.nbins (fun i => (out i).hCL)
  let nall := FVal.ofNat (a.h_all iBinBestFit)
  let v := fitprobabilityVal ax a out
  ext.sqrt (FVal.div (FVal.mul v (FVal.sub (.fin 1) v)) nall)

/-- The goodness-of-fit value `readScan1dTrees` prints for the records `ts`. -/
def readScan1dTreesGof (cfg : ScanConfig) (ext : Ext) (scanpointN : Nat)
    (scanpointMin scanpointMax : ℚ) (ts : List ToyRecord) : FVal :=
  let r := readScan1dTrees cfg ext scanpointN scanpointMin scanpointMax ts
  fitprobabilityVal (treeAxis scanpointN scanpointMin scanpointMax) r.1 r.2

/-! ## `getPValueTTestStatistic` with its output -/

/-- The function `getPValueTTestStatistic` with the flag `arg->verbose`: the returned
value, and the numbers printed by the warning of the non-positive branch (the test
statistic and `TMath::Prob(abs(x), 1)`). -/
def getPValueTTestStatisticVerbose (verbose : Bool) (prob : FVal → FVal)
    (test_statistic_value : FVal) : FVal × List FVal :=
  if FVal.gt test_statistic_value (.fin 0) then (prob test_statistic_value, [])
  else
    (.fin 1,
      if verbose then [test_statistic_value, prob (FVal.abs test_statistic_value)] else [])

/-! ## `checkExtProfileLH` -/

/-- The function `std::max(a, b)`: `b` when `a < b`, else `a`. -/
def stdMax (a b : FVal) : FVal := if FVal.lt a b then b else a

/-- The function `checkExtProfileLH`. `scanpointBranch` holds the entries of the branch
`scanpoint` of the prob-scan tree, `parameterToScan_min`, `parameterToScan_max` are the
limits of the axis of `hCL`, and `unread` is the value the leaf holds when `GetEntry`
reads no entry (empty tree). -/
def checkExtProfileLH (nPoints1d : Int) (parameterToScan_min parameterToScan_max : FVal)
    (scanpointBranch : List FVal) (unread : FVal) : Except Abort Unit :=
  let entriesInTree : Int := (scanpointBranch.length : Int)
  if nPoints1d ≠ entriesInTree then .error (.exit 1)
  else
    let minTreePoint := scanpointBranch.getD 0 unread
    if FVal.gt
        (FVal.div (FVal.sub minTreePoint parameterToScan_min)
          (stdMax parameterToScan_max parameterToScan_min))
        (.fin (1 / 10 ^ 5)) then .error (.exit 1)
    else
      let maxTreePoint := scanpointBranch.getD (scanpointBranch.length - 1) minTreePoint
      if FVal.gt
          (FVal.div (FVal.sub maxTreePoint parameterToScan_max)
            (stdMax parameterToScan_max parameterToScan_min))
          (.fin (1 / 10 ^ 5)) then .error (.exit 1)
      else .ok ()

/-! ## `performBootstrapTest` -/

/-- The selection of `performBootstrapTest`: the cut string given to
`chain->GetEntries` and the condition tested in the loop over the tree. -/
def bootstrapCut (t : ToyRecord) : Bool :=
  FVal.feq t.statusScan (.fin 0) && FVal.feq t.statusFree (.fin 0)
    && FVal.lt (FVal.abs t.chi2minToy) (.fin (10 ^ 27))
    && FVal.lt (FVal.abs t.chi2minGlobalToy) (.fin (10 ^ 27))
    && FVal.feq t.scanpoint (.fin 0)

/-- The local variables `performBootstrapTest` fills in its loop over the tree. -/
structure BootstrapSample where
  q_data : FVal
  /-- Tree entry numbers pushed to `failed`, oldest first. -/
  failed : List Nat
  /-- Test statistics pushed to `q`, oldest first. -/
  q : List FVal
  totFailed : Nat

/-- One iteration of the loop over the tree of `performBootstrapTest`, for the entry
number `i` holding the record `t`. -/
def bootstrapStep (b : BootstrapSample) (i : Nat) (t : ToyRecord) : BootstrapSample :=
  let b := if i = 0 then { b with q_data := FVal.sub t.chi2min t.chi2minGlobal } else b
  if !(bootstrapCut t) then
    { b with totFailed := b.totFailed + 1, failed := b.failed ++ [i] }
  else
    { b with q := b.q ++ [FVal.sub t.chi2minToy t.chi2minGlobalToy] }

/-- The loop over the tree of `performBootstrapTest` from entry number `i` on. -/
def bootstrapLoopFrom : Nat → List ToyRecord → BootstrapSample → BootstrapSample
  | _, [], b => b
  | i, t :: ts, b => bootstrapLoopFrom (i + 1) ts (bootstrapStep b i t)

/-- The loop over the tree of `performBootstrapTest`. -/
def bootstrapLoop (ts : List ToyRecord) : BootstrapSample :=
  bootstrapLoopFrom 0 ts ⟨.fin 0, [], [], 0⟩

/-- The variable `numberOfToys`: `chain->GetEntries(cut)`. -/
def numberOfToys (ts : List ToyRecord) : Nat := (ts.filter bootstrapCut).length

/-- The rejection loop `do { rndmInt = rndm.Integer(numberOfToys); } while (rndmInt is
in failed)`. `rndm k` is the value of the `k`-th call of `rndm.Integer(numberOfToys)`
in the run; the result is the accepted value and the number of calls made so far, or
`none` when `fuel` calls were all rejected. -/
def drawIndex (failed : List Nat) (rndm : Nat → Nat) : Nat → Nat → Option (Nat × Nat)
  | 0, _ => none
  | fuel + 1, k =>
    if rndm k ∈ failed then drawIndex failed rndm fuel (k + 1) else some (rndm k, k + 1)

/-- The loop `for (int j = 0; j < numberOfToys; j++)` of one bootstrap sample, with
`toGo` iterations left: the final `nbetter` and the number of calls of the generator.
The result is `none` when a rejection loop used up `fuel` or an accepted value is past
the end of `q`. -/
def resampleLoop (b : BootstrapSample) (rndm : Nat → Nat) (fuel : Nat) :
    Nat → Nat → Nat → Option (Nat × Nat)
  | 0, k, nbetter => some (nbetter, k)
  | toGo + 1, k, nbetter =>
    match drawIndex b.failed rndm fuel k with
    | none => none
    | some (rndmInt, k1) =>
      match b.q[rndmInt]? with
      | none => none
      | some v =>
        resampleLoop b rndm fuel toGo k1 (if FVal.gt v b.q_data then nbetter + 1 else nbetter)

/-- The loop over the samples of `performBootstrapTest` with `nSamples` samples left:
the values pushed to `bootstrapPVals`. -/
def samplesLoop (b : BootstrapSample) (n : Nat) (rndm : Nat → Nat) (fuel : Nat) :
    Nat → Nat → Option (List FVal)
  | 0, _ => some []
  | nSamples + 1, k =>
    match resampleLoop b rndm fuel n k 0 with
    | none => none
    | some (nbetter, k1) =>
      match samplesLoop b n rndm fuel nSamples k1 with
      | none => none
      | some ps => some (FVal.div (FVal.ofNat nbetter) (FVal.ofNat n) :: ps)

/-- The function `performBootstrapTest` on the records `ts` of the chain: the vector
`bootstrapPVals` (histogram and plots are left out). -/
def performBootstrapTest (nSamples : Nat) (ts : List ToyRecord) (rndm : Nat → Nat)
    (fuel : Nat) : Option (List FVal) :=
  samplesLoop (bootstrapLoop ts) (numberOfToys ts) rndm fuel nSamples 0

/-! ## The constructor -/

/-- The members `chi2minGlobal` and `chi2minBkg` after the constructor
`MethodDatasetsPluginScan::MethodDatasetsPluginScan`; the arguments are the values of
`probScan->getChi2minGlobal()` and `probScan->getChi2minBkg()`. -/
def constructScanConfig (probChi2minGlobal probChi2minBkg : FVal) : ScanConfig :=
  let chi2minGlobal := probChi2minGlobal
  let chi2minBkg := probChi2minBkg
  let chi2minBkg := if FVal.lt chi2minBkg chi2minGlobal then chi2minGlobal else chi2minBkg
  ⟨chi2minGlobal, chi2minBkg⟩

/-! ## Counting records (specification side) -/

/-- Indicator of a filled bin: the increment `Fill` gives bin `i` when the condition
`c` holds for a record that falls in bin `b`. -/
def hit (c : Bool) (b i : Nat) : Nat := if c = true ∧ i = b then 1 else 0

/-- The records of `ts` that fall in bin `i` of the axis. -/
def inBin (ax : Axis) (ts : List ToyRecord) (i : Nat) : List ToyRecord :=
  ts.filter (fun t => decide (ax.findBin t.scanpoint = i))

/-- The number of records of `ts` in bin `i` that satisfy `c`. -/
def binCount (c : ToyRecord → Bool) (ax : Axis) (ts : List ToyRecord) (i : Nat) : Nat :=
  ((inBin ax ts i).filter c).length

/-- The value `p` of a bin: `nbetter / nall`. -/
def binP (a : Acc) (i : Nat) : FVal :=
  FVal.div (FVal.ofNat (a.h_better i)) (FVal.ofNat (a.h_all i))

/-! ## Ladders (specification side) -/

/-- The fit status the pdf holds after an attempt, once a non-finite minimum has been
flagged: the status of the optimizer, or -99 when the minimum is NaN or infinite. -/
def attemptStatus (o : FitOutcome) : Int :=
  if FVal.isfinite o.pdfMinNll then o.pdfStatus else -99

/-- The strategies a three-step ladder goes through when the status after the first
attempt is `st0` and the status after the second attempt (if made) is `st1`. -/
def ladderStrategies (st0 st1 : Int) : List Int :=
  if st0 = 0 then [0] else if st1 = 0 then [0, 1] else [0, 1, 2]

/-! ## The entries written by `scan1d` (specification side) -/

/-- The part of the state the fits do not touch: the three stores filled before the
scan, the entries written so far, and the point and toy number of the entry in
preparation. -/
def frame (s : ScanState) :
    List DataId × List FVal × List FVal × List ToyRecord × FVal × FVal :=
  (s.cls_bkgOnlyToys, s.chi2minGlobalBkgToysStore, s.scanbestBkgToysStore, s.filled,
    s.toyTree.npoint, s.toyTree.ntoy)

/-- The point number and the toy number of an entry. -/
def entryKey (t : ToyRecord) : FVal × FVal := (t.npoint, t.ntoy)

/-- The keys of the toys `0..nToys-1` of scan point `i`, in this order. -/
def pointKeys (nToys i : Nat) : List (FVal × FVal) :=
  (List.range nToys).map (fun j => (FVal.ofNat i, FVal.ofNat j))

/-- The keys of all (scan point, toy) pairs, ordered by scan point and, within a
point, by toy. -/
def scanKeys (nPoints nToys : Nat) : List (FVal × FVal) :=
  ((List.range nPoints).map (pointKeys nToys)).flatten

/-- An entry holds the values cached for its toy index: its toy number is some
`j < nToys`, and its `chi2minGlobalBkgToy` and `scanbestBkg` are the elements `j` of the
stores `chi2s` and `bests`. -/
def bkgCached (nToys : Nat) (chi2s bests : List FVal) (t : ToyRecord) : Prop :=
  ∃ j, j < nToys ∧ t.ntoy = FVal.ofNat j ∧ chi2s[j]? = some t.chi2minGlobalBkgToy
    ∧ bests[j]? = some t.scanbestBkg

/-! ## Concrete inputs -/

/-- Library functions for concrete runs: `sqrt` is replaced by the identity, the
chi-square and quantile functions by constants. -/
def extDemo : Ext :=
  ⟨fun x => x, fun _ => .fin (1 / 2), fun _ => .fin 1, fun _ _ => .fin 0, fun _ _ => .fin 0⟩

/-- A scanner whose observed global and background minima are zero. -/
def cfgDemo : ScanConfig := ⟨.fin 0, .fin 0⟩

/-- A record with best-fit value 1 below the scan point 2 and raw test statistic
`5 - 3 = 2`. -/
def recBelow : ToyRecord :=
  { ToyRecord.zero with
    scanpoint := .fin 2, scanbest := .fin 1, chi2minToy := .fin 5, chi2minGlobalToy := .fin 3 }

/-- An optimizer outcome with status 0, covariance quality 3, the given minimum (held
both by the fit result and by the pdf) and the given final value of the parameter of
interest. -/
def converged (minNll : FVal) (poi : FVal) : FitOutcome :=
  ⟨minNll, 0, 3, poi, minNll, 0⟩

/-- An environment of `scan1d` with a background-only model, one toy per point, two
scan points over `[0, 1]`, importance sampling off, observed minima zero, every named
range equal to `[-10, 10]`, and the given optimizer. -/
def envDemo (fit : Nat → FitOutcome) : Env :=
  { fit := fit, hasBkgPdf := true, nToys := 1, nPoints1d := 2, nRun := 1,
    parameterToScan_min := 0, parameterToScan_max := 1, enforcePhysRange := false,
    importance := false, importanceToys := fun _ => 0, prob := fun _ => .fin (1 / 2),
    probResFileFound := true, chi2minGlobalFound := true, chi2minGlobal := .fin 0,
    chi2minBkg := .fin 0, probScan := fun _ => ⟨.fin 0, .fin 0, .fin 0, .fin 3⟩,
    rangeMin := fun _ => .fin (-10), rangeMax := fun _ => .fin 10,
    toyTreeInit := ToyRecord.zero }

/-- A state of `scan1d` in which no fit has been made yet and the stores are empty. -/
def stateDemo : ScanState :=
  { fitStrategy := 0, fitStatus := 0, minNll := .fin 0, minNllScan := .fin 0,
    minNllFree := .fin 0, toyData := DataId.none, poiVal := .fin 0, poiConstant := false,
    poiRange := RangeName.free, fits := [], toyTree := ToyRecord.zero, filled := [],
    cls_bkgOnlyToys := [], chi2minGlobalBkgToysStore := [], scanbestBkgToysStore := [],
    cur := ⟨.fin 0, 0, 0, .fin 0, .fin 0, 0⟩ }

/-- The state at the entry of the toy loop when one background-only toy has been
generated and fitted (global minimum 0, best-fit value 0); the optimizer calls are
counted from here. -/
def stateToys : ScanState :=
  { stateDemo with
    poiRange := RangeName.free,
    cls_bkgOnlyToys := [DataId.bkgToy 0],
    chi2minGlobalBkgToysStore := [.fin 0],
    scanbestBkgToysStore := [.fin 0] }

/-- Optimizer for C4: the constrained fit converges at minimum 10, the fit to the
background-only toy at minimum 5, the strategy-0 free fit at minimum 8 (test statistic
`20 - 16 = 4`); the later free fits converge at minimum 8, 9. -/
def fitC4 : Nat → FitOutcome
  | 0 => converged (.fin 10) (.fin 0)
  | 1 => converged (.fin 5) (.fin 0)
  | 2 => converged (.fin 8) (.fin 0)
  | 3 => converged (.fin 8) (.fin 0)
  | _ => converged (.fin 9) (.fin 7)

/-- Optimizer for C6: every fit reports status 0 with an infinite minimum. -/
def fitInf : Nat → FitOutcome := fun _ => ⟨.pinf, 0, 3, .fin 0, .pinf, 0⟩

/-- A valid record at scan point 0 whose test statistic 0 is below the observed one
(`chi2min - chi2minGlobal = 5`): counted in `h_all`, not in `h_better`. -/
def recWorse : ToyRecord := { ToyRecord.zero with chi2min := .fin 5 }

/-- A valid record at scan point 1 whose test statistic equals the observed one. -/
def recAtOne : ToyRecord := { ToyRecord.zero with scanpoint := .fin 1 }

/-- A valid record at scan point 0 with background-only test statistic 5, counted in
`h_better`. -/
def recBkgBetter : ToyRecord := { ToyRecord.zero with chi2minBkgToy := .fin 5 }

/-- A valid record at scan point 0 with background-only test statistic 5, not counted
in `h_better`. -/
def recBkgWorse : ToyRecord :=
  { ToyRecord.zero with chi2minBkgToy := .fin 5, chi2min := .fin 5 }

/-- A record at scan point 0 whose free fit failed (`statusFree = 1`), with test
statistic `5 - 5 = 0` and global minimum 5 above the observed one. -/
def recGof : ToyRecord :=
  { ToyRecord.zero with statusFree := .fin 1, chi2minToy := .fin 5, chi2minGlobalToy := .fin 5 }

/-- A valid record at scan point 0 with signal+background and background-only test
statistic 2. -/
def recTwo : ToyRecord :=
  { ToyRecord.zero with chi2minToy := .fin 2, chi2minBkgToy := .fin 2 }

/-- Library functions for a bin whose background-only samples have median 1: every
quantile is replaced by 1, `getVectorFracAboveValue` is the fraction of the entries
above the value, `sqrt` is replaced by the identity and the chi-square functions by
constants. -/
def extHalf : Ext :=
  ⟨fun x => x, fun _ => .fin (1 / 2), fun _ => .fin 1, fun _ _ => .fin 1,
    fun vals x =>
      FVal.div (FVal.ofNat (vals.filter (fun v => FVal.gt v x)).length)
        (FVal.ofNat vals.length)⟩

/-- A record at scan point 0 whose constrained fit failed (`statusScan = 1`). -/
def recFail : ToyRecord := { ToyRecord.zero with statusScan := .fin 1 }

/-- A valid record at scan point 0 with test statistic `x`. -/
def recStat (x : ℚ) : ToyRecord := { ToyRecord.zero with chi2minToy := .fin x }

/-- The environment `envDemo` without a background-only model. -/
def envNoBkg (fit : Nat → FitOutcome) : Env := { envDemo fit with hasBkgPdf := false }

/-- The environment `envDemo` with two toys per scan point. -/
def envTwoToys (fit : Nat → FitOutcome) : Env := { envDemo fit with nToys := 2 }

/-- An optimizer outcome with status 1 (not converged), held both by the fit result and
by the pdf. -/
def notConverged (minNll : FVal) (poi : FVal) : FitOutcome :=
  ⟨minNll, 1, 3, poi, minNll, 1⟩

/-- Optimizer for C25: the first two fits do not converge, every later fit converges. -/
def fitC25 : Nat → FitOutcome
  | 0 => notConverged (.fin 5) (.fin 0)
  | 1 => notConverged (.fin 5) (.fin 0)
  | _ => converged (.fin 5) (.fin 0)

/-- The record `recBkgBetter` at scan point 1. -/
def recBkgBetterAtOne : ToyRecord := { recBkgBetter with scanpoint := .fin 1 }

/-- The record `recBkgWorse` at scan point 1. -/
def recBkgWorseAtOne : ToyRecord := { recBkgWorse with scanpoint := .fin 1 }

/-- A valid record at scan point 2 whose test statistic equals the observed one. -/
def recAtTwo : ToyRecord := { ToyRecord.zero with scanpoint := .fin 2 }

/-- Records over the scan points 0, 1, 2: three valid toys at 0 (two of them better
than the data), two valid toys at 1 (one better, background-only test statistic 5),
one valid better toy at 2. -/
def threePointRecords : List ToyRecord :=
  [ToyRecord.zero, ToyRecord.zero, recWorse, recBkgBetterAtOne, recBkgWorseAtOne, recAtTwo]

/-! ## Theorems: the record loop of `readScan1dTrees` -/

/-- What one iteration of the record loop adds to every accumulator at bin `i`. -/
theorem recordStep_fields (cfg : ScanConfig) (ax : Axis) (a : Acc) (t : ToyRecord) (i : Nat) :
    (recordStep cfg ax a t).h_tot i = a.h_tot i + hit true (ax.findBin t.scanpoint) i
    ∧ (recordStep cfg ax a t).h_all i = a.h_all i + hit (valid t) (ax.findBin t.scanpoint) i
    ∧ (recordStep cfg ax a t).h_better i
        = a.h_better i + hit (isBetter cfg t) (ax.findBin t.scanpoint) i
    ∧ (recordStep cfg ax a t).h_better_cls i
        = a.h_better_cls i + hit (isBetterCls cfg t) (ax.findBin t.scanpoint) i
    ∧ (recordStep cfg ax a t).h_failed i
        = a.h_failed i
          + hit (tooHighLikelihood t || !(convergedFits t)) (ax.findBin t.scanpoint) i
    ∧ (recordStep cfg ax a t).h_gof i = a.h_gof i + hit (isGof cfg t) (ax.findBin t.scanpoint) i
    ∧ (recordStep cfg ax a t).h_background i
        = a.h_background i
          + hit (valid t && !(inPhysicalRegion t)) (ax.findBin t.scanpoint) i
    ∧ (recordStep cfg ax a t).sampledBValues i
        = a.sampledBValues i
          ++ (if i = ax.findBin t.scanpoint then [bkgTestStatVal t] else [])
    ∧ (recordStep cfg ax a t).sampledSBValues i
        = a.sampledSBValues i
          ++ (if i = ax.findBin t.scanpoint then [sbTestStatVal t] else []) := by
  unfold recordStep
  by_cases hb : i = ax.findBin t.scanpoint <;>
  cases (tooHighLikelihood t || !(convergedFits t)) <;> cases isBetter cfg t <;>
    cases isBetterCls cfg t <;> cases isGof cfg t <;> cases valid t <;>
    cases inPhysicalRegion t <;> simp [fill, pushBack, hit, hb]

theorem inBin_cons (ax : Axis) (t : ToyRecord) (ts : List ToyRecord) (i : Nat) :
    inBin ax (t :: ts) i = if i = ax.findBin t.scanpoint then t :: inBin ax ts i
      else inBin ax ts i := by
  unfold inBin
  by_cases h : i = ax.findBin t.scanpoint
  · simp [h]
  · have h2 : ¬ ax.findBin t.scanpoint = i := fun e => h e.symm
    simp [h, h2]

theorem binCount_cons (c : ToyRecord → Bool) (ax : Axis) (t : ToyRecord)
    (ts : List ToyRecord) (i : Nat) :
    binCount c ax (t :: ts) i = hit (c t) (ax.findBin t.scanpoint) i + binCount c ax ts i := by
  unfold binCount hit
  rw [inBin_cons]
  by_cases h : i = ax.findBin t.scanpoint
  · cases hc : c t <;> simp [h, hc, List.filter_cons]; omega
  · simp [h]

/-- The accumulators after the record loop started from `a0`, bin by bin. -/
theorem foldl_recordStep (cfg : ScanConfig) (ax : Axis) (ts : List ToyRecord) (i : Nat) :
    ∀ a0 : Acc,
    (ts.foldl (recordStep cfg ax) a0).h_tot i = a0.h_tot i + binCount (fun _ => true) ax ts i
    ∧ (ts.foldl (recordStep cfg ax) a0).h_all i = a0.h_all i + binCount valid ax ts i
    ∧ (ts.foldl (recordStep cfg ax) a0).h_better i
        = a0.h_better i + binCount (isBetter cfg) ax ts i
    ∧ (ts.foldl (recordStep cfg ax) a0).h_better_cls i
        = a0.h_better_cls i + binCount (isBetterCls cfg) ax ts i
    ∧ (ts.foldl (recordStep cfg ax) a0).h_failed i
        = a0.h_failed i + binCount (fun t => tooHighLikelihood t || !(convergedFits t)) ax ts i
    ∧ (ts.foldl (recordStep cfg ax) a0).h_gof i = a0.h_gof i + binCount (isGof cfg) ax ts i
    ∧ (ts.foldl (recordStep cfg ax) a0).h_background i
        = a0.h_background i + binCount (fun t => valid t && !(inPhysicalRegion t)) ax ts i
    ∧ (ts.foldl (recordStep cfg ax) a0).sampledBValues i
        = a0.sampledBValues i ++ (inBin ax ts i).map bkgTestStatVal
    ∧ (ts.foldl (recordStep cfg ax) a0).sampledSBValues i
        = a0.sampledSBValues i ++ (inBin ax ts i).map sbTestStatVal := by
  induction ts with
  | nil => intro a0; simp [binCount, inBin]
  | cons t ts ih =>
    intro a0
    obtain ⟨h1, h2, h3, h4, h5, h6, h7, h8, h9⟩ := ih (recordStep cfg ax a0 t)
    obtain ⟨g1, g2, g3, g4, g5, g6, g7, g8, g9⟩ := recordStep_fields cfg ax a0 t i
    simp only [List.foldl_cons, binCount_cons]
    refine ⟨by omega, by omega, by omega, by omega, by omega, by omega, by omega, ?_, ?_⟩
    · rw [h8, g8, inBin_cons]; split <;> simp
    · rw [h9, g9, inBin_cons]; split <;> simp

/-- The accumulators after the record loop of `readScan1dTrees`, bin by bin: each
histogram holds the number of records of the bin that satisfy its fill condition, and
the sampled values are those of the records of the bin, in reading order. -/
theorem recordLoop_spec (cfg : ScanConfig) (ax : Axis) (ts : List ToyRecord) (i : Nat) :
    (recordLoop cfg ax ts).h_tot i = binCount (fun _ => true) ax ts i
    ∧ (recordLoop cfg ax ts).h_all i = binCount valid ax ts i
    ∧ (recordLoop cfg ax ts).h_better i = binCount (isBetter cfg) ax ts i
    ∧ (recordLoop cfg ax ts).h_better_cls i = binCount (isBetterCls cfg) ax ts i
    ∧ (recordLoop cfg ax ts).h_failed i
        = binCount (fun t => tooHighLikelihood t || !(convergedFits t)) ax ts i
    ∧ (recordLoop cfg ax ts).h_gof i = binCount (isGof cfg) ax ts i
    ∧ (recordLoop cfg ax ts).h_background i
        = binCount (fun t => valid t && !(inPhysicalRegion t)) ax ts i
    ∧ (recordLoop cfg ax ts).sampledBValues i = (inBin ax ts i).map bkgTestStatVal
    ∧ (recordLoop cfg ax ts).sampledSBValues i = (inBin ax ts i).map sbTestStatVal := by
  have h := foldl_recordStep cfg ax ts i Acc.init
  simpa [recordLoop, Acc.init] using h

/-- A fill condition that implies another gives a count that is not larger. -/
theorem binCount_mono (c d : ToyRecord → Bool) (h : ∀ t, c t = true → d t = true)
    (ax : Axis) (ts : List ToyRecord) (i : Nat) :
    binCount c ax ts i ≤ binCount d ax ts i := by
  unfold binCount
  rw [← List.countP_eq_length_filter, ← List.countP_eq_length_filter]
  exact List.countP_mono_left (fun t _ => h t)

/-! ## Theorems: the loop over the bins -/

/-- An iteration of the bin loop leaves the other bins alone. -/
theorem binStep_other (ext : Ext) (ax : Axis) (a : Acc) (out : Nat → BinRow) (i j : Nat)
    (h : j ≠ i) : binStep ext ax a out i j = out j := by
  unfold binStep
  dsimp only
  split
  · rfl
  · simp only [setRow, if_neg h]

/-- What an iteration of the bin loop writes to its bin depends on the previous
contents of that bin only. -/
theorem binStep_self (ext : Ext) (ax : Axis) (a : Acc) (out out2 : Nat → BinRow) (i : Nat)
    (h : out i = out2 i) : binStep ext ax a out i i = binStep ext ax a out2 i i := by
  unfold binStep
  dsimp only
  split
  · exact h
  · simp only [setRow, if_true, h]

/-- The bin loop run over the first `n` bins. -/
theorem foldl_binStep (ext : Ext) (ax : Axis) (a : Acc) (init : Nat → BinRow) (n i : Nat) :
    ((List.range n).foldl (fun out k => binStep ext ax a out (k + 1)) init) i
      = if 1 ≤ i ∧ i ≤ n then binStep ext ax a init i i else init i := by
  induction n generalizing i with
  | zero =>
    have h0 : ¬ (1 ≤ i ∧ i ≤ 0) := by omega
    rw [if_neg h0]
    rfl
  | succ n ih =>
    rw [List.range_succ, List.foldl_append]
    simp only [List.foldl_cons, List.foldl_nil]
    by_cases hi : i = n + 1
    · subst hi
      have h1 : (1 ≤ n + 1 ∧ n + 1 ≤ n + 1) := by omega
      rw [if_pos h1]
      apply binStep_self
      have h := ih (n + 1)
      have h2 : ¬ (1 ≤ n + 1 ∧ n + 1 ≤ n) := by omega
      rw [if_neg h2] at h
      exact h
    · rw [binStep_other _ _ _ _ _ _ hi, ih]
      by_cases h1 : 1 ≤ i ∧ i ≤ n
      · have h2 : 1 ≤ i ∧ i ≤ n + 1 := by omega
        rw [if_pos h1, if_pos h2]
      · have h2 : ¬ (1 ≤ i ∧ i ≤ n + 1) := by omega
        rw [if_neg h1, if_neg h2]

/-- The row the bin loop leaves at a bin of the axis: the one its own iteration
writes from the freshly created histograms. -/
theorem binLoop_row (ext : Ext) (ax : Axis) (a : Acc) (i : Nat) (h1 : 1 ≤ i)
    (h2 : i ≤ ax.nbins) :
    binLoop ext ax a i
      = binStep ext ax a (fun j => BinRow.init (a.h_background j)) i i := by
  unfold binLoop
  rw [foldl_binStep, if_pos ⟨h1, h2⟩]

theorem feq_ofNat_zero (n : Nat) : FVal.feq (FVal.ofNat n) (.fin 0) = decide (n = 0) := by
  simp [FVal.feq, FVal.ofNat]

/-- A bin without valid toys is skipped by its iteration. -/
theorem binStep_skip (ext : Ext) (ax : Axis) (a : Acc) (out : Nat → BinRow) (i : Nat)
    (h : a.h_all i = 0) : binStep ext ax a out i = out := by
  unfold binStep
  dsimp only
  rw [feq_ofNat_zero, h]
  simp

/-- The content and error of `hCL` and `hCLsFreq` written by the iteration of a bin with
valid toys. -/
theorem binStep_written (ext : Ext) (ax : Axis) (a : Acc) (out : Nat → BinRow) (i : Nat)
    (h : a.h_all i ≠ 0) :
    (binStep ext ax a out i i).hCL = binP a i
    ∧ (binStep ext ax a out i i).hCLErr = binomErr ext (binP a i) (FVal.ofNat (a.h_all i))
    ∧ (binStep ext ax a out i i).hCLsFreq
        = (if FVal.ge (FVal.div (binP a i) (dataCLb ext (a.sampledBValues i) (binP a i)))
              (.fin 1) then .fin 1
          else if FVal.feq (dataTestStat ext (binP a i)) (.fin (10 ^ 10)) then binP a i
          else if decide (ax.binCenter i ≤ ax.binCenter (getMaximumBin ax.nbins a.h_better))
            then .fin 1
          else FVal.div (binP a i) (dataCLb ext (a.sampledBValues i) (binP a i)))
    ∧ (FVal.ge (FVal.div (binP a i) (dataCLb ext (a.sampledBValues i) (binP a i))) (.fin 1)
          = true → (binStep ext ax a out i i).hCLsFreqErr = .fin 0) := by
  unfold binStep
  dsimp only
  rw [feq_ofNat_zero]
  simp only [h, decide_False, Bool.false_eq_true, if_false, setRow, if_true, binP]
  refine ⟨?_, ?_, ?_, ?_⟩
  · split_ifs <;> rfl
  · split_ifs <;> rfl
  · split_ifs <;> rfl
  · intro hge
    rw [if_pos hge]

/-! ## Claims on the aggregator -/

theorem isBetter_valid (cfg : ScanConfig) (t : ToyRecord) (h : isBetter cfg t = true) :
    valid t = true := by
  unfold isBetter at h
  simp only [Bool.and_eq_true] at h
  exact h.1

theorem isBetterCls_valid (cfg : ScanConfig) (t : ToyRecord) (h : isBetterCls cfg t = true) :
    valid t = true := by
  unfold isBetterCls at h
  simp only [Bool.and_eq_true] at h
  exact h.1

/-- The counts of a bin after the record loop are ordered. -/
theorem counts_ordered (cfg : ScanConfig) (ext : Ext) (scanpointN : Nat)
    (scanpointMin scanpointMax : ℚ) (ts : List ToyRecord) (i : Nat) :
    0 ≤ (readScan1dTrees cfg ext scanpointN scanpointMin scanpointMax ts).1.h_better i
    ∧ (readScan1dTrees cfg ext scanpointN scanpointMin scanpointMax ts).1.h_better i
        ≤ (readScan1dTrees cfg ext scanpointN scanpointMin scanpointMax ts).1.h_all i
    ∧ (readScan1dTrees cfg ext scanpointN scanpointMin scanpointMax ts).1.h_all i
        ≤ (readScan1dTrees cfg ext scanpointN scanpointMin scanpointMax ts).1.h_tot i
    ∧ (readScan1dTrees cfg ext scanpointN scanpointMin scanpointMax ts).1.h_better_cls i
        ≤ (readScan1dTrees cfg ext scanpointN scanpointMin scanpointMax ts).1.h_all i := by
  obtain ⟨h1, h2, h3, h4, -⟩ :=
    recordLoop_spec cfg (treeAxis scanpointN scanpointMin scanpointMax) ts i
  simp only [readScan1dTrees]
  rw [h1, h2, h3, h4]
  refine ⟨Nat.zero_le _, ?_, ?_, ?_⟩
  · exact binCount_mono _ _ (isBetter_valid cfg) _ _ _
  · exact binCount_mono _ _ (fun _ _ => rfl) _ _ _
  · exact binCount_mono _ _ (isBetterCls_valid cfg) _ _ _

/-- C1: after the record loop of `readScan1dTrees`, over any sequence of toy records,
every bin `i` satisfies `0 ≤ n_better[i] ≤ n_all[i] ≤ n_total[i]` (`h_better`, `h_all`,
`h_tot`) and `n_better_cls[i] ≤ n_all[i]`. -/
theorem C1_counts_ordered (cfg : ScanConfig) (ext : Ext) (scanpointN : Nat)
    (scanpointMin scanpointMax : ℚ) (ts : List ToyRecord) (i : Nat) :
    0 ≤ (readScan1dTrees cfg ext scanpointN scanpointMin scanpointMax ts).1.h_better i
    ∧ (readScan1dTrees cfg ext scanpointN scanpointMin scanpointMax ts).1.h_better i
        ≤ (readScan1dTrees cfg ext scanpointN scanpointMin scanpointMax ts).1.h_all i
    ∧ (readScan1dTrees cfg ext scanpointN scanpointMin scanpointMax ts).1.h_all i
        ≤ (readScan1dTrees cfg ext scanpointN scanpointMin scanpointMax ts).1.h_tot i
    ∧ (readScan1dTrees cfg ext scanpointN scanpointMin scanpointMax ts).1.h_better_cls i
        ≤ (readScan1dTrees cfg ext scanpointN scanpointMin scanpointMax ts).1.h_all i := by
  obtain ⟨h1, h2, h3, h4, -⟩ :=
    recordLoop_spec cfg (treeAxis scanpointN scanpointMin scanpointMax) ts i
  simp only [readScan1dTrees]
  rw [h1, h2, h3, h4]
  refine ⟨Nat.zero_le _, ?_, ?_, ?_⟩
  · exact binCount_mono _ _ (isBetter_valid cfg) _ _ _
  · exact binCount_mono _ _ (fun _ _ => rfl) _ _ _
  · exact binCount_mono _ _ (isBetterCls_valid cfg) _ _ _

/-- The content of `hCL` at a bin with valid toys. -/
theorem hCL_content (cfg : ScanConfig) (ext : Ext) (scanpointN : Nat)
    (scanpointMin scanpointMax : ℚ) (ts : List ToyRecord) (i : Nat)
    (h1 : 1 ≤ i) (h2 : i ≤ scanpointN)
    (hall : 0 < (readScan1dTrees cfg ext scanpointN scanpointMin scanpointMax ts).1.h_all i) :
    ((readScan1dTrees cfg ext scanpointN scanpointMin scanpointMax ts).2 i).hCL
        = FVal.fin
            (((readScan1dTrees cfg ext scanpointN scanpointMin scanpointMax ts).1.h_better i : ℚ)
              / ((readScan1dTrees cfg ext scanpointN scanpointMin scanpointMax ts).1.h_all i : ℚ))
    := by
  simp only [readScan1dTrees] at hall ⊢
  have hne : (recordLoop cfg (treeAxis scanpointN scanpointMin scanpointMax) ts).h_all i ≠ 0 :=
    Nat.pos_iff_ne_zero.mp hall
  have hq : ((recordLoop cfg (treeAxis scanpointN scanpointMin scanpointMax) ts).h_all i : ℚ)
      ≠ 0 := by exact_mod_cast hne
  rw [binLoop_row _ _ _ _ h1 (by simpa [treeAxis] using h2)]
  rw [(binStep_written ext _ _ _ i hne).1]
  simp [binP, FVal.div, FVal.ofNat, hq]

/-- C2: for every bin `i` of the histogram with `n_all[i] > 0`, `readScan1dTrees` sets
`hCL[i]` to `n_better[i] / n_all[i]`, where `n_all[i]` is the number of valid toys of
the bin and `n_better[i]` the number of valid toys of the bin with
`chi2minToy - chi2minGlobalToy >= chi2min - chi2minGlobal`; the value lies in `[0, 1]`. -/
theorem C2_hCL_fraction (cfg : ScanConfig) (ext : Ext) (scanpointN : Nat)
    (scanpointMin scanpointMax : ℚ) (ts : List ToyRecord) (i : Nat)
    (h1 : 1 ≤ i) (h2 : i ≤ scanpointN)
    (hall : 0 < (readScan1dTrees cfg ext scanpointN scanpointMin scanpointMax ts).1.h_all i) :
    (readScan1dTrees cfg ext scanpointN scanpointMin scanpointMax ts).1.h_all i
        = binCount valid (treeAxis scanpointN scanpointMin scanpointMax) ts i
    ∧ (readScan1dTrees cfg ext scanpointN scanpointMin scanpointMax ts).1.h_better i
        = binCount
            (fun t => valid t && FVal.ge (FVal.sub t.chi2minToy t.chi2minGlobalToy)
              (FVal.sub t.chi2min cfg.chi2minGlobal))
            (treeAxis scanpointN scanpointMin scanpointMax) ts i
    ∧ ((readScan1dTrees cfg ext scanpointN scanpointMin scanpointMax ts).2 i).hCL
        = FVal.fin
            (((readScan1dTrees cfg ext scanpointN scanpointMin scanpointMax ts).1.h_better i : ℚ)
              / ((readScan1dTrees cfg ext scanpointN scanpointMin scanpointMax ts).1.h_all i : ℚ))
    ∧ 0 ≤ ((readScan1dTrees cfg ext scanpointN scanpointMin scanpointMax ts).1.h_better i : ℚ)
          / ((readScan1dTrees cfg ext scanpointN scanpointMin scanpointMax ts).1.h_all i : ℚ)
    ∧ ((readScan1dTrees cfg ext scanpointN scanpointMin scanpointMax ts).1.h_better i : ℚ)
          / ((readScan1dTrees cfg ext scanpointN scanpointMin scanpointMax ts).1.h_all i : ℚ)
        ≤ 1 := by
  obtain ⟨-, hle, -, -⟩ := counts_ordered cfg ext scanpointN scanpointMin scanpointMax ts i
  obtain ⟨-, g2, g3, -⟩ :=
    recordLoop_spec cfg (treeAxis scanpointN scanpointMin scanpointMax) ts i
  simp only [readScan1dTrees] at hall hle ⊢
  have hne : (recordLoop cfg (treeAxis scanpointN scanpointMin scanpointMax) ts).h_all i ≠ 0 :=
    Nat.pos_iff_ne_zero.mp hall
  have hq : ((recordLoop cfg (treeAxis scanpointN scanpointMin scanpointMax) ts).h_all i : ℚ)
      ≠ 0 := by exact_mod_cast hne
  have hpos : (0 : ℚ)
      < ((recordLoop cfg (treeAxis scanpointN scanpointMin scanpointMax) ts).h_all i : ℚ) := by
    exact_mod_cast hall
  refine ⟨g2, g3, ?_, ?_, ?_⟩
  · rw [binLoop_row _ _ _ _ h1 (by simpa [treeAxis] using h2)]
    rw [(binStep_written ext _ _ _ i hne).1]
    simp [binP, FVal.div, FVal.ofNat, hq]
  · positivity
  · rw [div_le_one hpos]
    exact_mod_cast hle

/-! ### A concrete run: one record at scan point 0, one bin -/

theorem findBin_demo : (treeAxis 1 0 1).findBin (.fin 0) = 1 := by
  simp [treeAxis, Axis.findBin, FVal.lt]
  norm_num

theorem demo_h_all :
    0 < (readScan1dTrees cfgDemo extDemo 1 0 1 [ToyRecord.zero]).1.h_all 1 := by
  have h := (recordLoop_spec cfgDemo (treeAxis 1 0 1) [ToyRecord.zero] 1).2.1
  simp only [readScan1dTrees]
  rw [h]
  simp [binCount, inBin, ToyRecord.zero, findBin_demo, valid, tooHighLikelihood, convergedFits,
    FVal.feq, FVal.lt, FVal.abs]

/-- Witness of C2: a single valid record at scan point 0 gives `hCL = 1/1`. -/
theorem C2_hCL_fraction_witness :
    0 < (readScan1dTrees cfgDemo extDemo 1 0 1 [ToyRecord.zero]).1.h_all 1
    ∧ ((readScan1dTrees cfgDemo extDemo 1 0 1 [ToyRecord.zero]).2 1).hCL
        = FVal.fin
            (((readScan1dTrees cfgDemo extDemo 1 0 1 [ToyRecord.zero]).1.h_better 1 : ℚ)
              / ((readScan1dTrees cfgDemo extDemo 1 0 1 [ToyRecord.zero]).1.h_all 1 : ℚ)) :=
  ⟨demo_h_all,
    (C2_hCL_fraction cfgDemo extDemo 1 0 1 [ToyRecord.zero] 1 (by decide) (by decide)
      demo_h_all).2.2.1⟩

/-- C7: a record is counted in `n_all` exactly when `statusFree == 0`,
`statusScan == 0`, `|chi2minToy| < 1e27` and `|chi2minGlobalToy| < 1e27`; it is counted
in `n_failed` exactly when it is not; it is always counted in `n_total`; it is counted
in `n_better` and `n_better_cls` only when it is counted in `n_all`; and the condition
fails as soon as `chi2minToy` or `chi2minGlobalToy` is NaN or infinite. The statement
is about one iteration of the record loop, for the bin `i` of every histogram. -/
theorem C7_valid_iff (cfg : ScanConfig) (ax : Axis) (a : Acc) (t : ToyRecord) (i : Nat) :
    (recordStep cfg ax a t).h_all i
        = a.h_all i
          + hit (FVal.feq t.statusFree (.fin 0) && FVal.feq t.statusScan (.fin 0)
              && FVal.lt (FVal.abs t.chi2minToy) (.fin (10 ^ 27))
              && FVal.lt (FVal.abs t.chi2minGlobalToy) (.fin (10 ^ 27)))
            (ax.findBin t.scanpoint) i
    ∧ (recordStep cfg ax a t).h_failed i
        = a.h_failed i
          + hit (!(FVal.feq t.statusFree (.fin 0) && FVal.feq t.statusScan (.fin 0)
              && FVal.lt (FVal.abs t.chi2minToy) (.fin (10 ^ 27))
              && FVal.lt (FVal.abs t.chi2minGlobalToy) (.fin (10 ^ 27))))
            (ax.findBin t.scanpoint) i
    ∧ (recordStep cfg ax a t).h_tot i = a.h_tot i + hit true (ax.findBin t.scanpoint) i
    ∧ (recordStep cfg ax a t).h_better i
        = a.h_better i
          + hit ((FVal.feq t.statusFree (.fin 0) && FVal.feq t.statusScan (.fin 0)
              && FVal.lt (FVal.abs t.chi2minToy) (.fin (10 ^ 27))
              && FVal.lt (FVal.abs t.chi2minGlobalToy) (.fin (10 ^ 27)))
              && FVal.ge (FVal.sub t.chi2minToy t.chi2minGlobalToy)
                (FVal.sub t.chi2min cfg.chi2minGlobal))
            (ax.findBin t.scanpoint) i
    ∧ (recordStep cfg ax a t).h_better_cls i
        = a.h_better_cls i
          + hit ((FVal.feq t.statusFree (.fin 0) && FVal.feq t.statusScan (.fin 0)
              && FVal.lt (FVal.abs t.chi2minToy) (.fin (10 ^ 27))
              && FVal.lt (FVal.abs t.chi2minGlobalToy) (.fin (10 ^ 27)))
              && FVal.ge (FVal.sub t.chi2minToy t.chi2minGlobalToy)
                (FVal.sub t.chi2min cfg.chi2minBkg))
            (ax.findBin t.scanpoint) i
    ∧ (FVal.feq t.statusFree (.fin 0) && FVal.feq t.statusScan (.fin 0)
          && FVal.lt (FVal.abs t.chi2minToy) (.fin (10 ^ 27))
          && FVal.lt (FVal.abs t.chi2minGlobalToy) (.fin (10 ^ 27)))
        = ((FVal.feq t.statusFree (.fin 0) && FVal.feq t.statusScan (.fin 0)
          && FVal.lt (FVal.abs t.chi2minToy) (.fin (10 ^ 27))
          && FVal.lt (FVal.abs t.chi2minGlobalToy) (.fin (10 ^ 27)))
          && FVal.isfinite t.chi2minToy && FVal.isfinite t.chi2minGlobalToy) := by
  obtain ⟨g1, g2, g3, g4, g5, -⟩ := recordStep_fields cfg ax a t i
  have hv : valid t = (FVal.feq t.statusFree (.fin 0) && FVal.feq t.statusScan (.fin 0)
      && FVal.lt (FVal.abs t.chi2minToy) (.fin (10 ^ 27))
      && FVal.lt (FVal.abs t.chi2minGlobalToy) (.fin (10 ^ 27))) := by
    unfold valid tooHighLikelihood convergedFits
    cases FVal.feq t.statusFree (.fin 0) <;> cases FVal.feq t.statusScan (.fin 0) <;>
      cases FVal.lt (FVal.abs t.chi2minToy) (.fin (10 ^ 27)) <;>
      cases FVal.lt (FVal.abs t.chi2minGlobalToy) (.fin (10 ^ 27)) <;> rfl
  have hf : (tooHighLikelihood t || !(convergedFits t)) = !(valid t) := by
    unfold valid
    cases (tooHighLikelihood t || !(convergedFits t)) <;> rfl
  refine ⟨?_, ?_, g1, ?_, ?_, ?_⟩
  · rw [g2, hv]
  · rw [g5, hf, hv]
  · rw [g3]; unfold isBetter; rw [hv]
  · rw [g4]; unfold isBetterCls; rw [hv]
  · cases h1 : t.chi2minToy <;> cases h2 : t.chi2minGlobalToy <;>
      simp [FVal.lt, FVal.abs, FVal.isfinite]

/-- C3 (the code at a record with `scanbest = 1 < scanpoint = 2` and raw test statistic
`5 - 3 = 2 > 0`): the value stored in `sampledSBValues` is the raw value 2 and not 0;
the code stores 0 in the opposite case, `scanbest > scanpoint`. -/
theorem C3_raw_value_stored :
    FVal.lt recBelow.scanbest recBelow.scanpoint = true
    ∧ FVal.gt (FVal.sub recBelow.chi2minToy recBelow.chi2minGlobalToy) (.fin 0) = true
    ∧ sbTestStatVal recBelow = .fin 2
    ∧ sbTestStatVal recBelow ≠ .fin 0
    ∧ (recordLoop cfgDemo (treeAxis 1 2 2) [recBelow]).sampledSBValues
        ((treeAxis 1 2 2).findBin recBelow.scanpoint) = [.fin 2] := by
  have h : sbTestStatVal recBelow = .fin 2 := by
    simp [sbTestStatVal, recBelow, ToyRecord.zero, FVal.le, FVal.sub, FVal.add, FVal.neg]
    norm_num
  refine ⟨?_, ?_, h, ?_, ?_⟩
  · simp [recBelow, ToyRecord.zero, FVal.lt]
  · simp [recBelow, ToyRecord.zero, FVal.gt, FVal.lt, FVal.sub, FVal.add, FVal.neg]
    norm_num
  · rw [h]; simp
  · have g := (recordLoop_spec cfgDemo (treeAxis 1 2 2) [recBelow]
      ((treeAxis 1 2 2).findBin recBelow.scanpoint)).2.2.2.2.2.2.2.2
    rw [g]
    simp [inBin, h]

/-- A bin with valid toys has background-only samples. -/
theorem sampledB_length_pos (cfg : ScanConfig) (ax : Axis) (ts : List ToyRecord) (i : Nat)
    (h : 0 < (recordLoop cfg ax ts).h_all i) :
    0 < ((recordLoop cfg ax ts).sampledBValues i).length := by
  obtain ⟨-, g2, -, -, -, -, -, g8, -⟩ := recordLoop_spec cfg ax ts i
  rw [g8, List.length_map]
  rw [g2] at h
  unfold binCount at h
  exact Nat.lt_of_lt_of_le h (List.length_filter_le _ _)

/-- The value `p` of a bin with valid toys is a rational in `[0, 1]`. -/
theorem binP_fin (cfg : ScanConfig) (ax : Axis) (ts : List ToyRecord) (i : Nat)
    (h : 0 < (recordLoop cfg ax ts).h_all i) :
    ∃ q : ℚ, binP (recordLoop cfg ax ts) i = .fin q ∧ 0 ≤ q ∧ q ≤ 1 := by
  obtain ⟨-, g2, g3, -⟩ := recordLoop_spec cfg ax ts i
  have hle : (recordLoop cfg ax ts).h_better i ≤ (recordLoop cfg ax ts).h_all i := by
    rw [g2, g3]
    exact binCount_mono _ _ (isBetter_valid cfg) _ _ _
  have hpos : (0 : ℚ) < ((recordLoop cfg ax ts).h_all i : ℚ) := by exact_mod_cast h
  refine ⟨((recordLoop cfg ax ts).h_better i : ℚ) / ((recordLoop cfg ax ts).h_all i : ℚ),
    ?_, by positivity, ?_⟩
  · simp [binP, FVal.div, FVal.ofNat, ne_of_gt hpos]
  · rw [div_le_one hpos]
    exact_mod_cast hle

/-- The value `dataCLb` of a bin with background-only samples is a non-negative
rational. -/
theorem dataCLb_fin (ext : Ext) (vals : List FVal) (p : FVal) (h : 0 < vals.length) :
    ∃ d : ℚ, dataCLb ext vals p = .fin d ∧ 0 ≤ d := by
  have hpos : (0 : ℚ) < (vals.length : ℚ) := by exact_mod_cast h
  refine ⟨(nDataAboveBkgExp vals (dataTestStat ext p) : ℚ) / (vals.length : ℚ), ?_,
    by positivity⟩
  simp [dataCLb, FVal.div, FVal.ofNat, ne_of_gt hpos]

/-- C9: for every record sequence and every bin `i` of the histogram with
`n_all[i] > 0`, the value `readScan1dTrees` writes to `hCLsFreq[i]` is a number (not
NaN, not infinite) that is at most 1, whichever branch is taken, also when the
background-only fraction `dataCLb` is 0. -/
theorem C9_hCLsFreq_le_one (cfg : ScanConfig) (ext : Ext) (scanpointN : Nat)
    (scanpointMin scanpointMax : ℚ) (ts : List ToyRecord) (i : Nat)
    (h1 : 1 ≤ i) (h2 : i ≤ scanpointN)
    (hall : 0 < (readScan1dTrees cfg ext scanpointN scanpointMin scanpointMax ts).1.h_all i) :
    ∃ q : ℚ,
      ((readScan1dTrees cfg ext scanpointN scanpointMin scanpointMax ts).2 i).hCLsFreq
        = FVal.fin q ∧ q ≤ 1 := by
  simp only [readScan1dTrees] at hall ⊢
  have hne : (recordLoop cfg (treeAxis scanpointN scanpointMin scanpointMax) ts).h_all i ≠ 0 :=
    Nat.pos_iff_ne_zero.mp hall
  rw [binLoop_row _ _ _ _ h1 (by simpa [treeAxis] using h2)]
  rw [(binStep_written ext _ _ _ i hne).2.2.1]
  obtain ⟨pq, hp, hp0, hp1⟩ := binP_fin cfg _ ts i hall
  obtain ⟨dq, hd, hd0⟩ := dataCLb_fin ext _
    (binP (recordLoop cfg (treeAxis scanpointN scanpointMin scanpointMax) ts) i)
    (sampledB_length_pos cfg _ ts i hall)
  rw [hd, hp]
  by_cases c1 : FVal.ge (FVal.div (FVal.fin pq) (FVal.fin dq)) (.fin 1) = true
  · rw [if_pos c1]
    exact ⟨1, rfl, le_refl _⟩
  · rw [if_neg c1]
    by_cases c2 : FVal.feq (dataTestStat ext (FVal.fin pq)) (.fin (10 ^ 10)) = true
    · rw [if_pos c2]
      exact ⟨pq, rfl, hp1⟩
    · rw [if_neg c2]
      split
      · exact ⟨1, rfl, le_refl _⟩
      · by_cases hdz : dq = 0
        · exfalso
          by_cases hpz : pq = 0
          · apply c2
            simp [dataTestStat, FVal.gt, FVal.lt, FVal.feq, hpz]
          · apply c1
            have hpp : 0 < pq := lt_of_le_of_ne hp0 (Ne.symm hpz)
            simp [FVal.div, FVal.infTimes, FVal.ge, FVal.le, hdz, hpz, hpp]
        · refine ⟨pq / dq, by simp [FVal.div, hdz], ?_⟩
          have hc : ¬ (1 ≤ pq / dq) := by
            intro hle
            apply c1
            simp [FVal.div, FVal.ge, FVal.le, hdz, hle]
          exact le_of_lt (not_le.mp hc)

/-- Witness of C9: a single valid record at scan point 0, where `dataCLb` is 0. -/
theorem C9_hCLsFreq_le_one_witness :
    0 < (readScan1dTrees cfgDemo extDemo 1 0 1 [ToyRecord.zero]).1.h_all 1
    ∧ ∃ q : ℚ, ((readScan1dTrees cfgDemo extDemo 1 0 1 [ToyRecord.zero]).2 1).hCLsFreq
        = FVal.fin q ∧ q ≤ 1 :=
  ⟨demo_h_all,
    C9_hCLsFreq_le_one cfgDemo extDemo 1 0 1 [ToyRecord.zero] 1 (by decide) (by decide)
      demo_h_all⟩

/-- C10: for every bin `i` of the histogram with `n_all[i] > 0` in which the ratio
`p / dataCLb` is `>= 1` (`p` the value of `hCL[i]`, `dataCLb` the fraction of the
background-only samples of the bin at or above the data test statistic),
`readScan1dTrees` sets `hCLsFreq[i]` to exactly 1 and its error to exactly 0. -/
theorem C10_hCLsFreq_clipped (cfg : ScanConfig) (ext : Ext) (scanpointN : Nat)
    (scanpointMin scanpointMax : ℚ) (ts : List ToyRecord) (i : Nat)
    (h1 : 1 ≤ i) (h2 : i ≤ scanpointN)
    (hall : 0 < (readScan1dTrees cfg ext scanpointN scanpointMin scanpointMax ts).1.h_all i)
    (hratio : FVal.ge
      (FVal.div ((readScan1dTrees cfg ext scanpointN scanpointMin scanpointMax ts).2 i).hCL
        (dataCLb ext
          ((readScan1dTrees cfg ext scanpointN scanpointMin scanpointMax ts).1.sampledBValues i)
          ((readScan1dTrees cfg ext scanpointN scanpointMin scanpointMax ts).2 i).hCL))
      (.fin 1) = true) :
    ((readScan1dTrees cfg ext scanpointN scanpointMin scanpointMax ts).2 i).hCLsFreq = .fin 1
    ∧ ((readScan1dTrees cfg ext scanpointN scanpointMin scanpointMax ts).2 i).hCLsFreqErr
        = .fin 0 := by
  simp only [readScan1dTrees] at hall hratio ⊢
  have hne : (recordLoop cfg (treeAxis scanpointN scanpointMin scanpointMax) ts).h_all i ≠ 0 :=
    Nat.pos_iff_ne_zero.mp hall
  rw [binLoop_row _ _ _ _ h1 (by simpa [treeAxis] using h2)] at hratio ⊢
  obtain ⟨w1, -, w3, w4⟩ := binStep_written ext
    (treeAxis scanpointN scanpointMin scanpointMax)
    (recordLoop cfg (treeAxis scanpointN scanpointMin scanpointMax) ts)
    (fun j => BinRow.init
      ((recordLoop cfg (treeAxis scanpointN scanpointMin scanpointMax) ts).h_background j))
    i hne
  rw [w1] at hratio
  exact ⟨by rw [w3, if_pos hratio], w4 hratio⟩

theorem demo_hCL :
    ((readScan1dTrees cfgDemo extDemo 1 0 1 [ToyRecord.zero]).2 1).hCL = .fin 1 := by
  have h := (hCL_content cfgDemo extDemo 1 0 1 [ToyRecord.zero] 1 (by decide)
    (by decide) demo_h_all)
  rw [h]
  have g := recordLoop_spec cfgDemo (treeAxis 1 0 1) [ToyRecord.zero] 1
  simp only [readScan1dTrees]
  rw [g.2.1, g.2.2.1]
  simp [binCount, inBin, ToyRecord.zero, findBin_demo, valid, tooHighLikelihood, convergedFits,
    isBetter, cfgDemo, FVal.feq, FVal.lt, FVal.abs, FVal.ge, FVal.le, FVal.sub, FVal.add,
    FVal.neg]

theorem demo_sampledB :
    (readScan1dTrees cfgDemo extDemo 1 0 1 [ToyRecord.zero]).1.sampledBValues 1 = [.fin 0] := by
  have g := recordLoop_spec cfgDemo (treeAxis 1 0 1) [ToyRecord.zero] 1
  simp only [readScan1dTrees]
  rw [g.2.2.2.2.2.2.2.1]
  simp [inBin, ToyRecord.zero, findBin_demo, bkgTestStatVal, FVal.le, FVal.sub, FVal.add,
    FVal.neg]

theorem demo_ratio :
    FVal.ge
      (FVal.div ((readScan1dTrees cfgDemo extDemo 1 0 1 [ToyRecord.zero]).2 1).hCL
        (dataCLb extDemo
          ((readScan1dTrees cfgDemo extDemo 1 0 1 [ToyRecord.zero]).1.sampledBValues 1)
          ((readScan1dTrees cfgDemo extDemo 1 0 1 [ToyRecord.zero]).2 1).hCL))
      (.fin 1) = true := by
  rw [demo_hCL, demo_sampledB]
  simp [dataCLb, dataTestStat, nDataAboveBkgExp, extDemo, FVal.gt, FVal.lt, FVal.ge, FVal.le,
    FVal.div, FVal.ofNat, FVal.infTimes, FVal.sub, FVal.add, FVal.neg]

/-- Witness of C10: a single valid record at scan point 0; `p = 1`, `dataCLb = 0`, the
ratio is `+inf`. -/
theorem C10_hCLsFreq_clipped_witness :
    (0 < (readScan1dTrees cfgDemo extDemo 1 0 1 [ToyRecord.zero]).1.h_all 1
      ∧ FVal.ge
          (FVal.div ((readScan1dTrees cfgDemo extDemo 1 0 1 [ToyRecord.zero]).2 1).hCL
            (dataCLb extDemo
              ((readScan1dTrees cfgDemo extDemo 1 0 1 [ToyRecord.zero]).1.sampledBValues 1)
              ((readScan1dTrees cfgDemo extDemo 1 0 1 [ToyRecord.zero]).2 1).hCL))
          (.fin 1) = true)
    ∧ ((readScan1dTrees cfgDemo extDemo 1 0 1 [ToyRecord.zero]).2 1).hCLsFreq = .fin 1
    ∧ ((readScan1dTrees cfgDemo extDemo 1 0 1 [ToyRecord.zero]).2 1).hCLsFreqErr = .fin 0 :=
  ⟨⟨demo_h_all, demo_ratio⟩,
    C10_hCLsFreq_clipped cfgDemo extDemo 1 0 1 [ToyRecord.zero] 1 (by decide) (by decide)
      demo_h_all demo_ratio⟩

/-! ## Claims on the fit ladders of `scan1d` -/

/-- The state after `r = loadAndFit(pdf)`, field by field. -/
theorem fitAssign_fields (env : Env) (s : ScanState) :
    (fitAssign env s).fits = s.fits ++ [⟨s.fitStrategy, s.toyData, s.poiConstant⟩]
    ∧ (fitAssign env s).fitStatus = (env.fit s.fits.length).pdfStatus
    ∧ (fitAssign env s).minNll = (env.fit s.fits.length).pdfMinNll
    ∧ (fitAssign env s).cur = env.fit s.fits.length
    ∧ (fitAssign env s).toyData = s.toyData
    ∧ (fitAssign env s).poiConstant = s.poiConstant
    ∧ (fitAssign env s).fitStrategy = s.fitStrategy
    ∧ (fitAssign env s).toyTree = s.toyTree
    ∧ (fitAssign env s).minNllScan = s.minNllScan := by
  simp [fitAssign, loadAndFit]

/-- The state after one attempt of a ladder with the parameter of interest fixed. -/
theorem scanFitAttempt_fields (env : Env) (s : ScanState) :
    (scanFitAttempt env s).fitStatus = attemptStatus (env.fit s.fits.length)
    ∧ (scanFitAttempt env s).fits = s.fits ++ [⟨s.fitStrategy, s.toyData, s.poiConstant⟩]
    ∧ (scanFitAttempt env s).toyData = s.toyData
    ∧ (scanFitAttempt env s).poiConstant = s.poiConstant
    ∧ (scanFitAttempt env s).minNll = (env.fit s.fits.length).pdfMinNll
    ∧ (scanFitAttempt env s).cur = env.fit s.fits.length := by
  obtain ⟨f1, f2, f3, f4, f5, f6, -, -, -⟩ := fitAssign_fields env s
  unfold scanFitAttempt setAndPrintFitStatusFreeToys attemptStatus
  cases h : FVal.isfinite (env.fit s.fits.length).pdfMinNll <;>
    simp [setMinNllScan, f1, f2, f3, f4, f5, f6, h]

theorem flagInfNan_fits (s : ScanState) :
    (setMinNllScan (flagInfNan s)).fits = s.fits
    ∧ (setMinNllScan (flagInfNan s)).cur = s.cur
    ∧ (setMinNllScan (flagInfNan s)).minNllScan = s.minNll
    ∧ (setMinNllScan (flagInfNan s)).toyTree = s.toyTree := by
  unfold flagInfNan setMinNllScan
  split <;> simp

@[simp] theorem setFitStrategy_fits (k : Int) (s : ScanState) :
    (setFitStrategy k s).fits = s.fits := rfl

@[simp] theorem setFitStrategy_toyData (k : Int) (s : ScanState) :
    (setFitStrategy k s).toyData = s.toyData := rfl

@[simp] theorem setFitStrategy_poiConstant (k : Int) (s : ScanState) :
    (setFitStrategy k s).poiConstant = s.poiConstant := rfl

@[simp] theorem setFitStrategy_fitStrategy (k : Int) (s : ScanState) :
    (setFitStrategy k s).fitStrategy = k := rfl

/-- The optimizer calls of the ladder with the parameter of interest fixed, started
with strategy 0. -/
theorem scanFitLadder_fits (env : Env) (s : ScanState) (h0 : s.fitStrategy = 0) :
    (scanFitLadder env s).fits
      = s.fits
        ++ (ladderStrategies (attemptStatus (env.fit s.fits.length))
              (attemptStatus (env.fit (s.fits.length + 1)))).map
            (fun k => (⟨k, s.toyData, s.poiConstant⟩ : FitCall)) := by
  obtain ⟨a1, a2, a3, a4, -, -⟩ := scanFitAttempt_fields env s
  obtain ⟨b1, b2, b3, b4, -, -⟩ :=
    scanFitAttempt_fields env (setFitStrategy 1 (scanFitAttempt env s))
  obtain ⟨c1, -⟩ := fitAssign_fields env
    (setFitStrategy 2 (scanFitAttempt env (setFitStrategy 1 (scanFitAttempt env s))))
  simp only [setFitStrategy_fits, setFitStrategy_toyData, setFitStrategy_poiConstant,
    setFitStrategy_fitStrategy, a2, a3, a4, List.length_append, List.length_singleton]
    at b1 b2 b3 b4
  simp only [setFitStrategy_fits, setFitStrategy_toyData, setFitStrategy_poiConstant,
    setFitStrategy_fitStrategy, b2, b3, b4] at c1
  unfold scanFitLadder ladderStrategies
  dsimp only
  rw [(flagInfNan_fits _).1, ← a1, ← b1]
  by_cases d0 : (scanFitAttempt env s).fitStatus = 0
  · rw [if_neg (not_not.mpr d0), if_pos d0, a2, h0]
    rfl
  · rw [if_pos d0, if_neg d0]
    by_cases d1 : (scanFitAttempt env (setFitStrategy 1 (scanFitAttempt env s))).fitStatus = 0
    · rw [if_neg (not_not.mpr d1), if_pos d1, b2, h0]
      simp
    · rw [if_pos d1, if_neg d1, c1, h0]
      simp

@[simp] theorem setConstant_fits (b : Bool) (s : ScanState) :
    (setConstant b s).fits = s.fits := rfl

@[simp] theorem setConstant_toyData (b : Bool) (s : ScanState) :
    (setConstant b s).toyData = s.toyData := rfl

@[simp] theorem setConstant_poiConstant (b : Bool) (s : ScanState) :
    (setConstant b s).poiConstant = b := rfl

@[simp] theorem setParevolPointByIndex_fits (env : Env) (i : Nat) (s : ScanState) :
    (setParevolPointByIndex env i s).fits = s.fits := rfl

@[simp] theorem setParevolPointByIndex_toyData (env : Env) (i : Nat) (s : ScanState) :
    (setParevolPointByIndex env i s).toyData = s.toyData := rfl

/-- C5: for every toy and every behaviour of the optimizer, the constrained fit of
`scan1d` is attempted with the strategies 0, then 1, then 2: strategy 0 is always
attempted first, strategy 1 is attempted exactly when the fit status after the attempt
with strategy 0 is non-zero, strategy 2 exactly when strategy 1 was attempted and the
fit status after it is non-zero, and there are at most three attempts. The fit status
after an attempt is the status the pdf holds at the decision, i.e. after
`setAndPrintFitStatusFreeToys`. -/
theorem C5_constrained_ladder (env : Env) (i : Nat) (s : ScanState) :
    (constrainedFit env i s).fits
        = s.fits
          ++ (if (scanFitAttempt env
                  (setFitStrategy 0 (setConstant true (setParevolPointByIndex env i s)))).fitStatus
                = 0 then [0]
              else if (scanFitAttempt env (setFitStrategy 1 (scanFitAttempt env
                  (setFitStrategy 0 (setConstant true (setParevolPointByIndex env i s)))))).fitStatus
                = 0 then [0, 1]
              else [0, 1, 2]).map (fun k => (⟨k, s.toyData, true⟩ : FitCall))
    ∧ ((constrainedFit env i s).fits.drop s.fits.length).length ≤ 3
    ∧ (((constrainedFit env i s).fits.drop s.fits.length).map (fun c => c.strategy)).head?
        = some 0
    ∧ ((1 : Int) ∈ ((constrainedFit env i s).fits.drop s.fits.length).map (fun c => c.strategy)
        ↔ (scanFitAttempt env
            (setFitStrategy 0 (setConstant true (setParevolPointByIndex env i s)))).fitStatus
          ≠ 0)
    ∧ ((2 : Int) ∈ ((constrainedFit env i s).fits.drop s.fits.length).map (fun c => c.strategy)
        ↔ ((1 : Int) ∈ ((constrainedFit env i s).fits.drop s.fits.length).map
              (fun c => c.strategy)
          ∧ (scanFitAttempt env (setFitStrategy 1 (scanFitAttempt env
              (setFitStrategy 0 (setConstant true (setParevolPointByIndex env i s)))))).fitStatus
            ≠ 0)) := by
  have hfits : (constrainedFit env i s).fits
      = (scanFitLadder env
          (setFitStrategy 0 (setConstant true (setParevolPointByIndex env i s)))).fits := rfl
  have hl := scanFitLadder_fits env
    (setFitStrategy 0 (setConstant true (setParevolPointByIndex env i s))) rfl
  obtain ⟨a1, a2, -⟩ := scanFitAttempt_fields env
    (setFitStrategy 0 (setConstant true (setParevolPointByIndex env i s)))
  obtain ⟨b1, -⟩ := scanFitAttempt_fields env (setFitStrategy 1 (scanFitAttempt env
    (setFitStrategy 0 (setConstant true (setParevolPointByIndex env i s)))))
  simp only [setFitStrategy_fits, setConstant_fits, setParevolPointByIndex_fits,
    setFitStrategy_toyData, setConstant_toyData, setParevolPointByIndex_toyData,
    setFitStrategy_poiConstant, setConstant_poiConstant, a2, List.length_append,
    List.length_singleton] at hl a1 b1
  rw [hfits, hl, a1, b1]
  unfold ladderStrategies
  by_cases d0 : attemptStatus (env.fit s.fits.length) = 0
  · simp [d0]
  · by_cases d1 : attemptStatus (env.fit (s.fits.length + 1)) = 0
    · simp [d0, d1]
    · simp [d0, d1]

theorem gt_self (x : FVal) : FVal.gt x x = false := by
  cases x <;> simp [FVal.gt, FVal.lt]

theorem twice_not_gt (a b : FVal) (h : FVal.lt a b = true) :
    FVal.gt (twice a) (twice b) = false := by
  cases a <;> cases b <;>
    simp_all [FVal.gt, FVal.lt, twice, FVal.mul, FVal.infTimes]
  linarith

/-- The extra free fit as one optimizer call on a prepared state. -/
theorem recoveryFit_eq (env : Env) (parsAfterScanFit : FVal) (s : ScanState) :
    ∃ prep : ScanState, prep.cur = s.cur ∧ prep.fits = s.fits ∧ prep.poiConstant = false
      ∧ recoveryFit env parsAfterScanFit s
          = (if improvementFound (env.fit s.fits.length) s.cur = true
              then { setMinNllFree (loadAndFit env prep).1 with cur := env.fit s.fits.length }
              else setVal s.cur.poiFinal (loadAndFit env prep).1) := by
  refine ⟨setConstant false
    (if FVal.lt (setVal parsAfterScanFit s).poiVal (.fin (1 / 10 ^ 13)) = true
      then setVal (.fin (67 / 10 ^ 14)) (setVal parsAfterScanFit s)
      else setVal parsAfterScanFit s), ?_, ?_, rfl, ?_⟩
  · split <;> rfl
  · split <;> rfl
  · have h1 : (setConstant false
        (if FVal.lt (setVal parsAfterScanFit s).poiVal (.fin (1 / 10 ^ 13)) = true
          then setVal (.fin (67 / 10 ^ 14)) (setVal parsAfterScanFit s)
          else setVal parsAfterScanFit s)).cur = s.cur := by split <;> rfl
    have h2 : (setConstant false
        (if FVal.lt (setVal parsAfterScanFit s).poiVal (.fin (1 / 10 ^ 13)) = true
          then setVal (.fin (67 / 10 ^ 14)) (setVal parsAfterScanFit s)
          else setVal parsAfterScanFit s)).fits = s.fits := by split <;> rfl
    unfold recoveryFit
    dsimp only
    rw [h1]
    have h3 : (loadAndFit env (setConstant false
        (if FVal.lt (setVal parsAfterScanFit s).poiVal (.fin (1 / 10 ^ 13)) = true
          then setVal (.fin (67 / 10 ^ 14)) (setVal parsAfterScanFit s)
          else setVal parsAfterScanFit s))).2 = env.fit s.fits.length := by
      show env.fit _ = _
      rw [h2]
    rw [h3]

/-- C8: the extra free fit `r_tmp` replaces the previous free-fit result `r1` exactly
when its status is 0, its minimum is strictly lower than the minimum of `r1` and its
minimum is greater than `-1e27`; otherwise `r1` is kept and the parameter of interest
is set back to the best-fit value of `r1`. On an exact tie `r1` is kept, twice the
minimum of the result kept (the recorded `chi2minGlobalToy`) is never larger than it
was before the step, and the step makes exactly one optimizer call. -/
theorem C8_recovery_accepts_iff_better (env : Env) (parsAfterScanFit : FVal)
    (s : ScanState) :
    (recoveryFit env parsAfterScanFit s).cur
        = (if (env.fit s.fits.length).status = 0
              ∧ FVal.lt (env.fit s.fits.length).minNll s.cur.minNll = true
              ∧ FVal.gt (env.fit s.fits.length).minNll (.fin (-(10 ^ 27))) = true
            then env.fit s.fits.length else s.cur)
    ∧ (recoveryFit env parsAfterScanFit s).poiVal
        = (if (env.fit s.fits.length).status = 0
              ∧ FVal.lt (env.fit s.fits.length).minNll s.cur.minNll = true
              ∧ FVal.gt (env.fit s.fits.length).minNll (.fin (-(10 ^ 27))) = true
            then (env.fit s.fits.length).poiFinal else s.cur.poiFinal)
    ∧ (FVal.feq (env.fit s.fits.length).minNll s.cur.minNll = true
        → (recoveryFit env parsAfterScanFit s).cur = s.cur)
    ∧ FVal.gt (twice (recoveryFit env parsAfterScanFit s).cur.minNll) (twice s.cur.minNll)
        = false
    ∧ (recoveryFit env parsAfterScanFit s).fits.length = s.fits.length + 1 := by
  obtain ⟨prep, p1, p2, p3, hrec⟩ := recoveryFit_eq env parsAfterScanFit s
  have hcur : (recoveryFit env parsAfterScanFit s).cur
      = (if improvementFound (env.fit s.fits.length) s.cur = true
          then env.fit s.fits.length else s.cur) := by
    rw [hrec]
    split
    · rfl
    · show (loadAndFit env prep).1.cur = s.cur
      rw [← p1]
      rfl
  have hpoi : (recoveryFit env parsAfterScanFit s).poiVal
      = (if improvementFound (env.fit s.fits.length) s.cur = true
          then (env.fit s.fits.length).poiFinal else s.cur.poiFinal) := by
    rw [hrec]
    split
    · show (loadAndFit env prep).1.poiVal = _
      unfold loadAndFit
      simp [p2, p3]
    · rfl
  have hfits : (recoveryFit env parsAfterScanFit s).fits.length = s.fits.length + 1 := by
    rw [hrec]
    split
    · show (loadAndFit env prep).1.fits.length = _
      simp [loadAndFit, p2]
    · show (loadAndFit env prep).1.fits.length = _
      simp [loadAndFit, p2]
  have hcond : improvementFound (env.fit s.fits.length) s.cur = true
      ↔ ((env.fit s.fits.length).status = 0
          ∧ FVal.lt (env.fit s.fits.length).minNll s.cur.minNll = true
          ∧ FVal.gt (env.fit s.fits.length).minNll (.fin (-(10 ^ 27))) = true) := by
    simp [improvementFound, and_assoc]
  refine ⟨?_, ?_, ?_, ?_, hfits⟩
  · rw [hcur]
    by_cases c : improvementFound (env.fit s.fits.length) s.cur = true
    · rw [if_pos c, if_pos (hcond.mp c)]
    · rw [if_neg c, if_neg (fun h => c (hcond.mpr h))]
  · rw [hpoi]
    by_cases c : improvementFound (env.fit s.fits.length) s.cur = true
    · rw [if_pos c, if_pos (hcond.mp c)]
    · rw [if_neg c, if_neg (fun h => c (hcond.mpr h))]
  · intro htie
    rw [hcur]
    have hnlt : FVal.lt (env.fit s.fits.length).minNll s.cur.minNll = false := by
      revert htie
      cases (env.fit s.fits.length).minNll <;> cases s.cur.minNll <;>
        simp [FVal.feq, FVal.lt]
      intro h
      rw [h]
    have c : ¬ improvementFound (env.fit s.fits.length) s.cur = true := by
      intro h
      have := (hcond.mp h).2.1
      rw [hnlt] at this
      exact Bool.false_ne_true this
    rw [if_neg c]
  · rw [hcur]
    by_cases c : improvementFound (env.fit s.fits.length) s.cur = true
    · rw [if_pos c]
      exact twice_not_gt _ _ (hcond.mp c).2.1
    · rw [if_neg c]
      exact gt_self _

/-- The status after one attempt of the free-fit ladder, at the call of
`setAndPrintFitStatusConstrainedToys`: the status of the optimizer, or -99 when the
minimum is not finite. -/
theorem freeFitAttempt_status (env : Env) (s : ScanState) :
    (freeFitAttempt env s).fitStatus = attemptStatus (env.fit s.fits.length) := by
  obtain ⟨-, f2, f3, -⟩ := fitAssign_fields env s
  unfold freeFitAttempt flagNotFiniteFree attemptStatus
  cases h : FVal.isfinite (env.fit s.fits.length).pdfMinNll <;>
    simp [storeChi2minGlobalToy, setMinNllFree, f2, f3, h]

/-- C6 (the code at its failing input): in the ladder of the background-only toys a
strategy-0 attempt that reports status 0 with an infinite minimum is accepted: no
further attempt is made (one optimizer call), the infinite minimum is stored, and the
status is forced to -99 only after the ladder. With the same optimizer the ladder of
the constrained fit escalates to strategies 1 and 2. -/
theorem C6_prefit_accepts_nonfinite :
    (bkgOnlyToyFit (envDemo fitInf) 0 stateDemo).fits = [⟨0, DataId.bkgToy 0, false⟩]
    ∧ (bkgOnlyToyFit (envDemo fitInf) 0 stateDemo).chi2minGlobalBkgToysStore = [.pinf]
    ∧ (bkgOnlyToyFit (envDemo fitInf) 0 stateDemo).fitStatus = -99
    ∧ (scanFitLadder (envDemo fitInf) (setFitStrategy 0 stateDemo)).fits.map
        (fun c => c.strategy) = [0, 1, 2] := by
  refine ⟨?_, ?_, ?_, ?_⟩
  · simp [bkgOnlyToyFit, fitAssign, loadAndFit, setMinNllScan, setToyData, setConstant,
      setFitStrategy, flagInfNan, envDemo, fitInf, stateDemo, FVal.isinf, FVal.isnan]
  · simp [bkgOnlyToyFit, fitAssign, loadAndFit, setMinNllScan, setToyData, setConstant,
      setFitStrategy, flagInfNan, envDemo, fitInf, stateDemo, twice, FVal.mul, FVal.infTimes,
      FVal.isinf, FVal.isnan]
  · simp [bkgOnlyToyFit, fitAssign, loadAndFit, setMinNllScan, setToyData, setConstant,
      setFitStrategy, flagInfNan, envDemo, fitInf, stateDemo, FVal.isinf, FVal.isnan]
  · rw [scanFitLadder_fits _ _ rfl]
    simp [ladderStrategies, attemptStatus, envDemo, fitInf, FVal.isfinite, stateDemo]

/-- C4 (the code at its failing input): the constrained fit converges at minimum 10,
the fit to the background-only toy at minimum 5 and the strategy-0 free fit at minimum
8 with status 0, so the test statistic is `20 - 16 = 4 >= 0`. The ladder nevertheless
refits with strategies 1 and 2 (five optimizer calls in the toy instead of three), and
the entry holds the strategy-2 result `2 * 9 = 18` and the pdf status -13, not the
strategy-0 result 16 with status 0. -/
theorem C4_spurious_refit :
    ((fitC4 2).status = 0 ∧ (fitC4 2).pdfStatus = 0
      ∧ FVal.isfinite (fitC4 2).minNll = true ∧ FVal.isfinite (fitC4 2).pdfMinNll = true
      ∧ FVal.ge (FVal.sub (twice (fitC4 0).minNll) (twice (fitC4 2).minNll)) (.fin 0) = true)
    ∧ (toyBody (envDemo fitC4) 0 0 stateToys).map
        (fun s => (s.fits, s.filled.map (fun t => (t.chi2minGlobalToy, t.statusFreePDF))))
      = .ok ([⟨0, DataId.toy 0 0, true⟩, ⟨0, DataId.bkgToy 0, true⟩,
              ⟨0, DataId.toy 0 0, false⟩, ⟨1, DataId.toy 0 0, false⟩,
              ⟨2, DataId.toy 0 0, false⟩],
             [(.fin 18, .fin (-13))]) := by
  constructor
  · simp [fitC4, converged, FVal.isfinite, twice, FVal.mul, FVal.sub, FVal.add, FVal.neg,
      FVal.ge, FVal.le]
    norm_num
  · simp [toyBody, toyBodyScan, bkgHypFit, freeFit, constrainedFit, scanFitLadder,
      scanFitAttempt, fitAssign, loadAndFit, freeFitLadder, freeFitAttempt, recoveryFit,
      setAndPrintFitStatusConstrainedToys, setAndPrintFitStatusFreeToys,
      setParevolPointByIndex, flagInfNan, flagNotFiniteFree, storeChi2minGlobalToy,
      setMinNllScan, setMinNllFree, setFitStrategy, setConstant, setToyData, setVal, setLimit,
      negTestStat, twice, envDemo, stateToys, stateDemo, fitC4, converged, FVal.isfinite,
      FVal.isinf, FVal.isnan, FVal.mul, FVal.sub, FVal.add, FVal.neg, FVal.lt, FVal.gt,
      FVal.fne, FVal.feq, FVal.ofInt, Except.map]
    norm_num

/-! ## Claims on the CLsFreq cascade, the skipped bins and the p-value helper -/

/-- The content and error of `hCLs`, the content of `hCLsExp`, and what the second
branch of the CLsFreq cascade writes, for the iteration of a bin with valid toys. -/
theorem binStep_written_more (ext : Ext) (ax : Axis) (a : Acc) (out : Nat → BinRow) (i : Nat)
    (h : a.h_all i ≠ 0) :
    (binStep ext ax a out i i).hCLs
        = FVal.div (FVal.ofNat (a.h_better_cls i)) (FVal.ofNat (a.h_all i))
    ∧ (binStep ext ax a out i i).hCLsErr
        = binomErr ext (FVal.div (FVal.ofNat (a.h_better_cls i)) (FVal.ofNat (a.h_all i)))
            (FVal.ofNat (a.h_all i))
    ∧ (binStep ext ax a out i i).hCLsExp
        = tmathMin
            (FVal.div
              (ext.getVectorFracAboveValue (a.sampledSBValues i)
                (ext.quantile (a.sampledBValues i) (.fin (1 / 2))))
              (.fin (1 / 2)))
            (.fin 1)
    ∧ (FVal.ge (FVal.div (binP a i) (dataCLb ext (a.sampledBValues i) (binP a i))) (.fin 1)
          = false →
        FVal.feq (dataTestStat ext (binP a i)) (.fin (10 ^ 10)) = true →
        (binStep ext ax a out i i).hCLsFreq = binP a i
        ∧ (binStep ext ax a out i i).hCLsFreqErr
            = binomErr ext (binP a i) (FVal.ofNat (a.h_all i))) := by
  unfold binStep
  dsimp only
  rw [feq_ofNat_zero]
  simp only [h, decide_False, Bool.false_eq_true, if_false, setRow, if_true, binP]
  refine ⟨?_, ?_, ?_, ?_⟩
  · split_ifs <;> rfl
  · split_ifs <;> rfl
  · split_ifs <;> rfl
  · intro hge hdts
    rw [hge, hdts]
    simp

/-- C12: for every bin `i` of the histogram with `n_all[i] > 0` and no better toy
(`n_better[i] = 0`, so `p(i) = 0`), `readScan1dTrees` sets `hCLsFreq[i]` and its error
to the content and error of `hCL[i]`; the record sequence, hence the background-only
samples of the bin, and the library functions are arbitrary. -/
theorem C12_zero_p_falls_back (cfg : ScanConfig) (ext : Ext) (scanpointN : Nat)
    (scanpointMin scanpointMax : ℚ) (ts : List ToyRecord) (i : Nat)
    (h1 : 1 ≤ i) (h2 : i ≤ scanpointN)
    (hall : 0 < (readScan1dTrees cfg ext scanpointN scanpointMin scanpointMax ts).1.h_all i)
    (hp : (readScan1dTrees cfg ext scanpointN scanpointMin scanpointMax ts).1.h_better i = 0) :
    ((readScan1dTrees cfg ext scanpointN scanpointMin scanpointMax ts).2 i).hCL = .fin 0
    ∧ ((readScan1dTrees cfg ext scanpointN scanpointMin scanpointMax ts).2 i).hCLsFreq
        = ((readScan1dTrees cfg ext scanpointN scanpointMin scanpointMax ts).2 i).hCL
    ∧ ((readScan1dTrees cfg ext scanpointN scanpointMin scanpointMax ts).2 i).hCLsFreqErr
        = ((readScan1dTrees cfg ext scanpointN scanpointMin scanpointMax ts).2 i).hCLErr := by
  simp only [readScan1dTrees] at hall hp ⊢
  have hne : (recordLoop cfg (treeAxis scanpointN scanpointMin scanpointMax) ts).h_all i ≠ 0 :=
    Nat.pos_iff_ne_zero.mp hall
  have hq : ((recordLoop cfg (treeAxis scanpointN scanpointMin scanpointMax) ts).h_all i : ℚ)
      ≠ 0 := by exact_mod_cast hne
  rw [binLoop_row _ _ _ _ h1 (by simpa [treeAxis] using h2)]
  obtain ⟨w1, w2, -, -⟩ := binStep_written ext
    (treeAxis scanpointN scanpointMin scanpointMax)
    (recordLoop cfg (treeAxis scanpointN scanpointMin scanpointMax) ts)
    (fun j => BinRow.init
      ((recordLoop cfg (treeAxis scanpointN scanpointMin scanpointMax) ts).h_background j))
    i hne
  obtain ⟨-, -, -, w4⟩ := binStep_written_more ext
    (treeAxis scanpointN scanpointMin scanpointMax)
    (recordLoop cfg (treeAxis scanpointN scanpointMin scanpointMax) ts)
    (fun j => BinRow.init
      ((recordLoop cfg (treeAxis scanpointN scanpointMin scanpointMax) ts).h_background j))
    i hne
  have hP : binP (recordLoop cfg (treeAxis scanpointN scanpointMin scanpointMax) ts) i
      = .fin 0 := by
    simp [binP, hp, FVal.div, FVal.ofNat, hq]
  obtain ⟨dq, hd, -⟩ := dataCLb_fin ext
    ((recordLoop cfg (treeAxis scanpointN scanpointMin scanpointMax) ts).sampledBValues i)
    (binP (recordLoop cfg (treeAxis scanpointN scanpointMin scanpointMax) ts) i)
    (sampledB_length_pos cfg _ ts i hall)
  have hge : FVal.ge (FVal.div
      (binP (recordLoop cfg (treeAxis scanpointN scanpointMin scanpointMax) ts) i)
      (dataCLb ext
        ((recordLoop cfg (treeAxis scanpointN scanpointMin scanpointMax) ts).sampledBValues i)
        (binP (recordLoop cfg (treeAxis scanpointN scanpointMin scanpointMax) ts) i)))
      (.fin 1) = false := by
    rw [hd, hP]
    by_cases hdz : dq = 0
    · simp [FVal.div, FVal.infTimes, FVal.ge, FVal.le, hdz]
    · simp [FVal.div, FVal.ge, FVal.le, hdz]
  have hdts : FVal.feq (dataTestStat ext
      (binP (recordLoop cfg (treeAxis scanpointN scanpointMin scanpointMax) ts) i))
      (.fin (10 ^ 10)) = true := by
    rw [hP]
    simp [dataTestStat, FVal.gt, FVal.lt, FVal.feq]
  obtain ⟨w5, w6⟩ := w4 hge hdts
  rw [w1, w2, w5, w6]
  exact ⟨hP, rfl, rfl⟩

/-- C13: for every `x <= 0` (zero or negative, of any magnitude, minus infinity
included) `getPValueTTestStatistic` returns exactly 1, with the verbose flag set or
not and whatever `TMath::Prob` is; the function is total. -/
theorem C13_pvalue_one_for_nonpositive (verbose : Bool) (prob : FVal → FVal) (x : FVal)
    (hx : FVal.le x (.fin 0) = true) :
    getPValueTTestStatistic prob x = .fin 1
    ∧ (getPValueTTestStatisticVerbose verbose prob x).1 = .fin 1 := by
  have hgt : FVal.gt x (.fin 0) = false := by
    cases x <;> simp_all [FVal.gt, FVal.lt, FVal.le]
  simp [getPValueTTestStatistic, getPValueTTestStatisticVerbose, hgt]

/-- Witness of C13: the input `x = -5` with the verbose flag set. -/
theorem C13_pvalue_one_for_nonpositive_witness :
    FVal.le (.fin (-5)) (.fin 0) = true
    ∧ getPValueTTestStatistic (fun _ => .fin (1 / 2)) (.fin (-5)) = .fin 1
    ∧ (getPValueTTestStatisticVerbose true (fun _ => .fin (1 / 2)) (.fin (-5))).1 = .fin 1 :=
  ⟨by simp [FVal.le],
    C13_pvalue_one_for_nonpositive true (fun _ => .fin (1 / 2)) (.fin (-5))
      (by simp [FVal.le])⟩

/-- C20: for every bin `i` without valid toys (`n_all[i] = 0`), in the histogram range
or not, `readScan1dTrees` leaves the row of the bin as the freshly created histograms
have it: content and error of `hCL`, `hCLs`, `hCLsFreq`, the content of `hCLsExp` and
of the four band histograms are the number 0, hence not NaN. -/
theorem C20_empty_bin_untouched (cfg : ScanConfig) (ext : Ext) (scanpointN : Nat)
    (scanpointMin scanpointMax : ℚ) (ts : List ToyRecord) (i : Nat)
    (hall : (readScan1dTrees cfg ext scanpointN scanpointMin scanpointMax ts).1.h_all i = 0) :
    (readScan1dTrees cfg ext scanpointN scanpointMin scanpointMax ts).2 i
        = BinRow.init
            ((readScan1dTrees cfg ext scanpointN scanpointMin scanpointMax ts).1.h_background i)
    ∧ ((readScan1dTrees cfg ext scanpointN scanpointMin scanpointMax ts).2 i).hCL = .fin 0
    ∧ ((readScan1dTrees cfg ext scanpointN scanpointMin scanpointMax ts).2 i).hCLErr = .fin 0
    ∧ ((readScan1dTrees cfg ext scanpointN scanpointMin scanpointMax ts).2 i).hCLs = .fin 0
    ∧ ((readScan1dTrees cfg ext scanpointN scanpointMin scanpointMax ts).2 i).hCLsErr = .fin 0
    ∧ ((readScan1dTrees cfg ext scanpointN scanpointMin scanpointMax ts).2 i).hCLsFreq = .fin 0
    ∧ ((readScan1dTrees cfg ext scanpointN scanpointMin scanpointMax ts).2 i).hCLsFreqErr
        = .fin 0
    ∧ ((readScan1dTrees cfg ext scanpointN scanpointMin scanpointMax ts).2 i).hCLsExp = .fin 0
    ∧ ((readScan1dTrees cfg ext scanpointN scanpointMin scanpointMax ts).2 i).hCLsErr1Up
        = .fin 0
    ∧ ((readScan1dTrees cfg ext scanpointN scanpointMin scanpointMax ts).2 i).hCLsErr1Dn
        = .fin 0
    ∧ ((readScan1dTrees cfg ext scanpointN scanpointMin scanpointMax ts).2 i).hCLsErr2Up
        = .fin 0
    ∧ ((readScan1dTrees cfg ext scanpointN scanpointMin scanpointMax ts).2 i).hCLsErr2Dn
        = .fin 0 := by
  simp only [readScan1dTrees] at hall ⊢
  have hrow : binLoop ext (treeAxis scanpointN scanpointMin scanpointMax)
      (recordLoop cfg (treeAxis scanpointN scanpointMin scanpointMax) ts) i
      = BinRow.init
          ((recordLoop cfg (treeAxis scanpointN scanpointMin scanpointMax) ts).h_background i)
      := by
    unfold binLoop
    rw [foldl_binStep]
    split
    · rw [binStep_skip _ _ _ _ _ hall]
    · rfl
  rw [hrow]
  exact ⟨rfl, rfl, rfl, rfl, rfl, rfl, rfl, rfl, rfl, rfl, rfl, rfl⟩

/-- Witness of C20: no record at all, one bin. -/
theorem C20_empty_bin_untouched_witness :
    (readScan1dTrees cfgDemo extDemo 1 0 1 []).1.h_all 1 = 0
    ∧ ((readScan1dTrees cfgDemo extDemo 1 0 1 []).2 1).hCL = .fin 0
    ∧ ((readScan1dTrees cfgDemo extDemo 1 0 1 []).2 1).hCLsFreq = .fin 0 :=
  ⟨rfl,
    (C20_empty_bin_untouched cfgDemo extDemo 1 0 1 [] 1 rfl).2.1,
    (C20_empty_bin_untouched cfgDemo extDemo 1 0 1 [] 1 rfl).2.2.2.2.2.1⟩

/-! ### Concrete runs with two bins -/

theorem findBin_two_zero : (treeAxis 2 0 1).findBin (.fin 0) = 1 := by
  simp [treeAxis, Axis.findBin, FVal.lt]
  norm_num

theorem findBin_two_one : (treeAxis 2 0 1).findBin (.fin 1) = 2 := by
  simp [treeAxis, Axis.findBin, FVal.lt]
  norm_num

/-- Witness of C12: a valid record at scan point 0 that is not better than the data,
and a valid record at scan point 1. -/
theorem C12_zero_p_falls_back_witness :
    (0 < (readScan1dTrees cfgDemo extDemo 2 0 1 [recWorse, recAtOne]).1.h_all 1
      ∧ (readScan1dTrees cfgDemo extDemo 2 0 1 [recWorse, recAtOne]).1.h_better 1 = 0)
    ∧ ((readScan1dTrees cfgDemo extDemo 2 0 1 [recWorse, recAtOne]).2 1).hCLsFreq
        = ((readScan1dTrees cfgDemo extDemo 2 0 1 [recWorse, recAtOne]).2 1).hCL := by
  have g := recordLoop_spec cfgDemo (treeAxis 2 0 1) [recWorse, recAtOne] 1
  have ha : 0 < (readScan1dTrees cfgDemo extDemo 2 0 1 [recWorse, recAtOne]).1.h_all 1 := by
    simp only [readScan1dTrees]
    rw [g.2.1]
    simp [binCount, inBin, recWorse, recAtOne, ToyRecord.zero, findBin_two_zero,
      findBin_two_one, valid, tooHighLikelihood, convergedFits, FVal.feq, FVal.lt, FVal.abs]
  have hb : (readScan1dTrees cfgDemo extDemo 2 0 1 [recWorse, recAtOne]).1.h_better 1 = 0 := by
    simp only [readScan1dTrees]
    rw [g.2.2.1]
    simp [binCount, inBin, recWorse, recAtOne, ToyRecord.zero, findBin_two_zero,
      findBin_two_one, isBetter, valid, tooHighLikelihood, convergedFits, cfgDemo, FVal.feq,
      FVal.lt, FVal.abs, FVal.ge, FVal.le, FVal.sub, FVal.add, FVal.neg]
  exact ⟨⟨ha, hb⟩,
    (C12_zero_p_falls_back cfgDemo extDemo 2 0 1 [recWorse, recAtOne] 1 (by decide)
      (by decide) ha hb).2.1⟩

/-! ### The run `[recWorse, recAtOne]`: `p = 0` in bin 1, `p = 1` in bin 2 -/

theorem clipRun_counts :
    (readScan1dTrees cfgDemo extDemo 2 0 1 [recWorse, recAtOne]).1.h_all 1 = 1
    ∧ (readScan1dTrees cfgDemo extDemo 2 0 1 [recWorse, recAtOne]).1.h_better 1 = 0
    ∧ (readScan1dTrees cfgDemo extDemo 2 0 1 [recWorse, recAtOne]).1.h_all 2 = 1
    ∧ (readScan1dTrees cfgDemo extDemo 2 0 1 [recWorse, recAtOne]).1.h_better 2 = 1 := by
  have g1 := recordLoop_spec cfgDemo (treeAxis 2 0 1) [recWorse, recAtOne] 1
  have g2 := recordLoop_spec cfgDemo (treeAxis 2 0 1) [recWorse, recAtOne] 2
  simp only [readScan1dTrees]
  rw [g1.2.1, g1.2.2.1, g2.2.1, g2.2.2.1]
  simp [binCount, inBin, recWorse, recAtOne, ToyRecord.zero, findBin_two_zero,
    findBin_two_one, isBetter, valid, tooHighLikelihood, convergedFits, cfgDemo, FVal.feq,
    FVal.lt, FVal.abs, FVal.ge, FVal.le, FVal.sub, FVal.add, FVal.neg]

theorem clipRun_hCL :
    ((readScan1dTrees cfgDemo extDemo 2 0 1 [recWorse, recAtOne]).2 1).hCL = .fin 0
    ∧ ((readScan1dTrees cfgDemo extDemo 2 0 1 [recWorse, recAtOne]).2 2).hCL = .fin 1 := by
  obtain ⟨c1, c2, c3, c4⟩ := clipRun_counts
  constructor
  · rw [hCL_content cfgDemo extDemo 2 0 1 _ 1 (by decide) (by decide) (by rw [c1]; decide),
      c1, c2]
    simp
  · rw [hCL_content cfgDemo extDemo 2 0 1 _ 2 (by decide) (by decide) (by rw [c3]; decide),
      c3, c4]
    simp

theorem fltMax_pos : 0 < fltMax := by
  unfold fltMax
  norm_num

/-- A non-negative content is above the start value `-FLT_MAX` of `GetMaximumBin`. -/
theorem gt_neg_fltMax (q : ℚ) (h : 0 ≤ q) : FVal.gt (.fin q) (.fin (-fltMax)) = true := by
  have := fltMax_pos
  simp only [FVal.gt, FVal.lt, decide_eq_true_eq]
  linarith

/-- `GetMaximumBin` on two bins with contents `x` and `y`. -/
theorem getMaximumBinF_two (h : Nat → FVal) (x y : ℚ) (h1 : h 1 = .fin x) (h2 : h 2 = .fin y)
    (hx : 0 ≤ x) : getMaximumBinF 2 h = if x < y then 2 else 1 := by
  simp only [getMaximumBinF, List.range_succ, List.range_zero, List.nil_append,
    List.cons_append, List.foldl_cons, List.foldl_nil, Nat.zero_add, h1, h2,
    gt_neg_fltMax x hx, if_true]
  by_cases hxy : x < y <;> simp [FVal.gt, FVal.lt, hxy]

theorem clipRun_maximumBin :
    getMaximumBinF 2
      (fun i => ((readScan1dTrees cfgDemo extDemo 2 0 1 [recWorse, recAtOne]).2 i).hCL) = 2 := by
  obtain ⟨e1, e2⟩ := clipRun_hCL
  rw [getMaximumBinF_two _ 0 1 e1 e2 (le_refl _)]
  norm_num

/-- `GetMaximumBin` on two bins of counts. -/
theorem getMaximumBin_two (h : Nat → Nat) :
    getMaximumBin 2 h = if h 1 < h 2 then 2 else 1 := by
  simp only [getMaximumBin, List.range_succ, List.range_zero, List.nil_append,
    List.cons_append, List.foldl_cons, List.foldl_nil, Nat.zero_add]
  by_cases hxy : h 1 < h 2 <;> simp [hxy]

/-- The third branch of the CLsFreq cascade: a bin with valid toys whose data test
statistic is not the sentinel and whose centre is at or below the centre of
`h_better->GetMaximumBin()` gets the content 1 and the error 0. -/
theorem binStep_clip (ext : Ext) (ax : Axis) (a : Acc) (out : Nat → BinRow) (i : Nat)
    (h : a.h_all i ≠ 0)
    (hdts : FVal.feq (dataTestStat ext (binP a i)) (.fin (10 ^ 10)) = false)
    (hc : ax.binCenter i ≤ ax.binCenter (getMaximumBin ax.nbins a.h_better)) :
    (binStep ext ax a out i i).hCLsFreq = .fin 1
    ∧ (binStep ext ax a out i i).hCLsFreqErr = .fin 0 := by
  unfold binStep
  dsimp only
  rw [feq_ofNat_zero]
  simp only [h, decide_False, Bool.false_eq_true, if_false, setRow, if_true]
  simp only [binP] at hdts
  rw [hdts]
  simp only [Bool.false_eq_true, if_false, hc, decide_True, if_true]
  split_ifs <;> exact ⟨rfl, rfl⟩

/-! ### The run `threePointRecords`: the bin with most better toys is not the best-fit bin -/

theorem findBin_three :
    (treeAxis 3 0 2).findBin (.fin 0) = 1
    ∧ (treeAxis 3 0 2).findBin (.fin 1) = 2
    ∧ (treeAxis 3 0 2).findBin (.fin 2) = 3 := by
  refine ⟨?_, ?_, ?_⟩
  · simp [treeAxis, Axis.findBin, FVal.lt]
    norm_num
  · simp [treeAxis, Axis.findBin, FVal.lt]
    norm_num
  · simp [treeAxis, Axis.findBin, FVal.lt]
    norm_num
    rfl

theorem threePoint_counts :
    (readScan1dTrees cfgDemo extDemo 3 0 2 threePointRecords).1.h_all 1 = 3
    ∧ (readScan1dTrees cfgDemo extDemo 3 0 2 threePointRecords).1.h_better 1 = 2
    ∧ (readScan1dTrees cfgDemo extDemo 3 0 2 threePointRecords).1.h_all 2 = 2
    ∧ (readScan1dTrees cfgDemo extDemo 3 0 2 threePointRecords).1.h_better 2 = 1
    ∧ (readScan1dTrees cfgDemo extDemo 3 0 2 threePointRecords).1.h_all 3 = 1
    ∧ (readScan1dTrees cfgDemo extDemo 3 0 2 threePointRecords).1.h_better 3 = 1 := by
  have g1 := recordLoop_spec cfgDemo (treeAxis 3 0 2) threePointRecords 1
  have g2 := recordLoop_spec cfgDemo (treeAxis 3 0 2) threePointRecords 2
  have g3 := recordLoop_spec cfgDemo (treeAxis 3 0 2) threePointRecords 3
  simp only [readScan1dTrees]
  rw [g1.2.1, g1.2.2.1, g2.2.1, g2.2.2.1, g3.2.1, g3.2.2.1]
  simp [threePointRecords, binCount, inBin, recWorse, recBkgBetterAtOne, recBkgWorseAtOne,
    recBkgBetter, recBkgWorse, recAtTwo, ToyRecord.zero, findBin_three.1, findBin_three.2.1,
    findBin_three.2.2, isBetter, valid, tooHighLikelihood, convergedFits, cfgDemo, FVal.feq,
    FVal.lt, FVal.abs, FVal.ge, FVal.le, FVal.sub, FVal.add, FVal.neg]

theorem threePoint_hCL :
    ((readScan1dTrees cfgDemo extDemo 3 0 2 threePointRecords).2 1).hCL = .fin (2 / 3)
    ∧ ((readScan1dTrees cfgDemo extDemo 3 0 2 threePointRecords).2 2).hCL = .fin (1 / 2)
    ∧ ((readScan1dTrees cfgDemo extDemo 3 0 2 threePointRecords).2 3).hCL = .fin 1 := by
  obtain ⟨c1, c2, c3, c4, c5, c6⟩ := threePoint_counts
  refine ⟨?_, ?_, ?_⟩
  · rw [hCL_content cfgDemo extDemo 3 0 2 _ 1 (by decide) (by decide) (by rw [c1]; decide),
      c1, c2]
    norm_num
  · rw [hCL_content cfgDemo extDemo 3 0 2 _ 2 (by decide) (by decide) (by rw [c3]; decide),
      c3, c4]
    norm_num
  · rw [hCL_content cfgDemo extDemo 3 0 2 _ 3 (by decide) (by decide) (by rw [c5]; decide),
      c5, c6]
    norm_num

/-- `GetMaximumBin` on three bins whose third content is the largest and whose second
is not above the first. -/
theorem getMaximumBinF_three (h : Nat → FVal) (x y z : ℚ) (h1 : h 1 = .fin x)
    (h2 : h 2 = .fin y) (h3 : h 3 = .fin z) (hx : 0 ≤ x) (hyx : y ≤ x) (hxz : x < z) :
    getMaximumBinF 3 h = 3 := by
  simp only [getMaximumBinF, List.range_succ, List.range_zero, List.nil_append,
    List.cons_append, List.foldl_cons, List.foldl_nil, Nat.zero_add, h1, h2, h3,
    gt_neg_fltMax x hx, if_true]
  simp [FVal.gt, FVal.lt, not_lt.mpr hyx, hxz]

/-- `GetMaximumBin` on three bins of counts whose first count is the largest. -/
theorem getMaximumBin_three (h : Nat → Nat) (h2 : h 2 ≤ h 1) (h3 : h 3 ≤ h 1) :
    getMaximumBin 3 h = 1 := by
  simp only [getMaximumBin, List.range_succ, List.range_zero, List.nil_append,
    List.cons_append, List.foldl_cons, List.foldl_nil, Nat.zero_add]
  simp [not_lt.mpr h2, not_lt.mpr h3]

theorem threePoint_maximumBins :
    getMaximumBinF 3
      (fun i => ((readScan1dTrees cfgDemo extDemo 3 0 2 threePointRecords).2 i).hCL) = 3
    ∧ getMaximumBin 3 (readScan1dTrees cfgDemo extDemo 3 0 2 threePointRecords).1.h_better
      = 1 := by
  obtain ⟨e1, e2, e3⟩ := threePoint_hCL
  obtain ⟨-, c2, -, c4, -, c6⟩ := threePoint_counts
  constructor
  · exact getMaximumBinF_three _ (2 / 3) (1 / 2) 1 e1 e2 e3 (by norm_num) (by norm_num)
      (by norm_num)
  · exact getMaximumBin_three _ (by rw [c2, c4]; decide) (by rw [c2, c6]; decide)

theorem threePoint_hCLsFreq :
    ((readScan1dTrees cfgDemo extDemo 3 0 2 threePointRecords).2 2).hCLsFreq
      = .fin (1 / 2) := by
  obtain ⟨-, -, c3, c4, -, -⟩ := threePoint_counts
  have hmax := threePoint_maximumBins.2
  simp only [readScan1dTrees] at c3 c4 hmax ⊢
  have hne : (recordLoop cfgDemo (treeAxis 3 0 2) threePointRecords).h_all 2 ≠ 0 := by
    rw [c3]; decide
  have hP : binP (recordLoop cfgDemo (treeAxis 3 0 2) threePointRecords) 2 = .fin (1 / 2) := by
    simp [binP, c3, c4, FVal.div, FVal.ofNat]
  have hB : (recordLoop cfgDemo (treeAxis 3 0 2) threePointRecords).sampledBValues 2
      = [.fin 5, .fin 5] := by
    rw [(recordLoop_spec cfgDemo (treeAxis 3 0 2) threePointRecords 2).2.2.2.2.2.2.2.1]
    simp [threePointRecords, inBin, recWorse, recBkgBetterAtOne, recBkgWorseAtOne,
      recBkgBetter, recBkgWorse, recAtTwo, ToyRecord.zero, findBin_three.1, findBin_three.2.1,
      findBin_three.2.2, bkgTestStatVal, FVal.le, FVal.sub, FVal.add, FVal.neg]
  have hD : dataCLb extDemo [.fin 5, .fin 5] (.fin (1 / 2)) = .fin 1 := by
    simp [dataCLb, dataTestStat, nDataAboveBkgExp, extDemo, FVal.gt, FVal.lt, FVal.ge, FVal.le,
      FVal.div, FVal.ofNat]
  have hT : dataTestStat extDemo (.fin (1 / 2)) = .fin 1 := by
    simp [dataTestStat, extDemo, FVal.gt, FVal.lt]
  have hcentre : ¬ ((treeAxis 3 0 2).binCenter 2 ≤ (treeAxis 3 0 2).binCenter 1) := by
    simp [treeAxis, Axis.binCenter]
    norm_num
  rw [binLoop_row _ _ _ _ (by decide) (by simp [treeAxis])]
  rw [(binStep_written extDemo _ _ _ 2 hne).2.2.1, hP, hB, hD, hT]
  have hnb : (treeAxis 3 0 2).nbins = 3 := rfl
  rw [hnb, hmax]
  simp only [hcentre, decide_False, Bool.false_eq_true, if_false]
  simp [FVal.div, FVal.ge, FVal.le, FVal.feq]
  norm_num

/-- C11 (counterexample), two inputs. On the records `[recWorse, recAtOne]` (scan points
0 and 1) bin 1 has one valid toy and lies below the best-fit bin 2, which is the
maximum bin of `hCL` and of `h_better` alike; `readScan1dTrees` writes 0 to
`hCLsFreq[1]`, not 1, because `p(1) = 0` is handled by the branch before the one-sided
clip. On the records `threePointRecords` (scan points 0, 1, 2) the counts of better
toys are 2, 1, 1 and `hCL` is 2/3, 1/2, 1: the best-fit bin (maximum of `hCL`) is bin
3, but `h_better->GetMaximumBin()` is bin 1; bin 2 has valid toys, `p(2) = 1/2 > 0` with
a data test statistic that is not the sentinel, and lies below the best-fit bin, and
`readScan1dTrees` writes `p / dataCLb = 1/2` to `hCLsFreq[2]`, not 1. -/
theorem C11_counterexample :
    (0 < (readScan1dTrees cfgDemo extDemo 2 0 1 [recWorse, recAtOne]).1.h_all 1
    ∧ getMaximumBinF 2
        (fun i => ((readScan1dTrees cfgDemo extDemo 2 0 1 [recWorse, recAtOne]).2 i).hCL) = 2
    ∧ getMaximumBin 2 (readScan1dTrees cfgDemo extDemo 2 0 1 [recWorse, recAtOne]).1.h_better
        = 2
    ∧ (treeAxis 2 0 1).binCenter 1 ≤ (treeAxis 2 0 1).binCenter 2
    ∧ ((readScan1dTrees cfgDemo extDemo 2 0 1 [recWorse, recAtOne]).2 1).hCLsFreq = .fin 0
    ∧ ((readScan1dTrees cfgDemo extDemo 2 0 1 [recWorse, recAtOne]).2 1).hCLsFreq ≠ .fin 1)
    ∧ (0 < (readScan1dTrees cfgDemo extDemo 3 0 2 threePointRecords).1.h_all 2
    ∧ ((readScan1dTrees cfgDemo extDemo 3 0 2 threePointRecords).2 2).hCL = .fin (1 / 2)
    ∧ FVal.feq
        (dataTestStat extDemo
          ((readScan1dTrees cfgDemo extDemo 3 0 2 threePointRecords).2 2).hCL)
        (.fin (10 ^ 10)) = false
    ∧ getMaximumBinF 3
        (fun i => ((readScan1dTrees cfgDemo extDemo 3 0 2 threePointRecords).2 i).hCL) = 3
    ∧ getMaximumBin 3 (readScan1dTrees cfgDemo extDemo 3 0 2 threePointRecords).1.h_better
        = 1
    ∧ (treeAxis 3 0 2).binCenter 2 ≤ (treeAxis 3 0 2).binCenter 3
    ∧ ((readScan1dTrees cfgDemo extDemo 3 0 2 threePointRecords).2 2).hCLsFreq = .fin (1 / 2)
    ∧ ((readScan1dTrees cfgDemo extDemo 3 0 2 threePointRecords).2 2).hCLsFreq ≠ .fin 1) := by
  refine ⟨?_, ?_⟩
  swap
  · refine ⟨by rw [threePoint_counts.2.2.1]; decide, threePoint_hCL.2.1, ?_,
      threePoint_maximumBins.1, threePoint_maximumBins.2, ?_, threePoint_hCLsFreq, ?_⟩
    · rw [threePoint_hCL.2.1]
      simp [dataTestStat, extDemo, FVal.gt, FVal.lt, FVal.feq]
      norm_num
    · simp [treeAxis, Axis.binCenter]
      norm_num
    · rw [threePoint_hCLsFreq]
      simp
  obtain ⟨c1, c2, c3, c4⟩ := clipRun_counts
  have hall : 0 < (readScan1dTrees cfgDemo extDemo 2 0 1 [recWorse, recAtOne]).1.h_all 1 := by
    rw [c1]; decide
  have hfreq :
      ((readScan1dTrees cfgDemo extDemo 2 0 1 [recWorse, recAtOne]).2 1).hCLsFreq = .fin 0 := by
    have hne : (recordLoop cfgDemo (treeAxis 2 0 1) [recWorse, recAtOne]).h_all 1 ≠ 0 := by
      simp only [readScan1dTrees] at c1
      rw [c1]; decide
    have hP : binP (recordLoop cfgDemo (treeAxis 2 0 1) [recWorse, recAtOne]) 1 = .fin 0 := by
      simp only [readScan1dTrees] at c1 c2
      simp [binP, c1, c2, FVal.div, FVal.ofNat]
    obtain ⟨-, -, -, w4⟩ := binStep_written_more extDemo (treeAxis 2 0 1)
      (recordLoop cfgDemo (treeAxis 2 0 1) [recWorse, recAtOne])
      (fun j => BinRow.init
        ((recordLoop cfgDemo (treeAxis 2 0 1) [recWorse, recAtOne]).h_background j)) 1 hne
    obtain ⟨dq, hd, -⟩ := dataCLb_fin extDemo
      ((recordLoop cfgDemo (treeAxis 2 0 1) [recWorse, recAtOne]).sampledBValues 1)
      (binP (recordLoop cfgDemo (treeAxis 2 0 1) [recWorse, recAtOne]) 1)
      (sampledB_length_pos cfgDemo _ _ 1 (by simpa [readScan1dTrees] using hall))
    simp only [readScan1dTrees]
    rw [binLoop_row _ _ _ _ (by decide) (by simp [treeAxis])]
    refine (w4 ?_ ?_).1.trans hP
    · rw [hd, hP]
      by_cases hdz : dq = 0
      · simp [FVal.div, FVal.infTimes, FVal.ge, FVal.le, hdz]
      · simp [FVal.div, FVal.ge, FVal.le, hdz]
    · rw [hP]
      simp [dataTestStat, FVal.gt, FVal.lt, FVal.feq]
  refine ⟨hall, clipRun_maximumBin, ?_, ?_, hfreq, ?_⟩
  · rw [getMaximumBin_two, c2, c4]
    decide
  · simp [treeAxis, Axis.binCenter]
    norm_num
  · rw [hfreq]
    simp

/-- C11 (amended): for every bin `i` of the histogram with `n_all[i] > 0` whose data
test statistic is not the sentinel `1e10` (so `p(i) > 0`) and whose centre is at or
below the centre of the best-fit bin, `readScan1dTrees` sets `hCLsFreq[i]` to 1 with
error 0, provided the best-fit bin (the maximum bin of `hCL`) is the bin
`h_better->GetMaximumBin()` the code compares with. Both restrictions are needed: the
two inputs of the counterexample violate one each. -/
theorem C11_clip_below_best_fit (cfg : ScanConfig) (ext : Ext) (scanpointN : Nat)
    (scanpointMin scanpointMax : ℚ) (ts : List ToyRecord) (i : Nat)
    (h1 : 1 ≤ i) (h2 : i ≤ scanpointN)
    (hall : 0 < (readScan1dTrees cfg ext scanpointN scanpointMin scanpointMax ts).1.h_all i)
    (hdts : FVal.feq
      (dataTestStat ext
        ((readScan1dTrees cfg ext scanpointN scanpointMin scanpointMax ts).2 i).hCL)
      (.fin (10 ^ 10)) = false)
    (hbest : getMaximumBinF scanpointN
        (fun j => ((readScan1dTrees cfg ext scanpointN scanpointMin scanpointMax ts).2 j).hCL)
      = getMaximumBin scanpointN
          (readScan1dTrees cfg ext scanpointN scanpointMin scanpointMax ts).1.h_better)
    (hcentre : (treeAxis scanpointN scanpointMin scanpointMax).binCenter i
      ≤ (treeAxis scanpointN scanpointMin scanpointMax).binCenter
          (getMaximumBinF scanpointN
            (fun j =>
              ((readScan1dTrees cfg ext scanpointN scanpointMin scanpointMax ts).2 j).hCL))) :
    ((readScan1dTrees cfg ext scanpointN scanpointMin scanpointMax ts).2 i).hCLsFreq = .fin 1
    ∧ ((readScan1dTrees cfg ext scanpointN scanpointMin scanpointMax ts).2 i).hCLsFreqErr
        = .fin 0 := by
  rw [hbest] at hcentre
  simp only [readScan1dTrees] at hall hdts hcentre ⊢
  have hne : (recordLoop cfg (treeAxis scanpointN scanpointMin scanpointMax) ts).h_all i ≠ 0 :=
    Nat.pos_iff_ne_zero.mp hall
  rw [binLoop_row _ _ _ _ h1 (by simpa [treeAxis] using h2)] at hdts ⊢
  rw [(binStep_written ext _ _ _ i hne).1] at hdts
  exact binStep_clip ext _ _ _ i hne hdts (by simpa [treeAxis] using hcentre)

/-! ### The run `[recBkgBetter, recBkgWorse, recAtOne, recAtOne]`: `p = 1/2` in bin 1 -/

theorem halfRun_counts :
    (readScan1dTrees cfgDemo extDemo 2 0 1
        [recBkgBetter, recBkgWorse, recAtOne, recAtOne]).1.h_all 1 = 2
    ∧ (readScan1dTrees cfgDemo extDemo 2 0 1
        [recBkgBetter, recBkgWorse, recAtOne, recAtOne]).1.h_better 1 = 1
    ∧ (readScan1dTrees cfgDemo extDemo 2 0 1
        [recBkgBetter, recBkgWorse, recAtOne, recAtOne]).1.h_all 2 = 2
    ∧ (readScan1dTrees cfgDemo extDemo 2 0 1
        [recBkgBetter, recBkgWorse, recAtOne, recAtOne]).1.h_better 2 = 2 := by
  have g1 := recordLoop_spec cfgDemo (treeAxis 2 0 1)
    [recBkgBetter, recBkgWorse, recAtOne, recAtOne] 1
  have g2 := recordLoop_spec cfgDemo (treeAxis 2 0 1)
    [recBkgBetter, recBkgWorse, recAtOne, recAtOne] 2
  simp only [readScan1dTrees]
  rw [g1.2.1, g1.2.2.1, g2.2.1, g2.2.2.1]
  simp [binCount, inBin, recBkgBetter, recBkgWorse, recAtOne, ToyRecord.zero, findBin_two_zero,
    findBin_two_one, isBetter, valid, tooHighLikelihood, convergedFits, cfgDemo, FVal.feq,
    FVal.lt, FVal.abs, FVal.ge, FVal.le, FVal.sub, FVal.add, FVal.neg]

theorem halfRun_hCL :
    ((readScan1dTrees cfgDemo extDemo 2 0 1
        [recBkgBetter, recBkgWorse, recAtOne, recAtOne]).2 1).hCL = .fin (1 / 2)
    ∧ ((readScan1dTrees cfgDemo extDemo 2 0 1
        [recBkgBetter, recBkgWorse, recAtOne, recAtOne]).2 2).hCL = .fin 1 := by
  obtain ⟨c1, c2, c3, c4⟩ := halfRun_counts
  constructor
  · rw [hCL_content cfgDemo extDemo 2 0 1 _ 1 (by decide) (by decide) (by rw [c1]; decide),
      c1, c2]
    norm_num
  · rw [hCL_content cfgDemo extDemo 2 0 1 _ 2 (by decide) (by decide) (by rw [c3]; decide),
      c3, c4]
    norm_num

theorem halfRun_maximumBin :
    getMaximumBinF 2
      (fun i => ((readScan1dTrees cfgDemo extDemo 2 0 1
        [recBkgBetter, recBkgWorse, recAtOne, recAtOne]).2 i).hCL) = 2 := by
  obtain ⟨e1, e2⟩ := halfRun_hCL
  rw [getMaximumBinF_two _ (1 / 2) 1 e1 e2 (by norm_num)]
  norm_num

/-- Witness of C11 (amended): bin 1 holds two valid toys, one of them better
(`p = 1/2`), bin 2 two valid toys, both better (`p = 1`). -/
theorem C11_clip_below_best_fit_witness :
    ((readScan1dTrees cfgDemo extDemo 2 0 1
        [recBkgBetter, recBkgWorse, recAtOne, recAtOne]).2 1).hCLsFreq = .fin 1
    ∧ ((readScan1dTrees cfgDemo extDemo 2 0 1
        [recBkgBetter, recBkgWorse, recAtOne, recAtOne]).2 1).hCLsFreqErr = .fin 0 :=
  C11_clip_below_best_fit cfgDemo extDemo 2 0 1
    [recBkgBetter, recBkgWorse, recAtOne, recAtOne] 1 (by decide) (by decide)
    (by rw [halfRun_counts.1]; decide)
    (by
      rw [halfRun_hCL.1]
      simp [dataTestStat, extDemo, FVal.gt, FVal.lt, FVal.feq]
      norm_num)
    (by
      rw [halfRun_maximumBin, getMaximumBin_two, halfRun_counts.2.1, halfRun_counts.2.2.2]
      decide)
    (by
      rw [halfRun_maximumBin]
      simp [treeAxis, Axis.binCenter]
      norm_num)

/-! ## Order of the records -/

/-- The count of a bin does not depend on the order of the records. -/
theorem binCount_perm (c : ToyRecord → Bool) (ax : Axis) (ts1 ts2 : List ToyRecord)
    (h : ts1.Perm ts2) (i : Nat) : binCount c ax ts1 i = binCount c ax ts2 i := by
  unfold binCount inBin
  exact ((h.filter _).filter _).length_eq

/-- The content and error of `hCL` and `hCLs` of a bin depend on the counts `n_all`,
`n_better`, `n_better_cls` of the bin only. -/
theorem binLoop_counts_only (ext : Ext) (ax : Axis) (a b : Acc) (i : Nat)
    (hall : a.h_all i = b.h_all i) (hbetter : a.h_better i = b.h_better i)
    (hcls : a.h_better_cls i = b.h_better_cls i) :
    (binLoop ext ax a i).hCL = (binLoop ext ax b i).hCL
    ∧ (binLoop ext ax a i).hCLErr = (binLoop ext ax b i).hCLErr
    ∧ (binLoop ext ax a i).hCLs = (binLoop ext ax b i).hCLs
    ∧ (binLoop ext ax a i).hCLsErr = (binLoop ext ax b i).hCLsErr := by
  unfold binLoop
  rw [foldl_binStep, foldl_binStep]
  by_cases hr : 1 ≤ i ∧ i ≤ ax.nbins
  · rw [if_pos hr, if_pos hr]
    by_cases hz : a.h_all i = 0
    · rw [binStep_skip _ _ _ _ _ hz, binStep_skip _ _ _ _ _ (hall ▸ hz)]
      exact ⟨rfl, rfl, rfl, rfl⟩
    · have hz2 : b.h_all i ≠ 0 := hall ▸ hz
      obtain ⟨u1, u2, -, -⟩ := binStep_written ext ax a
        (fun j => BinRow.init (a.h_background j)) i hz
      obtain ⟨u3, u4, -, -⟩ := binStep_written_more ext ax a
        (fun j => BinRow.init (a.h_background j)) i hz
      obtain ⟨v1, v2, -, -⟩ := binStep_written ext ax b
        (fun j => BinRow.init (b.h_background j)) i hz2
      obtain ⟨v3, v4, -, -⟩ := binStep_written_more ext ax b
        (fun j => BinRow.init (b.h_background j)) i hz2
      rw [u1, u2, u3, u4, v1, v2, v3, v4]
      simp [binP, hall, hbetter, hcls]
  · rw [if_neg hr, if_neg hr]
    exact ⟨rfl, rfl, rfl, rfl⟩

/-- C19: for every sequence of records and every permutation of it, read on the same
axis, `readScan1dTrees` produces in every bin the same counts `n_total` (`h_tot`),
`n_failed`, `n_all`, `n_better`, `n_better_cls`, and the same content and error of
`hCL` and `hCLs`. -/
theorem C19_order_insensitive (cfg : ScanConfig) (ext : Ext) (scanpointN : Nat)
    (scanpointMin scanpointMax : ℚ) (ts1 ts2 : List ToyRecord) (hperm : ts1.Perm ts2)
    (i : Nat) :
    (readScan1dTrees cfg ext scanpointN scanpointMin scanpointMax ts1).1.h_tot i
        = (readScan1dTrees cfg ext scanpointN scanpointMin scanpointMax ts2).1.h_tot i
    ∧ (readScan1dTrees cfg ext scanpointN scanpointMin scanpointMax ts1).1.h_failed i
        = (readScan1dTrees cfg ext scanpointN scanpointMin scanpointMax ts2).1.h_failed i
    ∧ (readScan1dTrees cfg ext scanpointN scanpointMin scanpointMax ts1).1.h_all i
        = (readScan1dTrees cfg ext scanpointN scanpointMin scanpointMax ts2).1.h_all i
    ∧ (readScan1dTrees cfg ext scanpointN scanpointMin scanpointMax ts1).1.h_better i
        = (readScan1dTrees cfg ext scanpointN scanpointMin scanpointMax ts2).1.h_better i
    ∧ (readScan1dTrees cfg ext scanpointN scanpointMin scanpointMax ts1).1.h_better_cls i
        = (readScan1dTrees cfg ext scanpointN scanpointMin scanpointMax ts2).1.h_better_cls i
    ∧ ((readScan1dTrees cfg ext scanpointN scanpointMin scanpointMax ts1).2 i).hCL
        = ((readScan1dTrees cfg ext scanpointN scanpointMin scanpointMax ts2).2 i).hCL
    ∧ ((readScan1dTrees cfg ext scanpointN scanpointMin scanpointMax ts1).2 i).hCLErr
        = ((readScan1dTrees cfg ext scanpointN scanpointMin scanpointMax ts2).2 i).hCLErr
    ∧ ((readScan1dTrees cfg ext scanpointN scanpointMin scanpointMax ts1).2 i).hCLs
        = ((readScan1dTrees cfg ext scanpointN scanpointMin scanpointMax ts2).2 i).hCLs
    ∧ ((readScan1dTrees cfg ext scanpointN scanpointMin scanpointMax ts1).2 i).hCLsErr
        = ((readScan1dTrees cfg ext scanpointN scanpointMin scanpointMax ts2).2 i).hCLsErr := by
  obtain ⟨a1, a2, a3, a4, a5, -⟩ :=
    recordLoop_spec cfg (treeAxis scanpointN scanpointMin scanpointMax) ts1 i
  obtain ⟨b1, b2, b3, b4, b5, -⟩ :=
    recordLoop_spec cfg (treeAxis scanpointN scanpointMin scanpointMax) ts2 i
  have e1 := binCount_perm (fun _ => true) (treeAxis scanpointN scanpointMin scanpointMax)
    ts1 ts2 hperm i
  have e2 := binCount_perm valid (treeAxis scanpointN scanpointMin scanpointMax)
    ts1 ts2 hperm i
  have e3 := binCount_perm (isBetter cfg) (treeAxis scanpointN scanpointMin scanpointMax)
    ts1 ts2 hperm i
  have e4 := binCount_perm (isBetterCls cfg) (treeAxis scanpointN scanpointMin scanpointMax)
    ts1 ts2 hperm i
  have e5 := binCount_perm (fun t => tooHighLikelihood t || !(convergedFits t))
    (treeAxis scanpointN scanpointMin scanpointMax) ts1 ts2 hperm i
  simp only [readScan1dTrees]
  have hall := a2.trans (e2.trans b2.symm)
  have hbetter := a3.trans (e3.trans b3.symm)
  have hcls := a4.trans (e4.trans b4.symm)
  exact ⟨a1.trans (e1.trans b1.symm), a5.trans (e5.trans b5.symm), hall, hbetter, hcls,
    binLoop_counts_only ext _ _ _ i hall hbetter hcls⟩

/-- Witness of C19: the records `[recWorse, recAtOne]` and their swap, bin 1. -/
theorem C19_order_insensitive_witness :
    [recWorse, recAtOne].Perm [recAtOne, recWorse]
    ∧ ((readScan1dTrees cfgDemo extDemo 2 0 1 [recWorse, recAtOne]).2 1).hCL
        = ((readScan1dTrees cfgDemo extDemo 2 0 1 [recAtOne, recWorse]).2 1).hCL :=
  ⟨List.Perm.swap _ _ _,
    (C19_order_insensitive cfgDemo extDemo 2 0 1 [recWorse, recAtOne] [recAtOne, recWorse]
      (List.Perm.swap _ _ _) 1).2.2.2.2.2.1⟩

/-! ## The expected CLs at the median -/

/-- The content of `hCLsExp` for a bin with valid toys, read off the result of
`readScan1dTrees`. -/
theorem hCLsExp_content (cfg : ScanConfig) (ext : Ext) (scanpointN : Nat)
    (scanpointMin scanpointMax : ℚ) (ts : List ToyRecord) (i : Nat)
    (h1 : 1 ≤ i) (h2 : i ≤ scanpointN)
    (hall : 0 < (readScan1dTrees cfg ext scanpointN scanpointMin scanpointMax ts).1.h_all i) :
    ((readScan1dTrees cfg ext scanpointN scanpointMin scanpointMax ts).2 i).hCLsExp
      = tmathMin
          (FVal.div
            (ext.getVectorFracAboveValue
              ((readScan1dTrees cfg ext scanpointN scanpointMin scanpointMax ts).1.sampledSBValues
                i)
              (ext.quantile
                ((readScan1dTrees cfg ext scanpointN scanpointMin scanpointMax
                  ts).1.sampledBValues i)
                (.fin (1 / 2))))
            (.fin (1 / 2)))
          (.fin 1) := by
  simp only [readScan1dTrees] at hall ⊢
  have hne : (recordLoop cfg (treeAxis scanpointN scanpointMin scanpointMax) ts).h_all i ≠ 0 :=
    Nat.pos_iff_ne_zero.mp hall
  rw [binLoop_row _ _ _ _ h1 (by simpa [treeAxis] using h2)]
  exact (binStep_written_more ext _ _ _ i hne).2.2.1

/-- The ratio `f / 0.5` capped at 1. -/
theorem tmathMin_half (f : ℚ) :
    tmathMin (FVal.div (.fin f) (.fin (1 / 2))) (.fin 1) = .fin (min (2 * f) 1) := by
  have h2 : f / (1 / 2) = 2 * f := by ring
  have hne : ((1 : ℚ) / 2) ≠ 0 := by norm_num
  simp only [tmathMin, FVal.div, if_neg hne, FVal.le, h2]
  by_cases hle : 2 * f ≤ 1
  · simp [hle]
  · simp [hle, le_of_lt (not_le.mp hle)]

/-- The samples of bin 1 for the records `[ToyRecord.zero, recTwo, recAtOne]`. -/
theorem medianRun_samples :
    0 < (readScan1dTrees cfgDemo extHalf 2 0 1
        [ToyRecord.zero, recTwo, recAtOne]).1.h_all 1
    ∧ (readScan1dTrees cfgDemo extHalf 2 0 1
        [ToyRecord.zero, recTwo, recAtOne]).1.sampledBValues 1 = [.fin 0, .fin 2]
    ∧ (readScan1dTrees cfgDemo extHalf 2 0 1
        [ToyRecord.zero, recTwo, recAtOne]).1.sampledSBValues 1 = [.fin 0, .fin 2] := by
  have g := recordLoop_spec cfgDemo (treeAxis 2 0 1) [ToyRecord.zero, recTwo, recAtOne] 1
  simp only [readScan1dTrees]
  rw [g.2.1, g.2.2.2.2.2.2.2.1, g.2.2.2.2.2.2.2.2]
  refine ⟨?_, ?_, ?_⟩
  · simp [binCount, inBin, recTwo, recAtOne, ToyRecord.zero, findBin_two_zero,
      findBin_two_one, valid, tooHighLikelihood, convergedFits, FVal.feq, FVal.lt, FVal.abs]
  · simp [inBin, recTwo, recAtOne, ToyRecord.zero, findBin_two_zero, findBin_two_one,
      bkgTestStatVal, FVal.le, FVal.sub, FVal.add, FVal.neg]
  · simp [inBin, recTwo, recAtOne, ToyRecord.zero, findBin_two_zero, findBin_two_one,
      sbTestStatVal, FVal.le, FVal.sub, FVal.add, FVal.neg]

/-- The fraction of the signal+background samples `[0, 2]` above the median 1. -/
theorem medianRun_fraction :
    extHalf.getVectorFracAboveValue
      ((readScan1dTrees cfgDemo extHalf 2 0 1
        [ToyRecord.zero, recTwo, recAtOne]).1.sampledSBValues 1)
      (extHalf.quantile
        ((readScan1dTrees cfgDemo extHalf 2 0 1
          [ToyRecord.zero, recTwo, recAtOne]).1.sampledBValues 1)
        (.fin (1 / 2))) = .fin (1 / 2) := by
  rw [medianRun_samples.2.1, medianRun_samples.2.2]
  simp [extHalf, FVal.gt, FVal.lt, FVal.div, FVal.ofNat]

/-- C18 (counterexample): on the records `[ToyRecord.zero, recTwo, recAtOne]` the
background-only and the signal+background samples of bin 1 are both `[0, 2]`, the
fraction of signal+background samples above the background-only median 1 is exactly
1/2, and `readScan1dTrees` writes 1 to `hCLsExp[1]`, not 1/2. -/
theorem C18_counterexample :
    (readScan1dTrees cfgDemo extHalf 2 0 1
        [ToyRecord.zero, recTwo, recAtOne]).1.sampledBValues 1
      = (readScan1dTrees cfgDemo extHalf 2 0 1
        [ToyRecord.zero, recTwo, recAtOne]).1.sampledSBValues 1
    ∧ extHalf.getVectorFracAboveValue
        ((readScan1dTrees cfgDemo extHalf 2 0 1
          [ToyRecord.zero, recTwo, recAtOne]).1.sampledSBValues 1)
        (extHalf.quantile
          ((readScan1dTrees cfgDemo extHalf 2 0 1
            [ToyRecord.zero, recTwo, recAtOne]).1.sampledBValues 1)
          (.fin (1 / 2))) = .fin (1 / 2)
    ∧ ((readScan1dTrees cfgDemo extHalf 2 0 1
        [ToyRecord.zero, recTwo, recAtOne]).2 1).hCLsExp = .fin 1
    ∧ ((readScan1dTrees cfgDemo extHalf 2 0 1
        [ToyRecord.zero, recTwo, recAtOne]).2 1).hCLsExp ≠ .fin (1 / 2) := by
  have hexp : ((readScan1dTrees cfgDemo extHalf 2 0 1
      [ToyRecord.zero, recTwo, recAtOne]).2 1).hCLsExp = .fin 1 := by
    rw [hCLsExp_content cfgDemo extHalf 2 0 1 _ 1 (by decide) (by decide) medianRun_samples.1,
      medianRun_fraction, tmathMin_half]
    norm_num
  refine ⟨?_, medianRun_fraction, hexp, ?_⟩
  · rw [medianRun_samples.2.1, medianRun_samples.2.2]
  · rw [hexp]
    simp

/-- C18 (amended): for every bin `i` of the histogram with `n_all[i] > 0`, when the
fraction of the signal+background samples of the bin above the background-only median
is the number `f`, `readScan1dTrees` writes `min(f / 0.5, 1) = min(2 f, 1)` to
`hCLsExp[i]`; for `f` exactly 1/2 the value is exactly 1. -/
theorem C18_median_cls (cfg : ScanConfig) (ext : Ext) (scanpointN : Nat)
    (scanpointMin scanpointMax : ℚ) (ts : List ToyRecord) (i : Nat) (f : ℚ)
    (h1 : 1 ≤ i) (h2 : i ≤ scanpointN)
    (hall : 0 < (readScan1dTrees cfg ext scanpointN scanpointMin scanpointMax ts).1.h_all i)
    (hfrac : ext.getVectorFracAboveValue
        ((readScan1dTrees cfg ext scanpointN scanpointMin scanpointMax ts).1.sampledSBValues i)
        (ext.quantile
          ((readScan1dTrees cfg ext scanpointN scanpointMin scanpointMax ts).1.sampledBValues i)
          (.fin (1 / 2))) = .fin f) :
    ((readScan1dTrees cfg ext scanpointN scanpointMin scanpointMax ts).2 i).hCLsExp
        = .fin (min (2 * f) 1)
    ∧ (f = 1 / 2 →
        ((readScan1dTrees cfg ext scanpointN scanpointMin scanpointMax ts).2 i).hCLsExp
          = .fin 1) := by
  have h := hCLsExp_content cfg ext scanpointN scanpointMin scanpointMax ts i h1 h2 hall
  rw [hfrac, tmathMin_half] at h
  refine ⟨h, ?_⟩
  intro hf
  rw [h, hf]
  norm_num

/-- Witness of C18 (amended): bin 1 of the records `[ToyRecord.zero, recTwo, recAtOne]`
with `f = 1/2`. -/
theorem C18_median_cls_witness :
    ((readScan1dTrees cfgDemo extHalf 2 0 1
        [ToyRecord.zero, recTwo, recAtOne]).2 1).hCLsExp = .fin (min (2 * (1 / 2)) 1) :=
  (C18_median_cls cfgDemo extHalf 2 0 1 [ToyRecord.zero, recTwo, recAtOne] 1 (1 / 2)
    (by decide) (by decide) medianRun_samples.1 medianRun_fraction).1

/-! ## Goodness of fit at the best-fit bin -/

theorem gofRun_counts :
    (readScan1dTrees cfgDemo extDemo 2 0 1
        [ToyRecord.zero, recGof, recGof, recAtOne]).1.h_all 1 = 1
    ∧ (readScan1dTrees cfgDemo extDemo 2 0 1
        [ToyRecord.zero, recGof, recGof, recAtOne]).1.h_better 1 = 1
    ∧ (readScan1dTrees cfgDemo extDemo 2 0 1
        [ToyRecord.zero, recGof, recGof, recAtOne]).1.h_all 2 = 1
    ∧ (readScan1dTrees cfgDemo extDemo 2 0 1
        [ToyRecord.zero, recGof, recGof, recAtOne]).1.h_better 2 = 1
    ∧ (readScan1dTrees cfgDemo extDemo 2 0 1
        [ToyRecord.zero, recGof, recGof, recAtOne]).1.h_gof 1 = 2 := by
  have g1 := recordLoop_spec cfgDemo (treeAxis 2 0 1)
    [ToyRecord.zero, recGof, recGof, recAtOne] 1
  have g2 := recordLoop_spec cfgDemo (treeAxis 2 0 1)
    [ToyRecord.zero, recGof, recGof, recAtOne] 2
  simp only [readScan1dTrees]
  rw [g1.2.1, g1.2.2.1, g2.2.1, g2.2.2.1, g1.2.2.2.2.2.1]
  simp [binCount, inBin, recGof, recAtOne, ToyRecord.zero, findBin_two_zero,
    findBin_two_one, isBetter, isGof, inPhysicalRegion, valid, tooHighLikelihood,
    convergedFits, cfgDemo, FVal.feq, FVal.lt, FVal.gt, FVal.abs, FVal.ge, FVal.le, FVal.sub,
    FVal.add, FVal.neg]

theorem gofRun_hCL :
    ((readScan1dTrees cfgDemo extDemo 2 0 1
        [ToyRecord.zero, recGof, recGof, recAtOne]).2 1).hCL = .fin 1
    ∧ ((readScan1dTrees cfgDemo extDemo 2 0 1
        [ToyRecord.zero, recGof, recGof, recAtOne]).2 2).hCL = .fin 1 := by
  obtain ⟨c1, c2, c3, c4, -⟩ := gofRun_counts
  constructor
  · rw [hCL_content cfgDemo extDemo 2 0 1 _ 1 (by decide) (by decide) (by rw [c1]; decide),
      c1, c2]
    norm_num
  · rw [hCL_content cfgDemo extDemo 2 0 1 _ 2 (by decide) (by decide) (by rw [c3]; decide),
      c3, c4]
    norm_num

/-- C17 (the code on the records `[ToyRecord.zero, recGof, recGof, recAtOne]`): the
best-fit bin is bin 1, which holds three toys in the physical region, one of them
valid; two of the three (the two not valid ones) have a global minimum above the
observed one. The value computed is `h_gof / h_all = 2 / 1 = 2`: the numerator counts
toys the denominator does not count, and the value is above 1. -/
theorem C17_gof_above_one :
    getMaximumBinF 2
      (fun i => ((readScan1dTrees cfgDemo extDemo 2 0 1
        [ToyRecord.zero, recGof, recGof, recAtOne]).2 i).hCL) = 1
    ∧ binCount inPhysicalRegion (treeAxis 2 0 1)
        [ToyRecord.zero, recGof, recGof, recAtOne] 1 = 3
    ∧ (readScan1dTrees cfgDemo extDemo 2 0 1
        [ToyRecord.zero, recGof, recGof, recAtOne]).1.h_gof 1 = 2
    ∧ (readScan1dTrees cfgDemo extDemo 2 0 1
        [ToyRecord.zero, recGof, recGof, recAtOne]).1.h_all 1 = 1
    ∧ readScan1dTreesGof cfgDemo extDemo 2 0 1
        [ToyRecord.zero, recGof, recGof, recAtOne] = .fin 2
    ∧ FVal.le
        (readScan1dTreesGof cfgDemo extDemo 2 0 1 [ToyRecord.zero, recGof, recGof, recAtOne])
        (.fin 1) = false := by
  obtain ⟨c1, -, -, -, c5⟩ := gofRun_counts
  obtain ⟨e1, e2⟩ := gofRun_hCL
  have hmax : getMaximumBinF 2
      (fun i => ((readScan1dTrees cfgDemo extDemo 2 0 1
        [ToyRecord.zero, recGof, recGof, recAtOne]).2 i).hCL) = 1 := by
    rw [getMaximumBinF_two _ 1 1 e1 e2 (by norm_num)]
    norm_num
  have hgof : readScan1dTreesGof cfgDemo extDemo 2 0 1
      [ToyRecord.zero, recGof, recGof, recAtOne] = .fin 2 := by
    unfold readScan1dTreesGof fitprobabilityVal
    simp only [treeAxis]
    rw [hmax, c5, c1]
    simp [FVal.div, FVal.ofNat]
  refine ⟨hmax, ?_, c5, c1, hgof, ?_⟩
  · simp [binCount, inBin, recGof, recAtOne, ToyRecord.zero, findBin_two_zero,
      findBin_two_one, inPhysicalRegion, FVal.ge, FVal.le, FVal.sub, FVal.add, FVal.neg]
  · rw [hgof]
    simp [FVal.le]

/-! ## Claims on `checkExtProfileLH` and `performBootstrapTest` -/

/-- C15 (the code on a grid of two points over `[0, 1]`): a prob-scan tree whose first
scan point is -1, or whose last scan point is 1/2, passes the check although the point
differs from the grid limit by far more than 1e-5; a first scan point above the grid
minimum by the same amount exits. The differences are compared with the tolerance
without taking the absolute value. -/
theorem C15_low_points_accepted :
    checkExtProfileLH 2 (.fin 0) (.fin 1) [.fin (-1), .fin 1] (.fin 0) = .ok ()
    ∧ checkExtProfileLH 2 (.fin 0) (.fin 1) [.fin 0, .fin (1 / 2)] (.fin 0) = .ok ()
    ∧ checkExtProfileLH 2 (.fin 0) (.fin 1) [.fin 1, .fin 1] (.fin 0) = .error (.exit 1) := by
  refine ⟨?_, ?_, ?_⟩
  · simp [checkExtProfileLH, stdMax, FVal.gt, FVal.lt, FVal.div, FVal.sub, FVal.add, FVal.neg]
    norm_num
  · simp [checkExtProfileLH, stdMax, FVal.gt, FVal.lt, FVal.div, FVal.sub, FVal.add, FVal.neg]
    norm_num
  · simp [checkExtProfileLH, stdMax, FVal.gt, FVal.lt, FVal.div, FVal.sub, FVal.add, FVal.neg]
    norm_num

/-- A value accepted by the rejection loop is a value of the generator that is not in
`failed`. -/
theorem drawIndex_accepts (failed : List Nat) (rndm : Nat → Nat) (fuel k r k1 : Nat)
    (h : drawIndex failed rndm fuel k = some (r, k1)) :
    r ∉ failed ∧ ∃ n, r = rndm n := by
  induction fuel generalizing k with
  | zero => simp [drawIndex] at h
  | succ fuel ih =>
    unfold drawIndex at h
    by_cases hm : rndm k ∈ failed
    · rw [if_pos hm] at h
      exact ih (k + 1) h
    · rw [if_neg hm] at h
      simp only [Option.some.injEq, Prod.mk.injEq] at h
      exact ⟨h.1 ▸ hm, k, h.1.symm⟩

/-- C16 (the code on the tree `[recFail, recStat 1, recStat 2]`): entry 0 failed and
entries 1 and 2 are valid, so `failed = [0]`, `q = [1, 2]` and `numberOfToys = 2`. The
rejection loop compares the drawn position in `q` with the tree entry numbers in
`failed`: position 0, which holds the statistic 1 of the valid entry 1, is rejected,
and every accepted draw in `[0, 2)` selects the statistic 2. -/
theorem C16_valid_toy_never_drawn :
    (bootstrapLoop [recFail, recStat 1, recStat 2]).failed = [0]
    ∧ (bootstrapLoop [recFail, recStat 1, recStat 2]).q = [.fin 1, .fin 2]
    ∧ numberOfToys [recFail, recStat 1, recStat 2] = 2
    ∧ ∀ (rndm : Nat → Nat) (fuel k r k1 : Nat),
        (∀ n, rndm n < numberOfToys [recFail, recStat 1, recStat 2]) →
        drawIndex (bootstrapLoop [recFail, recStat 1, recStat 2]).failed rndm fuel k
          = some (r, k1) →
        r ≠ 0 ∧ (bootstrapLoop [recFail, recStat 1, recStat 2]).q[r]? = some (.fin 2) := by
  have c0 : bootstrapCut recFail = false := by
    simp [bootstrapCut, recFail, ToyRecord.zero, FVal.feq]
  have c1 : bootstrapCut (recStat 1) = true := by
    simp [bootstrapCut, recStat, ToyRecord.zero, FVal.feq, FVal.lt, FVal.abs]
    norm_num
  have c2 : bootstrapCut (recStat 2) = true := by
    simp [bootstrapCut, recStat, ToyRecord.zero, FVal.feq, FVal.lt, FVal.abs]
    norm_num
  have s1 : FVal.sub (recStat 1).chi2minToy (recStat 1).chi2minGlobalToy = .fin 1 := by
    simp [recStat, ToyRecord.zero, FVal.sub, FVal.add, FVal.neg]
  have s2 : FVal.sub (recStat 2).chi2minToy (recStat 2).chi2minGlobalToy = .fin 2 := by
    simp [recStat, ToyRecord.zero, FVal.sub, FVal.add, FVal.neg]
  have hf : (bootstrapLoop [recFail, recStat 1, recStat 2]).failed = [0] := by
    simp [bootstrapLoop, bootstrapLoopFrom, bootstrapStep, c0, c1, c2]
  have hq : (bootstrapLoop [recFail, recStat 1, recStat 2]).q = [.fin 1, .fin 2] := by
    simp [bootstrapLoop, bootstrapLoopFrom, bootstrapStep, c0, c1, c2, s1, s2]
  have hn : numberOfToys [recFail, recStat 1, recStat 2] = 2 := by
    simp [numberOfToys, List.filter, c0, c1, c2]
  refine ⟨hf, hq, hn, ?_⟩
  intro rndm fuel k r k1 hr hd
  rw [hf] at hd
  obtain ⟨hnot, n, hrn⟩ := drawIndex_accepts _ _ _ _ _ _ hd
  have hlt : r < 2 := by
    rw [hrn, ← hn]
    exact hr n
  have hr0 : r ≠ 0 := by
    intro h0
    apply hnot
    simp [h0]
  have hr1 : r = 1 := by omega
  refine ⟨hr0, ?_⟩
  rw [hq, hr1]
  rfl

/-! ## The entries written by `scan1d` -/

@[simp] theorem frame_fitAssign (env : Env) (s : ScanState) :
    frame (fitAssign env s) = frame s := rfl

@[simp] theorem frame_setMinNllScan (s : ScanState) : frame (setMinNllScan s) = frame s := rfl

@[simp] theorem frame_setMinNllFree (s : ScanState) : frame (setMinNllFree s) = frame s := rfl

@[simp] theorem frame_setFitStrategy (k : Int) (s : ScanState) :
    frame (setFitStrategy k s) = frame s := rfl

@[simp] theorem frame_setConstant (b : Bool) (s : ScanState) :
    frame (setConstant b s) = frame s := rfl

@[simp] theorem frame_setToyData (d : DataId) (s : ScanState) :
    frame (setToyData d s) = frame s := rfl

@[simp] theorem frame_setVal (x : FVal) (s : ScanState) : frame (setVal x s) = frame s := rfl

@[simp] theorem frame_setLimit (r : RangeName) (s : ScanState) :
    frame (setLimit r s) = frame s := rfl

@[simp] theorem frame_setParevolPointByIndex (env : Env) (i : Nat) (s : ScanState) :
    frame (setParevolPointByIndex env i s) = frame s := rfl

@[simp] theorem frame_setAndPrintFitStatusFreeToys (s : ScanState) :
    frame (setAndPrintFitStatusFreeToys s) = frame s := by
  unfold setAndPrintFitStatusFreeToys
  split <;> rfl

@[simp] theorem frame_setAndPrintFitStatusConstrainedToys (s : ScanState) :
    frame (setAndPrintFitStatusConstrainedToys s) = frame s := by
  unfold setAndPrintFitStatusConstrainedToys
  split <;> rfl

@[simp] theorem frame_flagInfNan (s : ScanState) : frame (flagInfNan s) = frame s := by
  unfold flagInfNan
  split <;> rfl

@[simp] theorem frame_flagNotFiniteFree (s : ScanState) :
    frame (flagNotFiniteFree s) = frame s := by
  unfold flagNotFiniteFree
  split <;> rfl

@[simp] theorem frame_storeChi2minGlobalToy (s : ScanState) :
    frame (storeChi2minGlobalToy s) = frame s := rfl

@[simp] theorem frame_scanFitAttempt (env : Env) (s : ScanState) :
    frame (scanFitAttempt env s) = frame s := by
  simp [scanFitAttempt]

@[simp] theorem frame_freeFitAttempt (env : Env) (s : ScanState) :
    frame (freeFitAttempt env s) = frame s := by
  simp [freeFitAttempt]

@[simp] theorem frame_scanFitLadder (env : Env) (s : ScanState) :
    frame (scanFitLadder env s) = frame s := by
  unfold scanFitLadder
  dsimp only
  split_ifs <;> simp

@[simp] theorem frame_recoveryFit (env : Env) (p : FVal) (s : ScanState) :
    frame (recoveryFit env p s) = frame s := by
  unfold recoveryFit
  dsimp only
  split_ifs <;> rfl

@[simp] theorem frame_freeFitLadder (env : Env) (p : FVal) (s : ScanState) :
    frame (freeFitLadder env p s) = frame s := by
  unfold freeFitLadder
  dsimp only
  split_ifs <;> simp

@[simp] theorem frame_constrainedFit (env : Env) (i : Nat) (s : ScanState) :
    frame (constrainedFit env i s) = frame s := by
  unfold constrainedFit
  dsimp only
  exact (frame_scanFitLadder env _).trans rfl

@[simp] theorem frame_bkgHypFit (env : Env) (i : Nat) (d : DataId) (s : ScanState) :
    frame (bkgHypFit env i d s) = frame s := by
  unfold bkgHypFit
  dsimp only
  exact (frame_scanFitLadder env _).trans rfl

@[simp] theorem frame_freeFit (env : Env) (i : Nat) (p : FVal) (d : DataId) (s : ScanState) :
    frame (freeFit env i p d s) = frame s := by
  unfold freeFit
  dsimp only
  exact (frame_freeFitLadder env p _).trans rfl

theorem frame_toyBodyScan (env : Env) (i j : Nat) (s : ScanState) :
    frame (toyBodyScan env i j s)
      = (s.cls_bkgOnlyToys, s.chi2minGlobalBkgToysStore, s.scanbestBkgToysStore, s.filled,
          s.toyTree.npoint, FVal.ofNat j) := by
  unfold toyBodyScan
  dsimp only
  exact (frame_constrainedFit env i _).trans rfl

/-- A toy of the toy loop with the stores filled to `nToys`: the body returns, appends
one entry with the point number in preparation and the toy number `j`, and leaves the
stores and the point number as they are. -/
theorem toyBody_ok (env : Env) (i j : Nat) (s : ScanState) (hj : j < env.nToys)
    (h1 : s.cls_bkgOnlyToys.length = env.nToys)
    (h2 : s.chi2minGlobalBkgToysStore.length = env.nToys)
    (h3 : s.scanbestBkgToysStore.length = env.nToys) :
    ∃ s2, toyBody env i j s = .ok s2
      ∧ s2.filled.map entryKey = s.filled.map entryKey ++ [(s.toyTree.npoint, FVal.ofNat j)]
      ∧ s2.cls_bkgOnlyToys = s.cls_bkgOnlyToys
      ∧ s2.chi2minGlobalBkgToysStore = s.chi2minGlobalBkgToysStore
      ∧ s2.scanbestBkgToysStore = s.scanbestBkgToysStore
      ∧ s2.toyTree.npoint = s.toyTree.npoint := by
  have f1 := frame_toyBodyScan env i j s
  obtain ⟨d, hd⟩ : ∃ d, (toyBodyScan env i j s).cls_bkgOnlyToys[j]? = some d := by
    have : (toyBodyScan env i j s).cls_bkgOnlyToys = s.cls_bkgOnlyToys :=
      congrArg (fun p => p.1) f1
    rw [this]
    exact ⟨s.cls_bkgOnlyToys[j], List.getElem?_eq_getElem (by omega)⟩
  have f2 : frame (freeFit env i (toyBodyScan env i j s).poiVal (toyBodyScan env i j s).toyData
      (bkgHypFit env i d (toyBodyScan env i j s)))
      = (s.cls_bkgOnlyToys, s.chi2minGlobalBkgToysStore, s.scanbestBkgToysStore, s.filled,
          s.toyTree.npoint, FVal.ofNat j) := by
    rw [frame_freeFit, frame_bkgHypFit, f1]
  simp only [frame, Prod.mk.injEq] at f2
  obtain ⟨g1, g2, g3, g4, g5, g6⟩ := f2
  obtain ⟨c, hc⟩ : ∃ c, s.chi2minGlobalBkgToysStore[j]? = some c :=
    ⟨s.chi2minGlobalBkgToysStore[j], List.getElem?_eq_getElem (by omega)⟩
  obtain ⟨b, hb⟩ : ∃ b, s.scanbestBkgToysStore[j]? = some b :=
    ⟨s.scanbestBkgToysStore[j], List.getElem?_eq_getElem (by omega)⟩
  unfold toyBody
  simp only [hd, g2, g3, h2, h3, ne_eq, not_true_eq_false, if_false, hc, hb]
  refine ⟨_, rfl, ?_, ?_, ?_, ?_, ?_⟩
  · simp [setToyData, entryKey, g4, g5, g6]
  · exact g1
  · rfl
  · rfl
  · exact g5

theorem flagInfNan_frame_fields (s : ScanState) :
    (flagInfNan s).cls_bkgOnlyToys = s.cls_bkgOnlyToys
    ∧ (flagInfNan s).chi2minGlobalBkgToysStore = s.chi2minGlobalBkgToysStore
    ∧ (flagInfNan s).scanbestBkgToysStore = s.scanbestBkgToysStore
    ∧ (flagInfNan s).filled = s.filled
    ∧ (flagInfNan s).toyTree = s.toyTree := by
  unfold flagInfNan
  split <;> exact ⟨rfl, rfl, rfl, rfl, rfl⟩

/-- The fit of one background-only toy before the scan adds one element to each of the
three stores and writes no entry. -/
theorem bkgOnlyToyFit_stores (env : Env) (j : Nat) (s : ScanState)
    (h : env.hasBkgPdf = true) :
    (bkgOnlyToyFit env j s).cls_bkgOnlyToys.length = s.cls_bkgOnlyToys.length + 1
    ∧ (bkgOnlyToyFit env j s).chi2minGlobalBkgToysStore.length
        = s.chi2minGlobalBkgToysStore.length + 1
    ∧ (bkgOnlyToyFit env j s).scanbestBkgToysStore.length
        = s.scanbestBkgToysStore.length + 1
    ∧ (bkgOnlyToyFit env j s).filled = s.filled
    ∧ (bkgOnlyToyFit env j s).toyTree = s.toyTree := by
  unfold bkgOnlyToyFit
  rw [if_pos h]
  dsimp only
  split_ifs <;>
    simp [setToyData, setMinNllScan, setFitStrategy, setConstant, fitAssign, loadAndFit,
      (flagInfNan_frame_fields _).1, (flagInfNan_frame_fields _).2.1,
      (flagInfNan_frame_fields _).2.2.1, (flagInfNan_frame_fields _).2.2.2.1,
      (flagInfNan_frame_fields _).2.2.2.2]

/-- The loop over the background-only toys before the scan fills the three stores with
one element per toy and writes no entry. -/
theorem prefit_stores (env : Env) (n : Nat) (s : ScanState) (h : env.hasBkgPdf = true) :
    ((List.range n).foldl (fun s j => bkgOnlyToyFit env j s) s).cls_bkgOnlyToys.length
        = s.cls_bkgOnlyToys.length + n
    ∧ ((List.range n).foldl (fun s j => bkgOnlyToyFit env j s)
        s).chi2minGlobalBkgToysStore.length = s.chi2minGlobalBkgToysStore.length + n
    ∧ ((List.range n).foldl (fun s j => bkgOnlyToyFit env j s) s).scanbestBkgToysStore.length
        = s.scanbestBkgToysStore.length + n
    ∧ ((List.range n).foldl (fun s j => bkgOnlyToyFit env j s) s).filled = s.filled
    ∧ ((List.range n).foldl (fun s j => bkgOnlyToyFit env j s) s).toyTree = s.toyTree := by
  induction n with
  | zero => exact ⟨rfl, rfl, rfl, rfl, rfl⟩
  | succ n ih =>
    rw [List.range_succ, List.foldl_append]
    simp only [List.foldl_cons, List.foldl_nil]
    obtain ⟨a1, a2, a3, a4, a5⟩ := ih
    obtain ⟨b1, b2, b3, b4, b5⟩ := bkgOnlyToyFit_stores env n
      ((List.range n).foldl (fun s j => bkgOnlyToyFit env j s) s) h
    rw [b1, b2, b3, b4, b5, a1, a2, a3, a4, a5]
    exact ⟨by omega, by omega, by omega, rfl, rfl⟩

/-- The toy loop of a scan point, run over the first `n` toys with the stores filled to
`nToys`: it returns and appends the entries of the toys `0..n-1`, in this order. -/
theorem toysLoop_ok (env : Env) (i n : Nat) (s : ScanState) (hn : n ≤ env.nToys)
    (h1 : s.cls_bkgOnlyToys.length = env.nToys)
    (h2 : s.chi2minGlobalBkgToysStore.length = env.nToys)
    (h3 : s.scanbestBkgToysStore.length = env.nToys) :
    ∃ s2, toysLoop env i n s = .ok s2
      ∧ s2.filled.map entryKey
          = s.filled.map entryKey
            ++ (List.range n).map (fun j => (s.toyTree.npoint, FVal.ofNat j))
      ∧ s2.cls_bkgOnlyToys = s.cls_bkgOnlyToys
      ∧ s2.chi2minGlobalBkgToysStore = s.chi2minGlobalBkgToysStore
      ∧ s2.scanbestBkgToysStore = s.scanbestBkgToysStore
      ∧ s2.toyTree.npoint = s.toyTree.npoint := by
  induction n with
  | zero => exact ⟨s, rfl, by simp, rfl, rfl, rfl, rfl⟩
  | succ n ih =>
    obtain ⟨s1, e1, k1, c1, c2, c3, c4⟩ := ih (by omega)
    obtain ⟨s2, e2, k2, d1, d2, d3, d4⟩ := toyBody_ok env i n s1 (by omega)
      (by rw [c1, h1]) (by rw [c2, h2]) (by rw [c3, h3])
    refine ⟨s2, ?_, ?_, d1.trans c1, d2.trans c2, d3.trans c3, d4.trans c4⟩
    · unfold toysLoop at e1 ⊢
      rw [List.range_succ, List.foldlM_append, e1]
      simp only [List.foldlM_cons, List.foldlM_nil]
      change (toyBody env i n s1 >>= fun s => pure s) = _
      rw [e2]
      rfl
    · rw [k2, k1, c4, List.range_succ, List.map_append, List.append_assoc]
      rfl

/-- The result of the whole toy loop of a scan point, given as `r`. -/
theorem toysLoop_result (env : Env) (i : Nat) (s : ScanState) (r : Except Abort ScanState)
    (hr : toysLoop env i env.nToys s = r)
    (h1 : s.cls_bkgOnlyToys.length = env.nToys)
    (h2 : s.chi2minGlobalBkgToysStore.length = env.nToys)
    (h3 : s.scanbestBkgToysStore.length = env.nToys) :
    ∃ s2, r = .ok s2
      ∧ s2.filled.map entryKey
          = s.filled.map entryKey
            ++ (List.range env.nToys).map (fun j => (s.toyTree.npoint, FVal.ofNat j))
      ∧ s2.cls_bkgOnlyToys = s.cls_bkgOnlyToys
      ∧ s2.chi2minGlobalBkgToysStore = s.chi2minGlobalBkgToysStore
      ∧ s2.scanbestBkgToysStore = s.scanbestBkgToysStore := by
  obtain ⟨s2, e, k, c1, c2, c3, -⟩ := toysLoop_ok env i env.nToys s (le_refl _) h1 h2 h3
  exact ⟨s2, hr ▸ e, k, c1, c2, c3⟩

/-- A scan point that passes the checks of the loop over the scan points: the body
returns and appends the entries of the toys `0..nToys-1` of the point. -/
theorem pointBody_ok (env : Env) (parsFunctionCall : FVal) (s : ScanState) (i : Nat)
    (hfound : env.chi2minGlobalFound = true) (himp : env.importance = false)
    (h0 : i = 0 → FVal.fne (scanpointAt env i) (.fin 0) = false)
    (hr : ∀ r, FVal.lt (scanpointAt env i) (env.rangeMin r) = false
      ∧ FVal.gt (scanpointAt env i) (FVal.add (env.rangeMax r) (.fin (2 / 10 ^ 13))) = false)
    (h1 : s.cls_bkgOnlyToys.length = env.nToys)
    (h2 : s.chi2minGlobalBkgToysStore.length = env.nToys)
    (h3 : s.scanbestBkgToysStore.length = env.nToys) :
    ∃ s2, pointBody env parsFunctionCall s i = .ok s2
      ∧ s2.filled.map entryKey = s.filled.map entryKey ++ pointKeys env.nToys i
      ∧ s2.cls_bkgOnlyToys = s.cls_bkgOnlyToys
      ∧ s2.chi2minGlobalBkgToysStore = s.chi2minGlobalBkgToysStore
      ∧ s2.scanbestBkgToysStore = s.scanbestBkgToysStore := by
  have hc : (decide (i = 0) && FVal.fne (scanpointAt env i) (.fin 0)) = false := by
    by_cases hi : i = 0
    · simp [h0 hi]
    · simp [hi]
  unfold pointBody
  dsimp only
  simp only [hc, (hr _).1, (hr _).2, hfound, nActualToys, himp, Bool.false_eq_true, if_false,
    Bool.or_self, Bool.not_true]
  split
  · rename_i e heq
    obtain ⟨s2, e2, -⟩ := toysLoop_result env i _ _ heq h1 h2 h3
    cases e2
  · rename_i s1 heq
    obtain ⟨s2, e2, k, c1, c2, c3⟩ := toysLoop_result env i _ _ heq h1 h2 h3
    cases e2
    exact ⟨_, rfl, k, c1, c2, c3⟩

theorem scanKeys_succ (m nToys : Nat) :
    scanKeys (m + 1) nToys = scanKeys m nToys ++ pointKeys nToys m := by
  simp [scanKeys, List.range_succ]

theorem scanKeys_length (m nToys : Nat) : (scanKeys m nToys).length = m * nToys := by
  induction m with
  | zero => simp [scanKeys]
  | succ m ih =>
    rw [scanKeys_succ, List.length_append, ih]
    simp [pointKeys]
    ring

/-- The loop over the first `m` scan points, all of which pass the checks: it returns
and appends the entries of the points `0..m-1`, in this order. -/
theorem scanLoop_ok (env : Env) (parsFunctionCall : FVal) (m : Nat) (s : ScanState)
    (hm : m ≤ env.nPoints1d)
    (hfound : env.chi2minGlobalFound = true) (himp : env.importance = false)
    (h0 : FVal.fne (scanpointAt env 0) (.fin 0) = false)
    (hr : ∀ i, i < env.nPoints1d → ∀ r, FVal.lt (scanpointAt env i) (env.rangeMin r) = false
      ∧ FVal.gt (scanpointAt env i) (FVal.add (env.rangeMax r) (.fin (2 / 10 ^ 13))) = false)
    (h1 : s.cls_bkgOnlyToys.length = env.nToys)
    (h2 : s.chi2minGlobalBkgToysStore.length = env.nToys)
    (h3 : s.scanbestBkgToysStore.length = env.nToys) :
    ∃ s2, (List.range m).foldlM (pointBody env parsFunctionCall) s = .ok s2
      ∧ s2.filled.map entryKey = s.filled.map entryKey ++ scanKeys m env.nToys
      ∧ s2.cls_bkgOnlyToys = s.cls_bkgOnlyToys
      ∧ s2.chi2minGlobalBkgToysStore = s.chi2minGlobalBkgToysStore
      ∧ s2.scanbestBkgToysStore = s.scanbestBkgToysStore := by
  induction m with
  | zero => exact ⟨s, rfl, by simp [scanKeys], rfl, rfl, rfl⟩
  | succ m ih =>
    obtain ⟨s1, e1, k1, c1, c2, c3⟩ := ih (by omega)
    obtain ⟨s2, e2, k2, d1, d2, d3⟩ := pointBody_ok env parsFunctionCall s1 m hfound himp
      (fun hz => by rw [hz]; exact h0) (hr m (by omega))
      (by rw [c1, h1]) (by rw [c2, h2]) (by rw [c3, h3])
    refine ⟨s2, ?_, ?_, d1.trans c1, d2.trans c2, d3.trans c3⟩
    · rw [List.range_succ, List.foldlM_append, e1]
      simp only [List.foldlM_cons, List.foldlM_nil]
      change (pointBody env parsFunctionCall s1 m >>= fun s => pure s) = _
      rw [e2]
      rfl
    · rw [k2, k1, scanKeys_succ, List.append_assoc]

/-- C14: when `scan1d` hits no fatal precondition (the prob-scan result file and the
global minimum are found, the grid starts at 0, every scan point lies inside each
named range of the parameter, a background-only model is configured and importance
sampling is off), it returns, whatever the optimizer returns, and the entries written
are exactly one per (scan point, toy) pair: their (point number, toy number) keys are
the pairs `(i, j)` ordered by `i = 0..nPoints1d-1` and, within a point, by
`j = 0..nToys-1`. -/
theorem C14_one_entry_per_pair (env : Env) (s : ScanState)
    (hfile : env.probResFileFound = true)
    (hfound : env.chi2minGlobalFound = true) (hbkg : env.hasBkgPdf = true)
    (himp : env.importance = false)
    (h0 : FVal.fne (scanpointAt env 0) (.fin 0) = false)
    (hr : ∀ i, i < env.nPoints1d → ∀ r, FVal.lt (scanpointAt env i) (env.rangeMin r) = false
      ∧ FVal.gt (scanpointAt env i) (FVal.add (env.rangeMax r) (.fin (2 / 10 ^ 13))) = false) :
    ∃ s2, scan1d env s = .ok s2
      ∧ s2.filled.map entryKey = scanKeys env.nPoints1d env.nToys
      ∧ s2.filled.length = env.nPoints1d * env.nToys := by
  unfold scan1d
  dsimp only
  simp only [hfile, nActualToys, himp, Bool.not_true, Bool.false_eq_true, if_false]
  obtain ⟨p1, p2, p3, p4, -⟩ := prefit_stores env env.nToys
    { loadParameterLimits env s with
      toyTree := { env.toyTreeInit with nrun := FVal.ofInt env.nRun },
      filled := [], cls_bkgOnlyToys := [], chi2minGlobalBkgToysStore := [],
      scanbestBkgToysStore := [] } hbkg
  obtain ⟨s2, e, k, -⟩ := scanLoop_ok env (loadParameterLimits env s).poiVal env.nPoints1d
    ((List.range env.nToys).foldl (fun s j => bkgOnlyToyFit env j s)
      { loadParameterLimits env s with
        toyTree := { env.toyTreeInit with nrun := FVal.ofInt env.nRun },
        filled := [], cls_bkgOnlyToys := [], chi2minGlobalBkgToysStore := [],
        scanbestBkgToysStore := [] })
    (le_refl _) hfound himp h0 hr (by simpa using p1) (by simpa using p2) (by simpa using p3)
  rw [p4] at k
  refine ⟨s2, e, by simpa using k, ?_⟩
  have hl := congrArg List.length k
  simpa [scanKeys_length] using hl

/-- Witness of C14: two scan points over `[0, 1]`, one toy per point, every fit
returning an infinite minimum; the two entries have the keys `(0, 0)` and `(1, 0)`. -/
theorem C14_one_entry_per_pair_witness :
    ∃ s2, scan1d (envDemo fitInf) stateDemo = .ok s2
      ∧ s2.filled.map entryKey = scanKeys 2 1
      ∧ s2.filled.length = 2 * 1 :=
  C14_one_entry_per_pair (envDemo fitInf) stateDemo rfl rfl rfl rfl
    (by
      simp [scanpointAt, envDemo, FVal.fne, FVal.feq, FVal.add, FVal.sub, FVal.neg, FVal.mul,
        FVal.div, FVal.ofNat]
      norm_num)
    (by
      intro i hi r
      have hi2 : i < 2 := hi
      interval_cases i
      · simp [scanpointAt, envDemo, FVal.lt, FVal.gt, FVal.add, FVal.sub, FVal.neg, FVal.mul,
          FVal.div, FVal.ofNat]
        norm_num
      · simp [scanpointAt, envDemo, FVal.lt, FVal.gt, FVal.add, FVal.sub, FVal.neg, FVal.mul,
          FVal.div, FVal.ofNat]
        norm_num)

/-! ## Claims on the background-only toys of `scan1d` -/

/-- Without a background-only model the loop before the scan does nothing. -/
theorem prefit_noBkg (env : Env) (n : Nat) (s : ScanState) (h : env.hasBkgPdf = false) :
    (List.range n).foldl (fun s j => bkgOnlyToyFit env j s) s = s := by
  induction n with
  | zero => rfl
  | succ n ih =>
    rw [List.range_succ, List.foldl_append, ih]
    simp [bkgOnlyToyFit, h]

/-- A toy of the toy loop with an empty `cls_bkgOnlyToys` reads past its end. -/
theorem toyBody_empty_cache (env : Env) (i j : Nat) (s : ScanState)
    (h : s.cls_bkgOnlyToys = []) : toyBody env i j s = .error Abort.outOfBounds := by
  have f1 := frame_toyBodyScan env i j s
  have hc : (toyBodyScan env i j s).cls_bkgOnlyToys = [] := by
    have : (toyBodyScan env i j s).cls_bkgOnlyToys = s.cls_bkgOnlyToys :=
      congrArg (fun p => p.1) f1
    rw [this, h]
  unfold toyBody
  simp only [hc, List.getElem?_nil]

/-- The toy loop of a scan point with at least one toy and an empty `cls_bkgOnlyToys`. -/
theorem toysLoop_empty_cache (env : Env) (i n : Nat) (s : ScanState)
    (h : s.cls_bkgOnlyToys = []) :
    toysLoop env i (n + 1) s = .error Abort.outOfBounds := by
  unfold toysLoop
  rw [List.range_succ_eq_map, List.foldlM_cons, toyBody_empty_cache env i 0 s h]
  rfl

theorem toysLoop_empty_result (env : Env) (i n : Nat) (s : ScanState)
    (r : Except Abort ScanState) (hr : toysLoop env i (n + 1) s = r)
    (h : s.cls_bkgOnlyToys = []) : r = .error Abort.outOfBounds := by
  rw [← hr]
  exact toysLoop_empty_cache env i n s h

/-- The run of `scan1d` without a background-only model, when the first scan point
passes the checks of the scan loop and has at least one toy. -/
theorem scan1d_noBkg (env : Env) (s : ScanState) (n m : Nat)
    (hfile : env.probResFileFound = true) (hfound : env.chi2minGlobalFound = true)
    (hbkg : env.hasBkgPdf = false) (himp : env.importance = false)
    (hn : env.nToys = n + 1) (hm : env.nPoints1d = m + 1)
    (h0 : FVal.fne (scanpointAt env 0) (.fin 0) = false)
    (hr : ∀ r, FVal.lt (scanpointAt env 0) (env.rangeMin r) = false
      ∧ FVal.gt (scanpointAt env 0) (FVal.add (env.rangeMax r) (.fin (2 / 10 ^ 13))) = false) :
    scan1d env s = .error Abort.outOfBounds := by
  unfold scan1d
  dsimp only
  simp only [hfile, nActualToys, himp, Bool.not_true, Bool.false_eq_true, if_false]
  rw [prefit_noBkg env _ _ hbkg, hm, List.range_succ_eq_map, List.foldlM_cons]
  have hp : ∀ (pfc : FVal) (s0 : ScanState), s0.cls_bkgOnlyToys = [] →
      pointBody env pfc s0 0 = .error Abort.outOfBounds := by
    intro pfc s0 hs0
    unfold pointBody
    dsimp only
    simp only [h0, (hr _).1, (hr _).2, hfound, nActualToys, himp, Bool.false_eq_true,
      if_false, Bool.or_self, Bool.not_true, Bool.and_false, hn]
    split
    · rename_i e heq
      have he := toysLoop_empty_result env 0 n _ _ heq hs0
      rw [he]
    · rename_i s1 heq
      have he := toysLoop_empty_result env 0 n _ _ heq hs0
      cases he
  rw [hp _ _ rfl]
  rfl

/-- C22 (the code without a background-only model, one toy per scan point, two scan
points over `[0, 1]`): the loop before the scan leaves `cls_bkgOnlyToys` empty, and the
first toy of the first scan point reads `cls_bkgOnlyToys[0]` past the end of the
vector; the two stores are empty as well, so the assertions on their size would fail
for `nToys = 1`. -/
theorem C22_empty_cache_read :
    (envNoBkg fitInf).hasBkgPdf = false
    ∧ (envNoBkg fitInf).nToys = 1
    ∧ (List.range 1).foldl (fun s j => bkgOnlyToyFit (envNoBkg fitInf) j s)
        { stateDemo with
          cls_bkgOnlyToys := [], chi2minGlobalBkgToysStore := [], scanbestBkgToysStore := [] }
      = { stateDemo with
          cls_bkgOnlyToys := [], chi2minGlobalBkgToysStore := [], scanbestBkgToysStore := [] }
    ∧ toyBody (envNoBkg fitInf) 0 0 stateDemo = .error Abort.outOfBounds
    ∧ scan1d (envNoBkg fitInf) stateDemo = .error Abort.outOfBounds := by
  refine ⟨rfl, rfl, prefit_noBkg _ _ _ rfl, toyBody_empty_cache _ _ _ _ rfl, ?_⟩
  refine scan1d_noBkg (envNoBkg fitInf) stateDemo 0 1 rfl rfl rfl rfl rfl rfl ?_ ?_
  · simp [scanpointAt, envNoBkg, envDemo, FVal.fne, FVal.feq, FVal.add, FVal.sub, FVal.neg,
      FVal.mul, FVal.div, FVal.ofNat]
    norm_num
  · intro r
    simp [scanpointAt, envNoBkg, envDemo, FVal.lt, FVal.gt, FVal.add, FVal.sub, FVal.neg,
      FVal.mul, FVal.div, FVal.ofNat]
    norm_num

/-- C25 (the code on two background-only toys, where the fit of toy 0 converges only
with strategy 2): the loop before the scan never sets the strategy back, so the first
and only attempt for toy 1 is made with strategy 2, not 0. -/
theorem C25_prefit_keeps_strategy :
    ((List.range 2).foldl (fun s j => bkgOnlyToyFit (envTwoToys fitC25) j s) stateDemo).fits
      = [⟨0, DataId.bkgToy 0, false⟩, ⟨1, DataId.bkgToy 0, false⟩,
          ⟨2, DataId.bkgToy 0, false⟩, ⟨2, DataId.bkgToy 1, false⟩] := by
  simp [List.range_succ, bkgOnlyToyFit, fitAssign, loadAndFit, setMinNllScan, setToyData,
    setConstant, setFitStrategy, flagInfNan, envTwoToys, envDemo, fitC25, stateDemo,
    notConverged, converged, FVal.isinf, FVal.isnan]

/-- A rejection loop whose values all lie in `failed` accepts no value, whatever the
number of draws. -/
theorem drawIndex_none (failed : List Nat) (rndm : Nat → Nat) (fuel k : Nat)
    (h : ∀ n, rndm n ∈ failed) : drawIndex failed rndm fuel k = none := by
  induction fuel generalizing k with
  | zero => rfl
  | succ fuel ih =>
    unfold drawIndex
    rw [if_pos (h k)]
    exact ih (k + 1)

/-- C29 (the code on the tree `[recFail, recStat 1]`): entry 0 failed and entry 1 is
valid, so `numberOfToys = 1` and `failed = [0]`: the only index in `[0, 1)` is in
`failed`. Every draw of `rndm.Integer(1)` is rejected, so the rejection loop accepts
nothing however many draws it makes and the bootstrap produces no sample. -/
theorem C29_rejection_loop_stuck :
    numberOfToys [recFail, recStat 1] = 1
    ∧ (bootstrapLoop [recFail, recStat 1]).failed = [0]
    ∧ (bootstrapLoop [recFail, recStat 1]).q = [.fin 1]
    ∧ (∀ k, k < numberOfToys [recFail, recStat 1] →
        k ∈ (bootstrapLoop [recFail, recStat 1]).failed)
    ∧ (∀ (rndm : Nat → Nat) (fuel k : Nat),
        (∀ n, rndm n < numberOfToys [recFail, recStat 1]) →
        drawIndex (bootstrapLoop [recFail, recStat 1]).failed rndm fuel k = none)
    ∧ (∀ (rndm : Nat → Nat) (fuel nSamples : Nat),
        (∀ n, rndm n < numberOfToys [recFail, recStat 1]) →
        performBootstrapTest (nSamples + 1) [recFail, recStat 1] rndm fuel = none) := by
  have c0 : bootstrapCut recFail = false := by
    simp [bootstrapCut, recFail, ToyRecord.zero, FVal.feq]
  have c1 : bootstrapCut (recStat 1) = true := by
    simp [bootstrapCut, recStat, ToyRecord.zero, FVal.feq, FVal.lt, FVal.abs]
    norm_num
  have s1 : FVal.sub (recStat 1).chi2minToy (recStat 1).chi2minGlobalToy = .fin 1 := by
    simp [recStat, ToyRecord.zero, FVal.sub, FVal.add, FVal.neg]
  have hn : numberOfToys [recFail, recStat 1] = 1 := by
    simp [numberOfToys, List.filter, c0, c1]
  have hf : (bootstrapLoop [recFail, recStat 1]).failed = [0] := by
    simp [bootstrapLoop, bootstrapLoopFrom, bootstrapStep, c0, c1]
  have hq : (bootstrapLoop [recFail, recStat 1]).q = [.fin 1] := by
    simp [bootstrapLoop, bootstrapLoopFrom, bootstrapStep, c0, c1, s1]
  have hdraw : ∀ (rndm : Nat → Nat) (fuel k : Nat),
      (∀ n, rndm n < numberOfToys [recFail, recStat 1]) →
      drawIndex (bootstrapLoop [recFail, recStat 1]).failed rndm fuel k = none := by
    intro rndm fuel k hr
    apply drawIndex_none
    intro n
    have := hr n
    rw [hn] at this
    rw [hf]
    simp
    omega
  refine ⟨hn, hf, hq, ?_, hdraw, ?_⟩
  · intro k hk
    rw [hn] at hk
    rw [hf]
    simp
    omega
  · intro rndm fuel nSamples hr
    unfold performBootstrapTest samplesLoop
    rw [hn]
    unfold resampleLoop
    rw [hdraw rndm fuel 0 hr]

/-! ## Claims on the grid of `scan1d` -/

/-- The body of the scan loop at the first point of a grid that does not start at 0. -/
theorem pointBody_exit (env : Env) (parsFunctionCall : FVal) (s : ScanState)
    (h0 : FVal.fne (scanpointAt env 0) (.fin 0) = true) :
    pointBody env parsFunctionCall s 0 = .error (Abort.exit 1) := by
  unfold pointBody
  dsimp only
  simp [h0]

/-- The loop over the background-only toys before the scan writes no entry, with or
without a background-only model. -/
theorem prefit_filled (env : Env) (n : Nat) (s : ScanState) :
    ((List.range n).foldl (fun s j => bkgOnlyToyFit env j s) s).filled = s.filled := by
  by_cases h : env.hasBkgPdf = true
  · exact (prefit_stores env n s h).2.2.2.1
  · rw [prefit_noBkg env n s (by simpa using h)]

/-- C30: for every configuration with at least one scan point whose first scan
coordinate is not exactly 0, with or without a background-only model, the body of the
scan loop exits with status 1 at the first point from every state, before any toy is
generated; the loop over the background-only toys that runs before it writes no
entry; and `scan1d` ends with `exit(1)`, hence without writing the toy tree. -/
theorem C30_grid_must_start_at_zero (env : Env) (s : ScanState)
    (hN : 1 ≤ env.nPoints1d)
    (h0 : FVal.fne (scanpointAt env 0) (.fin 0) = true) :
    (∀ (parsFunctionCall : FVal) (s0 : ScanState),
        pointBody env parsFunctionCall s0 0 = .error (Abort.exit 1))
    ∧ (∀ (n : Nat) (s0 : ScanState),
        ((List.range n).foldl (fun s j => bkgOnlyToyFit env j s) s0).filled = s0.filled)
    ∧ scan1d env s = .error (Abort.exit 1) := by
  refine ⟨fun p s0 => pointBody_exit env p s0 h0, fun n s0 => prefit_filled env n s0, ?_⟩
  obtain ⟨m, hm⟩ : ∃ m, env.nPoints1d = m + 1 := ⟨env.nPoints1d - 1, by omega⟩
  unfold scan1d
  dsimp only
  by_cases hfile : env.probResFileFound = true
  · simp only [hfile, Bool.not_true, Bool.false_eq_true, if_false]
    rw [hm, List.range_succ_eq_map, List.foldlM_cons, pointBody_exit env _ _ h0]
    rfl
  · simp [hfile]

/-- Witness of C30: two scan points over `[1, 2]`, with a background-only model. -/
theorem C30_grid_must_start_at_zero_witness :
    scan1d { envDemo fitInf with parameterToScan_min := 1, parameterToScan_max := 2 }
      stateDemo = .error (Abort.exit 1) :=
  (C30_grid_must_start_at_zero
    { envDemo fitInf with parameterToScan_min := 1, parameterToScan_max := 2 } stateDemo
    (by decide)
    (by
      simp [scanpointAt, envDemo, FVal.fne, FVal.feq, FVal.add, FVal.sub, FVal.neg, FVal.mul,
        FVal.div, FVal.ofNat]
      norm_num)).2.2

/-- The scan coordinate of step `i` on a grid of at least two points, as a rational. -/
theorem scanpointAt_fin (env : Env) (i : Nat) (hN : 2 ≤ env.nPoints1d) :
    scanpointAt env i
      = .fin (env.parameterToScan_min
          + (env.parameterToScan_max - env.parameterToScan_min) * (i : ℚ)
            / ((env.nPoints1d : ℚ) - 1)) := by
  have h2 : (2 : ℚ) ≤ (env.nPoints1d : ℚ) := by exact_mod_cast hN
  have hne : (env.nPoints1d : ℚ) + -1 ≠ 0 := by
    intro h
    linarith
  simp only [scanpointAt, FVal.add, FVal.sub, FVal.neg, FVal.mul, FVal.div, FVal.ofNat,
    if_neg hne]
  congr 1
  simp only [sub_eq_add_neg]

/-- C23 (counterexample): on a grid of one point over `[0, 1]` the denominator
`(double)nPoints1d - 1` is zero and the scan coordinate of step 0 is `0 * 1 / 0`, a NaN,
not the lower limit 0. -/
theorem C23_counterexample :
    FVal.sub (FVal.ofNat ({ envDemo fitInf with nPoints1d := 1 } : Env).nPoints1d) (.fin 1)
      = .fin 0
    ∧ scanpointAt { envDemo fitInf with nPoints1d := 1 } 0 = .nan
    ∧ scanpointAt { envDemo fitInf with nPoints1d := 1 } 0
      ≠ .fin ({ envDemo fitInf with nPoints1d := 1 } : Env).parameterToScan_min := by
  have h : scanpointAt { envDemo fitInf with nPoints1d := 1 } 0 = .nan := by
    simp [scanpointAt, envDemo, FVal.add, FVal.sub, FVal.neg, FVal.mul, FVal.div, FVal.ofNat,
      FVal.infTimes]
  refine ⟨?_, h, ?_⟩
  · simp [envDemo, FVal.sub, FVal.add, FVal.neg, FVal.ofNat]
  · rw [h]
    simp

/-- C23 (amended): for every number of points `N >= 2` and range `[min, max]`, the
denominator `N - 1` of the scan coordinate is not zero, the coordinate of step `i` is
the number `min + (max - min) * i / (N - 1)` for every `i`, the first coordinate is
`min`, the last is `max`, and consecutive coordinates differ by `(max - min) / (N - 1)`
(exact rational arithmetic). -/
theorem C23_grid_coordinates (env : Env) (hN : 2 ≤ env.nPoints1d) :
    FVal.feq (FVal.sub (FVal.ofNat env.nPoints1d) (.fin 1)) (.fin 0) = false
    ∧ (∀ i, scanpointAt env i
        = .fin (env.parameterToScan_min
            + (env.parameterToScan_max - env.parameterToScan_min) * (i : ℚ)
              / ((env.nPoints1d : ℚ) - 1)))
    ∧ scanpointAt env 0 = .fin env.parameterToScan_min
    ∧ scanpointAt env (env.nPoints1d - 1) = .fin env.parameterToScan_max
    ∧ (∀ i, scanpointAt env (i + 1)
        = FVal.add (scanpointAt env i)
            (.fin ((env.parameterToScan_max - env.parameterToScan_min)
              / ((env.nPoints1d : ℚ) - 1)))) := by
  have h2 : (2 : ℚ) ≤ (env.nPoints1d : ℚ) := by exact_mod_cast hN
  have hne : (env.nPoints1d : ℚ) - 1 ≠ 0 := by
    intro h
    linarith
  refine ⟨?_, fun i => scanpointAt_fin env i hN, ?_, ?_, ?_⟩
  · have hne2 : (env.nPoints1d : ℚ) + -1 ≠ 0 := by
      intro h
      apply hne
      linarith
    simp [FVal.feq, FVal.sub, FVal.add, FVal.neg, FVal.ofNat, hne2]
  · rw [scanpointAt_fin env 0 hN]
    simp
  · rw [scanpointAt_fin env _ hN]
    congr 1
    have hc : ((env.nPoints1d - 1 : Nat) : ℚ) = (env.nPoints1d : ℚ) - 1 := by
      rw [Nat.cast_sub (by omega)]
      simp
    rw [hc]
    field_simp
  · intro i
    rw [scanpointAt_fin env (i + 1) hN, scanpointAt_fin env i hN]
    simp only [FVal.add]
    congr 1
    push_cast
    field_simp
    ring

/-- Witness of C23 (amended): two points over `[0, 1]`. -/
theorem C23_grid_coordinates_witness :
    scanpointAt (envDemo fitInf) 0 = .fin (envDemo fitInf).parameterToScan_min
    ∧ scanpointAt (envDemo fitInf) ((envDemo fitInf).nPoints1d - 1)
      = .fin (envDemo fitInf).parameterToScan_max :=
  ⟨(C23_grid_coordinates (envDemo fitInf) (by decide)).2.2.1,
    (C23_grid_coordinates (envDemo fitInf) (by decide)).2.2.2.1⟩

/-- The position of the `k`-th scan coordinate on the axis of the aggregation
histogram, in units of the bin width, lies in `[k, k + 1)`. -/
theorem grid_position (n kq a b : ℚ) (hn : 2 ≤ n) (hk0 : 0 ≤ kq) (hk : kq ≤ n - 1)
    (hab : a < b) :
    kq ≤ n * ((a + (b - a) * kq / (n - 1)) - (a - (b - a) / n / 2))
          / ((b + (b - a) / n / 2) - (a - (b - a) / n / 2))
    ∧ n * ((a + (b - a) * kq / (n - 1)) - (a - (b - a) / n / 2))
          / ((b + (b - a) / n / 2) - (a - (b - a) / n / 2)) < kq + 1 := by
  have hn0 : n ≠ 0 := by linarith
  have hn1 : n - 1 ≠ 0 := by linarith
  have hn2 : n + 1 ≠ 0 := by linarith
  have hd : b - a ≠ 0 := by linarith
  have hv : n * ((a + (b - a) * kq / (n - 1)) - (a - (b - a) / n / 2))
      / ((b + (b - a) / n / 2) - (a - (b - a) / n / 2))
      = (2 * n ^ 2 * kq + n * (n - 1)) / (2 * (n - 1) * (n + 1)) := by
    have hden : (b + (b - a) / n / 2) - (a - (b - a) / n / 2) = (b - a) * (n + 1) / n := by
      field_simp
      ring
    have hnum : (a + (b - a) * kq / (n - 1)) - (a - (b - a) / n / 2)
        = (b - a) * (2 * n * kq + (n - 1)) / (2 * n * (n - 1)) := by
      field_simp
      ring
    rw [hden, hnum]
    field_simp
    ring
  have hpos : 0 < 2 * (n - 1) * (n + 1) := by nlinarith
  rw [hv]
  constructor
  · rw [le_div_iff₀ hpos]
    nlinarith
  · rw [div_lt_iff₀ hpos]
    nlinarith

/-- C27: for every `N >= 2` and `min < max`, on the axis of the aggregation histogram
of `readScan1dTrees` (`N` equal bins over `[min - h, max + h]`, `h = (max - min)/(2N)`)
the `k`-th scan coordinate of `scan1d`, `min + (max - min) * k / (N - 1)`, falls in bin
`k + 1`, for every `k` in `0..N-1` (exact rational arithmetic); so the scan points are
mapped one to one onto the bins `1..N`. -/
theorem C27_one_bin_per_scan_point (env : Env) (k : Nat) (hN : 2 ≤ env.nPoints1d)
    (hminmax : env.parameterToScan_min < env.parameterToScan_max)
    (hk : k < env.nPoints1d) :
    (treeAxis env.nPoints1d env.parameterToScan_min env.parameterToScan_max).findBin
      (scanpointAt env k) = k + 1 := by
  have h2 : (2 : ℚ) ≤ (env.nPoints1d : ℚ) := by exact_mod_cast hN
  have hk0 : (0 : ℚ) ≤ (k : ℚ) := by positivity
  have hk1 : (k : ℚ) ≤ (env.nPoints1d : ℚ) - 1 := by
    have : k + 1 ≤ env.nPoints1d := hk
    have h3 : ((k + 1 : Nat) : ℚ) ≤ (env.nPoints1d : ℚ) := by exact_mod_cast this
    push_cast at h3
    linarith
  obtain ⟨g1, g2⟩ := grid_position (env.nPoints1d : ℚ) (k : ℚ) env.parameterToScan_min
    env.parameterToScan_max h2 hk0 hk1 hminmax
  have hD : 0 < env.parameterToScan_max - env.parameterToScan_min := by linarith
  have hh : 0 < (env.parameterToScan_max - env.parameterToScan_min)
      / (env.nPoints1d : ℚ) / 2 := by positivity
  have hx0 : 0 ≤ (env.parameterToScan_max - env.parameterToScan_min) * (k : ℚ)
      / ((env.nPoints1d : ℚ) - 1) := by
    apply div_nonneg
    · exact mul_nonneg (le_of_lt hD) hk0
    · linarith
  have hx1 : (env.parameterToScan_max - env.parameterToScan_min) * (k : ℚ)
      / ((env.nPoints1d : ℚ) - 1) ≤ env.parameterToScan_max - env.parameterToScan_min := by
    rw [div_le_iff₀ (by linarith)]
    nlinarith
  rw [scanpointAt_fin env k hN]
  have c1 : ¬ (env.parameterToScan_min
      + (env.parameterToScan_max - env.parameterToScan_min) * (k : ℚ)
        / ((env.nPoints1d : ℚ) - 1)
      < env.parameterToScan_min
        - (env.parameterToScan_max - env.parameterToScan_min) / (env.nPoints1d : ℚ) / 2) := by
    intro h
    linarith
  have c2 : env.parameterToScan_min
      + (env.parameterToScan_max - env.parameterToScan_min) * (k : ℚ)
        / ((env.nPoints1d : ℚ) - 1)
      < env.parameterToScan_max
        + (env.parameterToScan_max - env.parameterToScan_min) / (env.nPoints1d : ℚ) / 2 := by
    linarith
  have hfloor : ⌊(env.nPoints1d : ℚ)
      * ((env.parameterToScan_min
          + (env.parameterToScan_max - env.parameterToScan_min) * (k : ℚ)
            / ((env.nPoints1d : ℚ) - 1))
        - (env.parameterToScan_min
          - (env.parameterToScan_max - env.parameterToScan_min) / (env.nPoints1d : ℚ) / 2))
      / ((env.parameterToScan_max
          + (env.parameterToScan_max - env.parameterToScan_min) / (env.nPoints1d : ℚ) / 2)
        - (env.parameterToScan_min
          - (env.parameterToScan_max - env.parameterToScan_min) / (env.nPoints1d : ℚ) / 2))⌋
      = (k : ℤ) := by
    rw [Int.floor_eq_iff]
    constructor
    · exact_mod_cast g1
    · exact_mod_cast g2
  simp only [treeAxis, Axis.findBin, FVal.lt, decide_eq_true_eq, c1, c2, if_false,
    Bool.not_true, Bool.false_eq_true, decide_True, hfloor, Int.toNat_ofNat]
  omega

/-- Witness of C27: two points over `[0, 1]`, the second point (`k = 1`) falls in
bin 2. -/
theorem C27_one_bin_per_scan_point_witness :
    (treeAxis 2 0 1).findBin (scanpointAt (envDemo fitInf) 1) = 2 :=
  C27_one_bin_per_scan_point (envDemo fitInf) 1 (by decide)
    (by simp [envDemo]) (by decide)

/-! ## Claims on the constructor -/

/-- A valid record has finite minima of the constrained and of the free fit. -/
theorem valid_finite (t : ToyRecord) (h : valid t = true) :
    ∃ x y : ℚ, t.chi2minToy = .fin x ∧ t.chi2minGlobalToy = .fin y := by
  unfold valid tooHighLikelihood at h
  cases h1 : t.chi2minToy <;> cases h2 : t.chi2minGlobalToy <;>
    simp_all [FVal.lt, FVal.abs]

/-- Lowering the right-hand side: `x - y >= c - g` and `b >= g` give `x - y >= c - b`
for finite `x`, `y`. -/
theorem ge_sub_of_ge (x y : ℚ) (c g b : FVal) (hbg : FVal.ge b g = true)
    (h : FVal.ge (FVal.sub (.fin x) (.fin y)) (FVal.sub c g) = true) :
    FVal.ge (FVal.sub (.fin x) (.fin y)) (FVal.sub c b) = true := by
  cases c <;> cases g <;> cases b <;>
    simp_all [FVal.ge, FVal.le, FVal.sub, FVal.add, FVal.neg]
  linarith

/-- With a background minimum at or above the global minimum, a toy that is better
than the data for `hCL` is better than the data for `hCLs`. -/
theorem isBetter_isBetterCls (cfg : ScanConfig)
    (hcfg : FVal.ge cfg.chi2minBkg cfg.chi2minGlobal = true) (t : ToyRecord)
    (h : isBetter cfg t = true) : isBetterCls cfg t = true := by
  have hv := isBetter_valid cfg t h
  obtain ⟨x, y, hx, hy⟩ := valid_finite t hv
  unfold isBetter at h
  unfold isBetterCls
  simp only [Bool.and_eq_true] at h ⊢
  refine ⟨hv, ?_⟩
  have h2 := h.2
  rw [hx, hy] at h2 ⊢
  exact ge_sub_of_ge x y _ _ _ hcfg h2

/-- The content of `hCL` and `hCLs` of any bin: both 0 for a bin the bin loop does not
write, the two fractions for a bin it writes. -/
theorem binLoop_hCL_hCLs (ext : Ext) (ax : Axis) (a : Acc) (i : Nat) :
    ((binLoop ext ax a i).hCL = .fin 0 ∧ (binLoop ext ax a i).hCLs = .fin 0)
    ∨ (a.h_all i ≠ 0
      ∧ (binLoop ext ax a i).hCL
          = FVal.div (FVal.ofNat (a.h_better i)) (FVal.ofNat (a.h_all i))
      ∧ (binLoop ext ax a i).hCLs
          = FVal.div (FVal.ofNat (a.h_better_cls i)) (FVal.ofNat (a.h_all i))) := by
  unfold binLoop
  rw [foldl_binStep]
  by_cases hr : 1 ≤ i ∧ i ≤ ax.nbins
  · rw [if_pos hr]
    by_cases hz : a.h_all i = 0
    · rw [binStep_skip _ _ _ _ _ hz]
      exact Or.inl ⟨rfl, rfl⟩
    · exact Or.inr ⟨hz, (binStep_written ext ax a _ i hz).1,
        (binStep_written_more ext ax a _ i hz).1⟩
  · rw [if_neg hr]
    exact Or.inl ⟨rfl, rfl⟩

/-- The constructor leaves a background minimum at or above the global minimum when
neither minimum is a NaN. -/
theorem constructScanConfig_ordered (g b : FVal) (hg : FVal.isnan g = false)
    (hb : FVal.isnan b = false) :
    FVal.ge (constructScanConfig g b).chi2minBkg (constructScanConfig g b).chi2minGlobal
      = true := by
  unfold constructScanConfig
  dsimp only
  cases g <;> cases b <;> simp_all [FVal.isnan, FVal.ge, FVal.le, FVal.lt]
  · rename_i x y
    by_cases hxy : y < x
    · simp [hxy]
    · simp [hxy, not_lt.mp hxy]

/-- C28 (counterexample): when the prob scan reports the global minimum 0 and a NaN
background minimum, the constructor keeps the NaN (`NaN < 0` is false), so
`chi2minBkg >= chi2minGlobal` does not hold; on the records `[ToyRecord.zero, recAtOne]`
bin 1 then has `n_better = 1`, `n_better_cls = 0`, `hCL = 1` and `hCLs = 0`. -/
theorem C28_counterexample :
    (constructScanConfig (.fin 0) .nan).chi2minBkg = .nan
    ∧ FVal.ge (constructScanConfig (.fin 0) .nan).chi2minBkg
        (constructScanConfig (.fin 0) .nan).chi2minGlobal = false
    ∧ (readScan1dTrees (constructScanConfig (.fin 0) .nan) extDemo 2 0 1
        [ToyRecord.zero, recAtOne]).1.h_all 1 = 1
    ∧ (readScan1dTrees (constructScanConfig (.fin 0) .nan) extDemo 2 0 1
        [ToyRecord.zero, recAtOne]).1.h_better 1 = 1
    ∧ (readScan1dTrees (constructScanConfig (.fin 0) .nan) extDemo 2 0 1
        [ToyRecord.zero, recAtOne]).1.h_better_cls 1 = 0
    ∧ ((readScan1dTrees (constructScanConfig (.fin 0) .nan) extDemo 2 0 1
        [ToyRecord.zero, recAtOne]).2 1).hCL = .fin 1
    ∧ ((readScan1dTrees (constructScanConfig (.fin 0) .nan) extDemo 2 0 1
        [ToyRecord.zero, recAtOne]).2 1).hCLs = .fin 0 := by
  have hcfg : constructScanConfig (.fin 0) .nan = ⟨.fin 0, .nan⟩ := by
    simp [constructScanConfig, FVal.lt]
  have g1 := recordLoop_spec (constructScanConfig (.fin 0) .nan) (treeAxis 2 0 1)
    [ToyRecord.zero, recAtOne] 1
  have c1 : (recordLoop (constructScanConfig (.fin 0) .nan) (treeAxis 2 0 1)
      [ToyRecord.zero, recAtOne]).h_all 1 = 1 := by
    rw [g1.2.1]
    simp [binCount, inBin, recAtOne, ToyRecord.zero, findBin_two_zero, findBin_two_one,
      valid, tooHighLikelihood, convergedFits, FVal.feq, FVal.lt, FVal.abs]
  have c2 : (recordLoop (constructScanConfig (.fin 0) .nan) (treeAxis 2 0 1)
      [ToyRecord.zero, recAtOne]).h_better 1 = 1 := by
    rw [g1.2.2.1, hcfg]
    simp [binCount, inBin, recAtOne, ToyRecord.zero, findBin_two_zero, findBin_two_one,
      isBetter, valid, tooHighLikelihood, convergedFits, FVal.feq, FVal.lt, FVal.abs,
      FVal.ge, FVal.le, FVal.sub, FVal.add, FVal.neg]
  have c3 : (recordLoop (constructScanConfig (.fin 0) .nan) (treeAxis 2 0 1)
      [ToyRecord.zero, recAtOne]).h_better_cls 1 = 0 := by
    rw [g1.2.2.2.1, hcfg]
    simp [binCount, inBin, recAtOne, ToyRecord.zero, findBin_two_zero, findBin_two_one,
      isBetterCls, valid, tooHighLikelihood, convergedFits, FVal.feq, FVal.lt, FVal.abs,
      FVal.ge, FVal.le, FVal.sub, FVal.add, FVal.neg]
  have hne : (recordLoop (constructScanConfig (.fin 0) .nan) (treeAxis 2 0 1)
      [ToyRecord.zero, recAtOne]).h_all 1 ≠ 0 := by
    rw [c1]; decide
  refine ⟨by rw [hcfg], by rw [hcfg]; rfl, ?_, ?_, ?_, ?_, ?_⟩
  · simpa only [readScan1dTrees] using c1
  · simpa only [readScan1dTrees] using c2
  · simpa only [readScan1dTrees] using c3
  · simp only [readScan1dTrees]
    rw [binLoop_row _ _ _ _ (by decide) (by simp [treeAxis]),
      (binStep_written extDemo _ _ _ 1 hne).1]
    simp [binP, c1, c2, FVal.div, FVal.ofNat]
  · simp only [readScan1dTrees]
    rw [binLoop_row _ _ _ _ (by decide) (by simp [treeAxis]),
      (binStep_written_more extDemo _ _ _ 1 hne).1]
    simp [c1, c3, FVal.div, FVal.ofNat]

/-- C28 (amended): when neither minimum reported by the prob scan is a NaN, after
construction `chi2minBkg >= chi2minGlobal` (a lower background minimum is raised to the
global minimum), and therefore for every record sequence and every bin `i`,
`n_better_cls[i] >= n_better[i]` and `hCLs[i] >= hCL[i]`. -/
theorem C28_hCLs_above_hCL (g b : FVal) (hg : FVal.isnan g = false)
    (hb : FVal.isnan b = false) (ext : Ext) (scanpointN : Nat)
    (scanpointMin scanpointMax : ℚ) (ts : List ToyRecord) (i : Nat) :
    FVal.ge (constructScanConfig g b).chi2minBkg (constructScanConfig g b).chi2minGlobal = true
    ∧ (readScan1dTrees (constructScanConfig g b) ext scanpointN scanpointMin scanpointMax
        ts).1.h_better i
      ≤ (readScan1dTrees (constructScanConfig g b) ext scanpointN scanpointMin scanpointMax
        ts).1.h_better_cls i
    ∧ FVal.ge
        ((readScan1dTrees (constructScanConfig g b) ext scanpointN scanpointMin scanpointMax
          ts).2 i).hCLs
        ((readScan1dTrees (constructScanConfig g b) ext scanpointN scanpointMin scanpointMax
          ts).2 i).hCL = true := by
  have hcfg := constructScanConfig_ordered g b hg hb
  obtain ⟨-, -, g3, g4, -⟩ := recordLoop_spec (constructScanConfig g b)
    (treeAxis scanpointN scanpointMin scanpointMax) ts i
  have hle : (recordLoop (constructScanConfig g b)
      (treeAxis scanpointN scanpointMin scanpointMax) ts).h_better i
      ≤ (recordLoop (constructScanConfig g b)
      (treeAxis scanpointN scanpointMin scanpointMax) ts).h_better_cls i := by
    rw [g3, g4]
    exact binCount_mono _ _ (isBetter_isBetterCls _ hcfg) _ _ _
  refine ⟨hcfg, by simpa only [readScan1dTrees] using hle, ?_⟩
  simp only [readScan1dTrees]
  rcases binLoop_hCL_hCLs ext (treeAxis scanpointN scanpointMin scanpointMax)
    (recordLoop (constructScanConfig g b) (treeAxis scanpointN scanpointMin scanpointMax) ts)
    i with ⟨e1, e2⟩ | ⟨hne, e1, e2⟩
  · rw [e1, e2]
    simp [FVal.ge, FVal.le]
  · rw [e1, e2]
    have hq : ((recordLoop (constructScanConfig g b)
        (treeAxis scanpointN scanpointMin scanpointMax) ts).h_all i : ℚ) ≠ 0 := by
      exact_mod_cast hne
    have hpos : (0 : ℚ) < ((recordLoop (constructScanConfig g b)
        (treeAxis scanpointN scanpointMin scanpointMax) ts).h_all i : ℚ) := by
      exact_mod_cast Nat.pos_of_ne_zero hne
    have hleq : ((recordLoop (constructScanConfig g b)
        (treeAxis scanpointN scanpointMin scanpointMax) ts).h_better i : ℚ)
        ≤ ((recordLoop (constructScanConfig g b)
        (treeAxis scanpointN scanpointMin scanpointMax) ts).h_better_cls i : ℚ) := by
      exact_mod_cast hle
    simp only [FVal.div, FVal.ofNat, if_neg hq, FVal.ge, FVal.le, decide_eq_true_eq]
    exact div_le_div_of_nonneg_right hleq (le_of_lt hpos)

/-- Witness of C28 (amended): global minimum 0 and a background minimum -1, which the
constructor raises to 0. -/
theorem C28_hCLs_above_hCL_witness :
    FVal.ge (constructScanConfig (.fin 0) (.fin (-1))).chi2minBkg
      (constructScanConfig (.fin 0) (.fin (-1))).chi2minGlobal = true :=
  (C28_hCLs_above_hCL (.fin 0) (.fin (-1)) rfl rfl extDemo 2 0 1 [ToyRecord.zero, recAtOne]
    1).1

/-! ## Claims on the range of the parameter of interest -/

@[simp] theorem poiRange_fitAssign (env : Env) (s : ScanState) :
    (fitAssign env s).poiRange = s.poiRange := rfl

@[simp] theorem poiRange_setMinNllScan (s : ScanState) :
    (setMinNllScan s).poiRange = s.poiRange := rfl

@[simp] theorem poiRange_setFitStrategy (k : Int) (s : ScanState) :
    (setFitStrategy k s).poiRange = s.poiRange := rfl

@[simp] theorem poiRange_setConstant (b : Bool) (s : ScanState) :
    (setConstant b s).poiRange = s.poiRange := rfl

@[simp] theorem poiRange_setToyData (d : DataId) (s : ScanState) :
    (setToyData d s).poiRange = s.poiRange := rfl

@[simp] theorem poiRange_setParevolPointByIndex (env : Env) (i : Nat) (s : ScanState) :
    (setParevolPointByIndex env i s).poiRange = s.poiRange := rfl

@[simp] theorem poiRange_setAndPrintFitStatusFreeToys (s : ScanState) :
    (setAndPrintFitStatusFreeToys s).poiRange = s.poiRange := by
  unfold setAndPrintFitStatusFreeToys
  split <;> rfl

@[simp] theorem poiRange_flagInfNan (s : ScanState) :
    (flagInfNan s).poiRange = s.poiRange := by
  unfold flagInfNan
  split <;> rfl

@[simp] theorem poiRange_scanFitAttempt (env : Env) (s : ScanState) :
    (scanFitAttempt env s).poiRange = s.poiRange := by
  simp [scanFitAttempt]

@[simp] theorem poiRange_scanFitLadder (env : Env) (s : ScanState) :
    (scanFitLadder env s).poiRange = s.poiRange := by
  unfold scanFitLadder
  dsimp only
  split_ifs <;> simp

@[simp] theorem poiRange_constrainedFit (env : Env) (i : Nat) (s : ScanState) :
    (constrainedFit env i s).poiRange = s.poiRange := by
  unfold constrainedFit
  dsimp only
  exact (poiRange_scanFitLadder env _).trans rfl

@[simp] theorem poiRange_bkgHypFit (env : Env) (i : Nat) (d : DataId) (s : ScanState) :
    (bkgHypFit env i d s).poiRange = s.poiRange := by
  unfold bkgHypFit
  dsimp only
  exact (poiRange_scanFitLadder env _).trans rfl

@[simp] theorem poiRange_toyBodyScan (env : Env) (i j : Nat) (s : ScanState) :
    (toyBodyScan env i j s).poiRange = s.poiRange := by
  unfold toyBodyScan
  dsimp only
  exact (poiRange_constrainedFit env i _).trans rfl

/-- The range in force after the free-fit step is the range `scan`. -/
theorem poiRange_freeFit (env : Env) (i : Nat) (p : FVal) (d : DataId) (s : ScanState) :
    (freeFit env i p d s).poiRange = RangeName.scan := rfl

/-- C26 (the code on the first toy of a run with the default limits): `scan1d` starts
by loading the range `free`; the constrained fit and the fit to the background-only
toy leave it in force, so the range immediately before the free-fit step of toy 0 of
scan point 0 is `free`; the step ends with `setLimit(w, scanVar1, "scan")`, so the
range immediately after it is `scan`, not `free`. -/
theorem C26_range_not_restored :
    (loadParameterLimits (envDemo fitInf) stateDemo).poiRange = RangeName.free
    ∧ stateToys.poiRange = RangeName.free
    ∧ (bkgHypFit (envDemo fitInf) 0 (DataId.bkgToy 0)
        (toyBodyScan (envDemo fitInf) 0 0 stateToys)).poiRange = RangeName.free
    ∧ (freeFit (envDemo fitInf) 0 (toyBodyScan (envDemo fitInf) 0 0 stateToys).poiVal
        (toyBodyScan (envDemo fitInf) 0 0 stateToys).toyData
        (bkgHypFit (envDemo fitInf) 0 (DataId.bkgToy 0)
          (toyBodyScan (envDemo fitInf) 0 0 stateToys))).poiRange = RangeName.scan := by
  refine ⟨rfl, rfl, ?_, rfl⟩
  rw [poiRange_bkgHypFit, poiRange_toyBodyScan]
  rfl

/-! ## Claims on the free-fit ladder -/

/-- One attempt of the free-fit ladder with strategy `k`, up to and including
`setAndPrintFitStatusConstrainedToys`: the optimizer call it makes and the test for a
negative test statistic after it. -/
theorem freeStep_fields (env : Env) (k : Int) (s : ScanState) :
    (setAndPrintFitStatusConstrainedToys (freeFitAttempt env (setFitStrategy k s))).fits
        = s.fits ++ [⟨k, s.toyData, s.poiConstant⟩]
    ∧ (setAndPrintFitStatusConstrainedToys (freeFitAttempt env (setFitStrategy k s))).toyData
        = s.toyData
    ∧ (setAndPrintFitStatusConstrainedToys
        (freeFitAttempt env (setFitStrategy k s))).poiConstant = s.poiConstant
    ∧ (setAndPrintFitStatusConstrainedToys
        (freeFitAttempt env (setFitStrategy k s))).fitStrategy = k
    ∧ (setAndPrintFitStatusConstrainedToys
        (freeFitAttempt env (setFitStrategy k s))).toyTree.chi2minToy = s.toyTree.chi2minToy
    ∧ negTestStat (setAndPrintFitStatusConstrainedToys
        (freeFitAttempt env (setFitStrategy k s)))
        = FVal.lt (FVal.sub s.toyTree.chi2minToy (twice (env.fit s.fits.length).minNll))
            (.fin 0)
    ∧ negTestStat (freeFitAttempt env (setFitStrategy k s))
        = FVal.lt (FVal.sub s.toyTree.chi2minToy (twice (env.fit s.fits.length).minNll))
            (.fin 0) := by
  unfold setAndPrintFitStatusConstrainedToys freeFitAttempt flagNotFiniteFree
  split_ifs <;>
    simp [storeChi2minGlobalToy, setMinNllFree, fitAssign, loadAndFit, setFitStrategy,
      negTestStat]

/-- The extra free fit makes one optimizer call, with the parameter of interest free. -/
theorem recoveryFit_fits (env : Env) (p : FVal) (s : ScanState) :
    (recoveryFit env p s).fits = s.fits ++ [⟨s.fitStrategy, s.toyData, false⟩] := by
  unfold recoveryFit
  dsimp only
  split_ifs <;> simp [setMinNllFree, setVal, setConstant, loadAndFit]

/-- The optimizer calls of the free-fit ladder: the first `k` of the four calls
strategy 0, 1, 2 and extra fit, with `1 <= k <= 4`; the extra fit is made exactly when
the strategy-2 attempt was made and the test statistic after it is negative. -/
theorem freeFitLadder_fits (env : Env) (p : FVal) (s : ScanState) :
    ∃ k, 1 ≤ k ∧ k ≤ 4
      ∧ (freeFitLadder env p s).fits
          = s.fits ++ List.take k
              [(⟨0, s.toyData, s.poiConstant⟩ : FitCall), ⟨1, s.toyData, s.poiConstant⟩,
                ⟨2, s.toyData, s.poiConstant⟩, ⟨2, s.toyData, false⟩]
      ∧ (k = 4 ↔ (3 ≤ k
          ∧ FVal.lt (FVal.sub s.toyTree.chi2minToy
              (twice (env.fit (s.fits.length + 2)).minNll)) (.fin 0) = true)) := by
  obtain ⟨a1, a2, a3, -, a5, -, -⟩ := freeStep_fields env 0 s
  obtain ⟨b1, b2, b3, -, b5, -, -⟩ := freeStep_fields env 1
    (setAndPrintFitStatusConstrainedToys (freeFitAttempt env (setFitStrategy 0 s)))
  obtain ⟨c1, c2, c3, c4, -, c6, -⟩ := freeStep_fields env 2
    (setAndPrintFitStatusConstrainedToys (freeFitAttempt env (setFitStrategy 1
      (setAndPrintFitStatusConstrainedToys (freeFitAttempt env (setFitStrategy 0 s))))))
  rw [a1, a2, a3] at b1
  rw [a2] at b2
  rw [a3] at b3
  rw [a5] at b5
  rw [b1, b2, b3] at c1
  rw [b2] at c2
  rw [b3] at c3
  rw [b5, b1] at c6
  have hlen : (s.fits ++ [(⟨0, s.toyData, s.poiConstant⟩ : FitCall)]
      ++ [(⟨1, s.toyData, s.poiConstant⟩ : FitCall)]).length = s.fits.length + 2 := by
    simp
  rw [hlen] at c6
  unfold freeFitLadder
  dsimp only
  split_ifs with d0 d1 d2
  · refine ⟨4, by omega, by omega, ?_, ?_⟩
    · rw [recoveryFit_fits, c1, c2, c4]
      simp
    · rw [← c6, d2]
      simp
  · refine ⟨3, by omega, by omega, ?_, ?_⟩
    · rw [c1]
      simp
    · rw [← c6]
      simp [d2]
  · refine ⟨2, by omega, by omega, ?_, by omega⟩
    rw [b1]
    simp
  · refine ⟨1, by omega, by omega, ?_, by omega⟩
    rw [a1]
    simp

/-- C24: for every toy, the free fits of the free-fit step of `scan1d` are the first
`k` of the four optimizer calls strategy 0, strategy 1, strategy 2, recovery fit, in
this order, with `1 <= k <= 4`; the recovery fit (the fourth call) is made if and only
if the strategy-2 attempt was made (`k >= 3`) and `chi2minToy` minus twice the minimum
of the strategy-2 result is `< 0`. -/
theorem C24_free_fit_ladder (env : Env) (i : Nat) (parsAfterScanFit : FVal)
    (tempData : DataId) (s : ScanState) :
    ∃ k, 1 ≤ k ∧ k ≤ 4
      ∧ (freeFit env i parsAfterScanFit tempData s).fits
          = s.fits ++ List.take k
              [(⟨0, tempData, false⟩ : FitCall), ⟨1, tempData, false⟩,
                ⟨2, tempData, false⟩, ⟨2, tempData, false⟩]
      ∧ (k = 4 ↔ (3 ≤ k
          ∧ FVal.lt (FVal.sub s.toyTree.chi2minToy
              (twice (env.fit (s.fits.length + 2)).minNll)) (.fin 0) = true)) := by
  obtain ⟨k, h1, h2, h3, h4⟩ := freeFitLadder_fits env parsAfterScanFit
    (setToyData tempData (setLimit RangeName.removed (setConstant false
      (setParevolPointByIndex env i s))))
  exact ⟨k, h1, h2, h3, h4⟩

/-! ## Claims on the reuse of the background-only toys -/

@[simp] theorem toyData_fitAssign (env : Env) (s : ScanState) :
    (fitAssign env s).toyData = s.toyData := rfl

@[simp] theorem toyData_setMinNllScan (s : ScanState) :
    (setMinNllScan s).toyData = s.toyData := rfl

@[simp] theorem toyData_setAndPrintFitStatusFreeToys (s : ScanState) :
    (setAndPrintFitStatusFreeToys s).toyData = s.toyData := by
  unfold setAndPrintFitStatusFreeToys
  split <;> rfl

@[simp] theorem toyData_flagInfNan (s : ScanState) :
    (flagInfNan s).toyData = s.toyData := by
  unfold flagInfNan
  split <;> rfl

@[simp] theorem toyData_scanFitAttempt (env : Env) (s : ScanState) :
    (scanFitAttempt env s).toyData = s.toyData := by
  simp [scanFitAttempt]

@[simp] theorem toyData_scanFitLadder (env : Env) (s : ScanState) :
    (scanFitLadder env s).toyData = s.toyData := by
  unfold scanFitLadder
  dsimp only
  split_ifs <;> simp

/-- The state after step 2 of a toy: the dataset of the pdf is the toy, and the
optimizer calls of the step are made on the toy with the parameter of interest
fixed. -/
theorem toyBodyScan_fits (env : Env) (i j : Nat) (s : ScanState) :
    (toyBodyScan env i j s).toyData = DataId.toy i j
    ∧ ∃ l, (toyBodyScan env i j s).fits = s.fits ++ l
      ∧ ∀ c ∈ l, c.data = DataId.toy i j ∧ c.poiConstant = true := by
  constructor
  · unfold toyBodyScan constrainedFit
    dsimp only
    exact (toyData_scanFitLadder env _).trans rfl
  · have h : ∃ l, (toyBodyScan env i j s).fits = s.fits ++ l
        ∧ ∃ ks : List Int, l = ks.map (fun k => (⟨k, DataId.toy i j, true⟩ : FitCall)) := by
      unfold toyBodyScan constrainedFit
      dsimp only
      exact ⟨_, scanFitLadder_fits env _ rfl, _, rfl⟩
    obtain ⟨l, h1, ks, rfl⟩ := h
    refine ⟨_, h1, ?_⟩
    intro c hc
    simp only [List.mem_map] at hc
    obtain ⟨k, -, rfl⟩ := hc
    exact ⟨rfl, rfl⟩

/-- The optimizer calls of step 2.5 of a toy are made on the dataset given to the step,
with the parameter of interest fixed, and there is at least one. -/
theorem bkgHypFit_fits (env : Env) (i : Nat) (d : DataId) (s : ScanState) :
    ∃ l, (bkgHypFit env i d s).fits = s.fits ++ l ∧ l ≠ []
      ∧ ∀ c ∈ l, c.data = d ∧ c.poiConstant = true := by
  have h : ∃ l, (bkgHypFit env i d s).fits = s.fits ++ l
      ∧ ∃ st0 st1 : Int,
        l = (ladderStrategies st0 st1).map (fun k => (⟨k, d, true⟩ : FitCall)) := by
    unfold bkgHypFit
    dsimp only
    exact ⟨_, scanFitLadder_fits env _ rfl, _, _, rfl⟩
  obtain ⟨l, h1, st0, st1, rfl⟩ := h
  refine ⟨_, h1, ?_, ?_⟩
  · unfold ladderStrategies
    split_ifs <;> simp
  · intro c hc
    simp only [List.mem_map] at hc
    obtain ⟨k, -, rfl⟩ := hc
    exact ⟨rfl, rfl⟩

/-- The optimizer calls of step 3 of a toy are made on the dataset given to the step,
with the parameter of interest free. -/
theorem freeFit_fits (env : Env) (i : Nat) (p : FVal) (d : DataId) (s : ScanState) :
    ∃ l, (freeFit env i p d s).fits = s.fits ++ l
      ∧ ∀ c ∈ l, c.data = d ∧ c.poiConstant = false := by
  obtain ⟨k, -, -, h3, -⟩ := freeFitLadder_fits env p
    (setToyData d (setLimit RangeName.removed (setConstant false
      (setParevolPointByIndex env i s))))
  refine ⟨_, h3, ?_⟩
  intro c hc
  have hc2 := List.mem_of_mem_take hc
  simp only [List.mem_cons, List.mem_singleton, List.not_mem_nil, or_false] at hc2
  rcases hc2 with rfl | rfl | rfl | rfl <;> exact ⟨rfl, rfl⟩

/-- The fit of one background-only toy before the scan stores the dataset generated for
toy index `j`. -/
theorem bkgOnlyToyFit_cls (env : Env) (j : Nat) (s : ScanState) (h : env.hasBkgPdf = true) :
    (bkgOnlyToyFit env j s).cls_bkgOnlyToys = s.cls_bkgOnlyToys ++ [DataId.bkgToy j] := by
  unfold bkgOnlyToyFit
  rw [if_pos h]
  dsimp only
  split_ifs <;>
    simp [setToyData, setMinNllScan, setFitStrategy, setConstant, fitAssign, loadAndFit,
      (flagInfNan_frame_fields _).1]

/-- The loop over the background-only toys before the scan stores one dataset per toy
index, in the order of the toy indices. -/
theorem prefit_cls (env : Env) (n : Nat) (s : ScanState) (h : env.hasBkgPdf = true) :
    ((List.range n).foldl (fun s j => bkgOnlyToyFit env j s) s).cls_bkgOnlyToys
      = s.cls_bkgOnlyToys ++ (List.range n).map DataId.bkgToy := by
  induction n with
  | zero => simp
  | succ n ih =>
    rw [List.range_succ, List.foldl_append]
    simp only [List.foldl_cons, List.foldl_nil]
    rw [bkgOnlyToyFit_cls env n _ h, ih, List.map_append, List.append_assoc]
    rfl

/-- A toy of the toy loop with the stores filled to `nToys`: the entry written holds
the toy number `j` and the elements `j` of the two stores, the stores are left as they
are, and the optimizer calls of the toy are made on the toy, then on element `j` of
`cls_bkgOnlyToys`, then on the toy again. -/
theorem toyBody_record (env : Env) (i j : Nat) (s : ScanState) (hj : j < env.nToys)
    (h1 : s.cls_bkgOnlyToys.length = env.nToys)
    (h2 : s.chi2minGlobalBkgToysStore.length = env.nToys)
    (h3 : s.scanbestBkgToysStore.length = env.nToys) :
    ∃ s2 t, toyBody env i j s = .ok s2
      ∧ s2.filled = s.filled ++ [t]
      ∧ t.ntoy = FVal.ofNat j
      ∧ s.chi2minGlobalBkgToysStore[j]? = some t.chi2minGlobalBkgToy
      ∧ s.scanbestBkgToysStore[j]? = some t.scanbestBkg
      ∧ s2.cls_bkgOnlyToys = s.cls_bkgOnlyToys
      ∧ s2.chi2minGlobalBkgToysStore = s.chi2minGlobalBkgToysStore
      ∧ s2.scanbestBkgToysStore = s.scanbestBkgToysStore
      ∧ ∃ d l1 l2 l3, s.cls_bkgOnlyToys[j]? = some d
        ∧ s2.fits = s.fits ++ l1 ++ l2 ++ l3
        ∧ (∀ c ∈ l1, c.data = DataId.toy i j ∧ c.poiConstant = true)
        ∧ l2 ≠ []
        ∧ (∀ c ∈ l2, c.data = d ∧ c.poiConstant = true)
        ∧ (∀ c ∈ l3, c.data = DataId.toy i j ∧ c.poiConstant = false) := by
  have f1 := frame_toyBodyScan env i j s
  have hcls : (toyBodyScan env i j s).cls_bkgOnlyToys = s.cls_bkgOnlyToys :=
    congrArg (fun p => p.1) f1
  obtain ⟨d, hd0⟩ : ∃ d, s.cls_bkgOnlyToys[j]? = some d :=
    ⟨s.cls_bkgOnlyToys[j], List.getElem?_eq_getElem (by omega)⟩
  have hd : (toyBodyScan env i j s).cls_bkgOnlyToys[j]? = some d := by rw [hcls, hd0]
  have f2 : frame (freeFit env i (toyBodyScan env i j s).poiVal (toyBodyScan env i j s).toyData
      (bkgHypFit env i d (toyBodyScan env i j s)))
      = (s.cls_bkgOnlyToys, s.chi2minGlobalBkgToysStore, s.scanbestBkgToysStore, s.filled,
          s.toyTree.npoint, FVal.ofNat j) := by
    rw [frame_freeFit, frame_bkgHypFit, f1]
  simp only [frame, Prod.mk.injEq] at f2
  obtain ⟨g1, g2, g3, g4, g5, g6⟩ := f2
  obtain ⟨c, hc⟩ : ∃ c, s.chi2minGlobalBkgToysStore[j]? = some c :=
    ⟨s.chi2minGlobalBkgToysStore[j], List.getElem?_eq_getElem (by omega)⟩
  obtain ⟨b, hb⟩ : ∃ b, s.scanbestBkgToysStore[j]? = some b :=
    ⟨s.scanbestBkgToysStore[j], List.getElem?_eq_getElem (by omega)⟩
  obtain ⟨t1, l1, e1, p1⟩ := toyBodyScan_fits env i j s
  obtain ⟨l2, e2, n2, p2⟩ := bkgHypFit_fits env i d (toyBodyScan env i j s)
  obtain ⟨l3, e3, p3⟩ := freeFit_fits env i (toyBodyScan env i j s).poiVal
    (toyBodyScan env i j s).toyData (bkgHypFit env i d (toyBodyScan env i j s))
  rw [t1] at p3
  rw [e2, e1] at e3
  unfold toyBody
  simp only [hd, g2, g3, g4, h2, h3, ne_eq, not_true_eq_false, if_false, hc, hb]
  refine ⟨_, _, rfl, rfl, g6, rfl, rfl, g1, rfl, rfl, d, l1, l2, l3, hd0, e3, p1, n2, p2, p3⟩

/-- The toy loop of a scan point keeps the stores and writes only entries that hold the
values cached for their toy index. -/
theorem toysLoop_cached (env : Env) (i n : Nat) (s : ScanState) (hn : n ≤ env.nToys)
    (h1 : s.cls_bkgOnlyToys.length = env.nToys)
    (h2 : s.chi2minGlobalBkgToysStore.length = env.nToys)
    (h3 : s.scanbestBkgToysStore.length = env.nToys)
    (hinv : ∀ t ∈ s.filled,
      bkgCached env.nToys s.chi2minGlobalBkgToysStore s.scanbestBkgToysStore t) :
    ∃ s2, toysLoop env i n s = .ok s2
      ∧ s2.cls_bkgOnlyToys = s.cls_bkgOnlyToys
      ∧ s2.chi2minGlobalBkgToysStore = s.chi2minGlobalBkgToysStore
      ∧ s2.scanbestBkgToysStore = s.scanbestBkgToysStore
      ∧ ∀ t ∈ s2.filled,
          bkgCached env.nToys s.chi2minGlobalBkgToysStore s.scanbestBkgToysStore t := by
  induction n with
  | zero => exact ⟨s, rfl, rfl, rfl, rfl, hinv⟩
  | succ n ih =>
    obtain ⟨s1, e1, c1, c2, c3, inv1⟩ := ih (by omega)
    obtain ⟨s2, t, e2, k2, t1, t2, t3, d1, d2, d3, -⟩ := toyBody_record env i n s1 (by omega)
      (by rw [c1, h1]) (by rw [c2, h2]) (by rw [c3, h3])
    refine ⟨s2, ?_, d1.trans c1, d2.trans c2, d3.trans c3, ?_⟩
    · unfold toysLoop at e1 ⊢
      rw [List.range_succ, List.foldlM_append, e1]
      simp only [List.foldlM_cons, List.foldlM_nil]
      change (toyBody env i n s1 >>= fun s => pure s) = _
      rw [e2]
      rfl
    · intro u hu
      rw [k2, List.mem_append, List.mem_singleton] at hu
      rcases hu with hu | rfl
      · exact inv1 u hu
      · rw [c2] at t2
        rw [c3] at t3
        exact ⟨n, by omega, t1, t2, t3⟩

theorem toysLoop_cached_result (env : Env) (i : Nat) (s : ScanState)
    (r : Except Abort ScanState) (hr : toysLoop env i env.nToys s = r)
    (h1 : s.cls_bkgOnlyToys.length = env.nToys)
    (h2 : s.chi2minGlobalBkgToysStore.length = env.nToys)
    (h3 : s.scanbestBkgToysStore.length = env.nToys)
    (hinv : ∀ t ∈ s.filled,
      bkgCached env.nToys s.chi2minGlobalBkgToysStore s.scanbestBkgToysStore t) :
    ∃ s2, r = .ok s2
      ∧ s2.cls_bkgOnlyToys = s.cls_bkgOnlyToys
      ∧ s2.chi2minGlobalBkgToysStore = s.chi2minGlobalBkgToysStore
      ∧ s2.scanbestBkgToysStore = s.scanbestBkgToysStore
      ∧ ∀ t ∈ s2.filled,
          bkgCached env.nToys s.chi2minGlobalBkgToysStore s.scanbestBkgToysStore t := by
  rw [← hr]
  exact toysLoop_cached env i env.nToys s (le_refl _) h1 h2 h3 hinv

/-- A scan point that passes the checks keeps the stores and writes only entries that
hold the values cached for their toy index. -/
theorem pointBody_cached (env : Env) (parsFunctionCall : FVal) (s : ScanState) (i : Nat)
    (hfound : env.chi2minGlobalFound = true) (himp : env.importance = false)
    (h0 : i = 0 → FVal.fne (scanpointAt env i) (.fin 0) = false)
    (hr : ∀ r, FVal.lt (scanpointAt env i) (env.rangeMin r) = false
      ∧ FVal.gt (scanpointAt env i) (FVal.add (env.rangeMax r) (.fin (2 / 10 ^ 13))) = false)
    (h1 : s.cls_bkgOnlyToys.length = env.nToys)
    (h2 : s.chi2minGlobalBkgToysStore.length = env.nToys)
    (h3 : s.scanbestBkgToysStore.length = env.nToys)
    (hinv : ∀ t ∈ s.filled,
      bkgCached env.nToys s.chi2minGlobalBkgToysStore s.scanbestBkgToysStore t) :
    ∃ s2, pointBody env parsFunctionCall s i = .ok s2
      ∧ s2.cls_bkgOnlyToys = s.cls_bkgOnlyToys
      ∧ s2.chi2minGlobalBkgToysStore = s.chi2minGlobalBkgToysStore
      ∧ s2.scanbestBkgToysStore = s.scanbestBkgToysStore
      ∧ ∀ t ∈ s2.filled,
          bkgCached env.nToys s.chi2minGlobalBkgToysStore s.scanbestBkgToysStore t := by
  have hc : (decide (i = 0) && FVal.fne (scanpointAt env i) (.fin 0)) = false := by
    by_cases hi : i = 0
    · simp [h0 hi]
    · simp [hi]
  unfold pointBody
  dsimp only
  simp only [hc, (hr _).1, (hr _).2, hfound, nActualToys, himp, Bool.false_eq_true, if_false,
    Bool.or_self, Bool.not_true]
  split
  · rename_i e heq
    obtain ⟨s2, e2, -⟩ := toysLoop_cached_result env i _ _ heq h1 h2 h3 hinv
    cases e2
  · rename_i s1 heq
    obtain ⟨s2, e2, c1, c2, c3, inv⟩ := toysLoop_cached_result env i _ _ heq h1 h2 h3 hinv
    cases e2
    exact ⟨_, rfl, c1, c2, c3, inv⟩

/-- The loop over the first `m` scan points keeps the stores and writes only entries
that hold the values cached for their toy index. -/
theorem scanLoop_cached (env : Env) (parsFunctionCall : FVal) (m : Nat) (s : ScanState)
    (hm : m ≤ env.nPoints1d)
    (hfound : env.chi2minGlobalFound = true) (himp : env.importance = false)
    (h0 : FVal.fne (scanpointAt env 0) (.fin 0) = false)
    (hr : ∀ i, i < env.nPoints1d → ∀ r, FVal.lt (scanpointAt env i) (env.rangeMin r) = false
      ∧ FVal.gt (scanpointAt env i) (FVal.add (env.rangeMax r) (.fin (2 / 10 ^ 13))) = false)
    (h1 : s.cls_bkgOnlyToys.length = env.nToys)
    (h2 : s.chi2minGlobalBkgToysStore.length = env.nToys)
    (h3 : s.scanbestBkgToysStore.length = env.nToys)
    (hinv : ∀ t ∈ s.filled,
      bkgCached env.nToys s.chi2minGlobalBkgToysStore s.scanbestBkgToysStore t) :
    ∃ s2, (List.range m).foldlM (pointBody env parsFunctionCall) s = .ok s2
      ∧ s2.cls_bkgOnlyToys = s.cls_bkgOnlyToys
      ∧ s2.chi2minGlobalBkgToysStore = s.chi2minGlobalBkgToysStore
      ∧ s2.scanbestBkgToysStore = s.scanbestBkgToysStore
      ∧ ∀ t ∈ s2.filled,
          bkgCached env.nToys s.chi2minGlobalBkgToysStore s.scanbestBkgToysStore t := by
  induction m with
  | zero => exact ⟨s, rfl, rfl, rfl, rfl, hinv⟩
  | succ m ih =>
    obtain ⟨s1, e1, c1, c2, c3, inv1⟩ := ih (by omega)
    obtain ⟨s2, e2, d1, d2, d3, inv2⟩ := pointBody_cached env parsFunctionCall s1 m hfound
      himp (fun hz => by rw [hz]; exact h0) (hr m (by omega))
      (by rw [c1, h1]) (by rw [c2, h2]) (by rw [c3, h3]) (by rw [c2, c3]; exact inv1)
    refine ⟨s2, ?_, d1.trans c1, d2.trans c2, d3.trans c3, ?_⟩
    · rw [List.range_succ, List.foldlM_append, e1]
      simp only [List.foldlM_cons, List.foldlM_nil]
      change (pointBody env parsFunctionCall s1 m >>= fun s => pure s) = _
      rw [e2]
      rfl
    · rw [c2, c3] at inv2
      exact inv2

/-- C21: in a run of `scan1d` that hits no fatal precondition, with a background-only
model and importance sampling off, the background-only datasets are generated and
fitted in the loop before the scan, one per toy index; the scan leaves the list of
datasets and the two stores as that loop filled them; every entry written holds, for
its toy number `j`, the elements `j` of the two stores in `chi2minGlobalBkgToy` and
`scanbestBkg`; and a toy `j` of any scan point `i` run on these stores makes its
optimizer calls on the toy, then at least one on the dataset `j` of the list with the
parameter of interest fixed, then on the toy again, and on no other dataset. -/
theorem C21_bkg_toys_reused (env : Env) (s : ScanState)
    (hfile : env.probResFileFound = true)
    (hfound : env.chi2minGlobalFound = true) (hbkg : env.hasBkgPdf = true)
    (himp : env.importance = false)
    (h0 : FVal.fne (scanpointAt env 0) (.fin 0) = false)
    (hr : ∀ i, i < env.nPoints1d → ∀ r, FVal.lt (scanpointAt env i) (env.rangeMin r) = false
      ∧ FVal.gt (scanpointAt env i) (FVal.add (env.rangeMax r) (.fin (2 / 10 ^ 13))) = false) :
    ∃ s2, scan1d env s = .ok s2
      ∧ s2.cls_bkgOnlyToys = (List.range env.nToys).map DataId.bkgToy
      ∧ s2.chi2minGlobalBkgToysStore
          = ((List.range env.nToys).foldl (fun s j => bkgOnlyToyFit env j s)
              { loadParameterLimits env s with
                toyTree := { env.toyTreeInit with nrun := FVal.ofInt env.nRun },
                filled := [], cls_bkgOnlyToys := [], chi2minGlobalBkgToysStore := [],
                scanbestBkgToysStore := [] }).chi2minGlobalBkgToysStore
      ∧ s2.scanbestBkgToysStore
          = ((List.range env.nToys).foldl (fun s j => bkgOnlyToyFit env j s)
              { loadParameterLimits env s with
                toyTree := { env.toyTreeInit with nrun := FVal.ofInt env.nRun },
                filled := [], cls_bkgOnlyToys := [], chi2minGlobalBkgToysStore := [],
                scanbestBkgToysStore := [] }).scanbestBkgToysStore
      ∧ s2.chi2minGlobalBkgToysStore.length = env.nToys
      ∧ s2.scanbestBkgToysStore.length = env.nToys
      ∧ (∀ t ∈ s2.filled,
          bkgCached env.nToys s2.chi2minGlobalBkgToysStore s2.scanbestBkgToysStore t)
      ∧ (∀ (i j : Nat) (s0 : ScanState), j < env.nToys →
          s0.cls_bkgOnlyToys = s2.cls_bkgOnlyToys →
          s0.chi2minGlobalBkgToysStore = s2.chi2minGlobalBkgToysStore →
          s0.scanbestBkgToysStore = s2.scanbestBkgToysStore →
          ∃ s1 l1 l2 l3, toyBody env i j s0 = .ok s1
            ∧ s1.cls_bkgOnlyToys = s0.cls_bkgOnlyToys
            ∧ s1.chi2minGlobalBkgToysStore = s0.chi2minGlobalBkgToysStore
            ∧ s1.scanbestBkgToysStore = s0.scanbestBkgToysStore
            ∧ s1.fits = s0.fits ++ l1 ++ l2 ++ l3
            ∧ (∀ c ∈ l1, c.data = DataId.toy i j ∧ c.poiConstant = true)
            ∧ l2 ≠ []
            ∧ (∀ c ∈ l2, c.data = DataId.bkgToy j ∧ c.poiConstant = true)
            ∧ (∀ c ∈ l3, c.data = DataId.toy i j ∧ c.poiConstant = false)) := by
  obtain ⟨p1, p2, p3, p4, -⟩ := prefit_stores env env.nToys
    { loadParameterLimits env s with
      toyTree := { env.toyTreeInit with nrun := FVal.ofInt env.nRun },
      filled := [], cls_bkgOnlyToys := [], chi2minGlobalBkgToysStore := [],
      scanbestBkgToysStore := [] } hbkg
  have p5 := prefit_cls env env.nToys
    { loadParameterLimits env s with
      toyTree := { env.toyTreeInit with nrun := FVal.ofInt env.nRun },
      filled := [], cls_bkgOnlyToys := [], chi2minGlobalBkgToysStore := [],
      scanbestBkgToysStore := [] } hbkg
  obtain ⟨s2, e, c1, c2, c3, inv⟩ := scanLoop_cached env (loadParameterLimits env s).poiVal
    env.nPoints1d
    ((List.range env.nToys).foldl (fun s j => bkgOnlyToyFit env j s)
      { loadParameterLimits env s with
        toyTree := { env.toyTreeInit with nrun := FVal.ofInt env.nRun },
        filled := [], cls_bkgOnlyToys := [], chi2minGlobalBkgToysStore := [],
        scanbestBkgToysStore := [] })
    (le_refl _) hfound himp h0 hr (by simpa using p1) (by simpa using p2) (by simpa using p3)
    (by rw [p4]; intro t ht; cases ht)
  have hcls : s2.cls_bkgOnlyToys = (List.range env.nToys).map DataId.bkgToy := by
    rw [c1, p5]
    rfl
  have hl2 : s2.chi2minGlobalBkgToysStore.length = env.nToys := by
    rw [c2, p2]
    simp
  have hl3 : s2.scanbestBkgToysStore.length = env.nToys := by
    rw [c3, p3]
    simp
  refine ⟨s2, ?_, hcls, c2, c3, hl2, hl3, ?_, ?_⟩
  · unfold scan1d
    dsimp only
    simp only [hfile, nActualToys, himp, Bool.not_true, Bool.false_eq_true, if_false]
    exact e
  · rw [c2, c3]
    exact inv
  · intro i j s0 hj q1 q2 q3
    obtain ⟨s1, t, e1, -, -, -, -, d1, d2, d3, d, l1, l2, l3, hd, hf, r1, r2, r3, r4⟩ :=
      toyBody_record env i j s0 hj (by rw [q1, hcls]; simp) (by rw [q2, hl2])
        (by rw [q3, hl3])
    have hdj : d = DataId.bkgToy j := by
      rw [q1, hcls] at hd
      simp [hj] at hd
      exact hd.symm
    rw [hdj] at r3
    exact ⟨s1, l1, l2, l3, e1, d1, d2, d3, hf, r1, r2, r3, r4⟩

theorem envDemo_grid (fit : Nat → FitOutcome) :
    FVal.fne (scanpointAt (envDemo fit) 0) (.fin 0) = false
    ∧ ∀ i, i < (envDemo fit).nPoints1d → ∀ r,
        FVal.lt (scanpointAt (envDemo fit) i) ((envDemo fit).rangeMin r) = false
        ∧ FVal.gt (scanpointAt (envDemo fit) i)
            (FVal.add ((envDemo fit).rangeMax r) (.fin (2 / 10 ^ 13))) = false := by
  constructor
  · simp [scanpointAt, envDemo, FVal.fne, FVal.feq, FVal.add, FVal.sub, FVal.neg, FVal.mul,
      FVal.div, FVal.ofNat]
    norm_num
  · intro i hi r
    have hi2 : i < 2 := hi
    interval_cases i
    · simp [scanpointAt, envDemo, FVal.lt, FVal.gt, FVal.add, FVal.sub, FVal.neg, FVal.mul,
        FVal.div, FVal.ofNat]
      norm_num
    · simp [scanpointAt, envDemo, FVal.lt, FVal.gt, FVal.add, FVal.sub, FVal.neg, FVal.mul,
        FVal.div, FVal.ofNat]
      norm_num

/-- Witness of C21: two scan points over `[0, 1]`, one toy per point, every fit
returning an infinite minimum. -/
theorem C21_bkg_toys_reused_witness :
    ∃ s2, scan1d (envDemo fitInf) stateDemo = .ok s2
      ∧ s2.cls_bkgOnlyToys = [DataId.bkgToy 0]
      ∧ ∀ t ∈ s2.filled,
          bkgCached 1 s2.chi2minGlobalBkgToysStore s2.scanbestBkgToysStore t := by
  obtain ⟨s2, e, c, -, -, -, -, inv, -⟩ := C21_bkg_toys_reused (envDemo fitInf) stateDemo
    rfl rfl rfl rfl (envDemo_grid fitInf).1 (envDemo_grid fitInf).2
  exact ⟨s2, e, c, inv⟩

end MethodDatasetsPluginScan
